import Mathlib

/-! # CloudComPy: connected-component extraction and colour functions

A shallow embedding of `createComponentsClouds_` and `ExtractConnectedComponents_py`
(`src/boostPython/cloudComPy.cpp`) and of `GetFirstAvailableSFName`, `sfFromColor_py` and
`changeColorLevels_py` (`src/boostPython/ccPointCloudPy.cpp`), together with the properties
of the specification that concern them.

The binding calls into the CloudCompare engine (octree, scalar fields, labelling,
partial clone, sorting, random colours).  These collaborators are not part of the
repository; their outcomes are carried by the record `Engine`, so every theorem
below holds for every behaviour of the engine that meets the stated hypotheses.
Pointers to clouds are modelled by values; the state of a cloud after a call is
returned next to the result.
-/

namespace CloudComPy

/-! ## Data model -/

/-- A coordinate or a double of the engine, carried as an uninterpreted value: the
binding only copies such values. -/
abbrev Scalar := Int

/-- Colour `ccColor::Rgb`. -/
structure Rgb where
  r : Nat
  g : Nat
  b : Nat
deriving DecidableEq, Repr

/-- Colour `ccColor::Rgba`. -/
structure Rgba where
  r : Nat
  g : Nat
  b : Nat
  a : Nat
deriving DecidableEq, Repr

/-- Position of a point (`CCVector3`). -/
structure CCVector3 where
  x : Scalar
  y : Scalar
  z : Scalar
deriving DecidableEq, Repr

/-- A named array of per-point values attached to a cloud. -/
structure ScalarField where
  name : String
  values : List Scalar
deriving DecidableEq, Repr

/-- Handle of an octree built on a cloud (`ccOctree::Shared`, non-null). -/
structure ccOctree where
  id : Nat
deriving DecidableEq, Repr

/-- The part of a `ccPointCloud` the binding reads or writes. -/
structure ccPointCloud where
  name : String
  points : List CCVector3
  rgbaColors : Option (List Rgba)
  scalarFields : List ScalarField
  currentInScalarFieldIndex : Int
  currentOutScalarFieldIndex : Int
  globalShift : CCVector3
  globalScale : Scalar
  octree : Option ccOctree
deriving DecidableEq, Repr

/-- A cloud seen through `ccGenericPointCloud*`: either a `ccPointCloud`
(`isA(CC_TYPES::POINT_CLOUD)` holds) or an object of another class of point-cloud kind. -/
inductive ccGenericPointCloud where
  | pointCloud (pc : ccPointCloud)
  | generic (name : String)
deriving DecidableEq, Repr

/-- An entity `ccHObject*`: of point-cloud kind (`isKindOf(CC_TYPES::POINT_CLOUD)`), or not. -/
inductive ccHObject where
  | cloud (c : ccGenericPointCloud)
  | other (name : String)
deriving DecidableEq, Repr

/-- A group of point indices of a source cloud (`CCCoreLib::ReferenceCloud`). -/
structure ReferenceCloud where
  indices : List Nat
deriving DecidableEq, Repr

/-- Number of indices of the group, `ReferenceCloud::size()`. -/
def ReferenceCloud.size (g : ReferenceCloud) : Nat := g.indices.length

/-- The pair used for sorting (`struct ComponentIndexAndSize`). -/
structure ComponentIndexAndSize where
  index : Nat
  size : Nat
deriving DecidableEq, Repr

/-- Comparator `ComponentIndexAndSize::DescendingCompOperator`: `a.size > b.size`. -/
def ComponentIndexAndSize.DescendingCompOperator (a b : ComponentIndexAndSize) : Bool :=
  decide (a.size > b.size)

/-- The collaborators of the binding that are outside the repository. -/
structure Engine where
  /-- `ParallelSort(begin, end, DescendingCompOperator)`: the sorted sequence. -/
  ParallelSort : List ComponentIndexAndSize → List ComponentIndexAndSize
  /-- Whether `sortedIndexes.reserve(n)` succeeds (no `std::bad_alloc`). -/
  reserve : Nat → Bool
  /-- The result of `pc->partialClone(compIndexes)`; `none` is the null pointer. -/
  partialClone : ccPointCloud → ReferenceCloud → Option ccPointCloud
  /-- The result of `ccPointCloud::From(compIndexes)`; `none` is the null pointer. -/
  From : ReferenceCloud → Option ccPointCloud
  /-- The colour returned by the n-th call of `ccColor::Generator::Random()`. -/
  Random : Nat → Rgb
  /-- The result of `cloud->computeOctree(nullptr)`; `none` is the null pointer. -/
  computeOctree : ccPointCloud → Option ccOctree
  /-- Whether the allocation made by `addScalarField(name)` succeeds. -/
  allocScalarField : ccPointCloud → Bool
  /-- The status returned by `labelConnectedComponents(cloud, level, false, nullptr, octree)`
  and the labels it writes into the current scalar field. -/
  labelConnectedComponents : ccPointCloud → Nat → ccOctree → Int × List Scalar
  /-- The status returned by `extractConnectedComponents(cloud, components)` and the content
  of `components` after the call. -/
  extractConnectedComponents : ccPointCloud → List ReferenceCloud → Bool × List ReferenceCloud
  /-- The constant `CC_CONNECTED_COMPONENTS_DEFAULT_LABEL_NAME`. -/
  labelName : String

/-- Conversion of a C++ `int` to `unsigned` (32 bits). -/
def toUnsigned (i : Int) : Nat := (i % 4294967296).toNat

/-- Conversion of a C++ `int` to `unsigned char`. -/
def toUnsignedChar (i : Int) : Nat := (i % 256).toNat

/-! ## Operations of `ccPointCloud` used by the binding -/

/-- Modelled from the spec: `ccPointCloud::size()` of the external engine, the number of
points of the cloud. -/
def ccPointCloud.size (pc : ccPointCloud) : Nat := pc.points.length

/-- Modelled from the spec: `ccPointCloud::setColor(col)` of the external engine, which gives
every point the same colour (opaque alpha). -/
def ccPointCloud.setColor (pc : ccPointCloud) (col : Rgb) : ccPointCloud :=
  { pc with rgbaColors := some (List.replicate pc.size ⟨col.r, col.g, col.b, 255⟩) }

/-- Modelled from the spec: `copyGlobalShiftAndScale(other)` of the external engine, which
copies the global shift and the global scale of `other`. -/
def ccPointCloud.copyGlobalShiftAndScale (pc other : ccPointCloud) : ccPointCloud :=
  { pc with globalShift := other.globalShift, globalScale := other.globalScale }

/-- Modelled from the spec: `setName` of the external engine. -/
def ccPointCloud.setName (pc : ccPointCloud) (n : String) : ccPointCloud :=
  { pc with name := n }

/-- The name `QString("CC#%1").arg(nbComp)`. -/
def ccName (nbComp : Nat) : String := "CC#" ++ toString nbComp

/-! ## `createComponentsClouds_` -/

/-- The local state of the materialization loop: `resultClouds`, `nbComp`, and the number of
colours drawn from the random generator so far.  The counter `nbComp` is an `int` that never
exceeds the number of groups of the container; it is carried without a bound. -/
structure LoopState where
  resultClouds : List ccPointCloud
  nbComp : Nat
  gen : Nat
deriving DecidableEq, Repr

/-- The vector `sortedIndexes` after the filling loop: `(i, components[i]->size())` for
`i < compCount`. -/
def fillSortedIndexes (components : List ReferenceCloud) (compCount : Nat) :
    Option (List ComponentIndexAndSize) :=
  (List.range compCount).mapM
    (fun i => (components[i]?).map (fun c => ComponentIndexAndSize.mk i c.size))

/-- The pointer `_sortedIndexes` after the sorting block: `none` is `nullptr`
(sorting not requested, or `reserve` failed); the outer `none` is an access out of bounds. -/
def sortBlock (E : Engine) (components : List ReferenceCloud) (sortBysize : Bool) :
    Option (Option (List ComponentIndexAndSize)) :=
  if sortBysize then
    if E.reserve components.length then
      let compCount := components.length % 4294967296
      match fillSortedIndexes components compCount with
      | none => none
      | some sortedIndexes => some (some (E.ParallelSort sortedIndexes))
    else some none
  else some none

/-- The group selected at iteration `i`:
`_sortedIndexes ? components[_sortedIndexes->at(i).index] : components[i]`;
`none` is an access out of bounds. -/
def compIndexesAt (components : List ReferenceCloud)
    (sortedIndexes : Option (List ComponentIndexAndSize)) (i : Nat) : Option ReferenceCloud :=
  match sortedIndexes with
  | some s =>
    match s[i]? with
    | some e => components[e.index]?
    | none => none
  | none => components[i]?

/-- One iteration of the loop `for each component` on the selected group. -/
def loopBody (E : Engine) (pc : Option ccPointCloud) (minPointsPerComponent : Nat)
    (randomColors : Bool) (st : LoopState) (compIndexes : ReferenceCloud) : LoopState :=
  if compIndexes.size ≥ minPointsPerComponent then
    let created :=
      match pc with
      | some p => E.partialClone p compIndexes
      | none => E.From compIndexes
    match created with
    | some compCloud =>
      let colored := if randomColors then (compCloud.setColor (E.Random st.gen), st.gen + 1)
                     else (compCloud, st.gen)
      let shifted :=
        match pc with
        | some p => colored.1.copyGlobalShiftAndScale p
        | none => colored.1
      let named := shifted.setName (ccName st.nbComp)
      { resultClouds := st.resultClouds ++ [named], nbComp := st.nbComp + 1, gen := colored.2 }
    | none => st
  else st

/-- The loop `for (size_t i = 0; i < components.size(); ++i)` over the remaining indices. -/
def componentsLoop (E : Engine) (pc : Option ccPointCloud)
    (components : List ReferenceCloud) (sortedIndexes : Option (List ComponentIndexAndSize))
    (minPointsPerComponent : Nat) (randomColors : Bool) :
    List Nat → LoopState → Option LoopState
  | [], st => some st
  | i :: rest, st =>
    match compIndexesAt components sortedIndexes i with
    | none => none
    | some compIndexes =>
      componentsLoop E pc components sortedIndexes minPointsPerComponent randomColors rest
        (loopBody E pc minPointsPerComponent randomColors st compIndexes)

/-- What a call of `createComponentsClouds_` leaves: the returned vector, the container
`components` after the call, and the state of the random generator. -/
structure CreateResult where
  resultClouds : List ccPointCloud
  components : List ReferenceCloud
  gen : Nat
deriving DecidableEq, Repr

/-- The function `createComponentsClouds_(cloud, components, minPointsPerComponent,
randomColors, sortBysize)`; `cloud = none` is the null pointer, `gen` the number of colours
drawn so far.  The result `none` stands for an access out of bounds. -/
def createComponentsClouds_ (E : Engine) (cloud : Option ccGenericPointCloud)
    (components : List ReferenceCloud) (minPointsPerComponent : Nat) (randomColors : Bool)
    (sortBysize : Bool) (gen : Nat) : Option CreateResult :=
  match cloud with
  | none => some ⟨[], components, gen⟩
  | some c =>
    if components.isEmpty then some ⟨[], components, gen⟩
    else
      match sortBlock E components sortBysize with
      | none => none
      | some sortedIndexes =>
        let pc : Option ccPointCloud :=
          match c with
          | .pointCloud p => some p
          | .generic _ => none
        match componentsLoop E pc components sortedIndexes minPointsPerComponent randomColors
            (List.range components.length) ⟨[], 0, gen⟩ with
        | none => none
        | some st => some ⟨st.resultClouds, [], st.gen⟩

/-! ## Scalar fields of a cloud -/

/-- Modelled from the spec: `getScalarFieldIndexByName(name)` of the external engine, the index
of the first scalar field with that name, or `-1` when there is none. -/
def ccPointCloud.getScalarFieldIndexByName (pc : ccPointCloud) (name : String) : Int :=
  let i := pc.scalarFields.findIdx (fun sf => sf.name == name)
  if i < pc.scalarFields.length then (i : Int) else -1

/-- Modelled from the spec: `addScalarField(name)` of the external engine: refuses a name in
use, otherwise appends a new field of the size of the cloud and returns its index, or `-1`
when the allocation fails. -/
def ccPointCloud.addScalarField (E : Engine) (pc : ccPointCloud) (name : String) :
    Int × ccPointCloud :=
  if pc.getScalarFieldIndexByName name ≥ 0 then (-1, pc)
  else if E.allocScalarField pc then
    ((pc.scalarFields.length : Int),
      { pc with scalarFields := pc.scalarFields ++ [⟨name, List.replicate pc.size 0⟩] })
  else (-1, pc)

/-- Modelled from the spec: `setCurrentScalarField(index)` of the external engine, which makes
the field both the input and the output scalar field. -/
def ccPointCloud.setCurrentScalarField (pc : ccPointCloud) (index : Int) : ccPointCloud :=
  { pc with currentInScalarFieldIndex := index, currentOutScalarFieldIndex := index }

/-- Modelled from the spec: `deleteScalarField(index)` of the external engine: an index out of
range is ignored; otherwise the field is detached (the last field takes its place) and a
current-field role that pointed to it is reset. -/
def ccPointCloud.deleteScalarField (pc : ccPointCloud) (index : Int) : ccPointCloud :=
  let sfCount : Int := pc.scalarFields.length
  if index < 0 ∨ index ≥ sfCount then pc
  else
    match pc.scalarFields.getLast? with
    | none => pc
    | some last =>
      let lastIndex := sfCount - 1
      let role := fun (r : Int) =>
        if r = index then -1 else if r = lastIndex then index else r
      { pc with
        scalarFields := (pc.scalarFields.set index.toNat last).dropLast,
        currentInScalarFieldIndex := role pc.currentInScalarFieldIndex,
        currentOutScalarFieldIndex := role pc.currentOutScalarFieldIndex }

/-- The labels written by the labelling engine into the current output scalar field. -/
def ccPointCloud.writeLabels (pc : ccPointCloud) (labels : List Scalar) : ccPointCloud :=
  if pc.currentOutScalarFieldIndex < 0 then pc
  else
    let written := pc.scalarFields.modify (fun sf => { sf with values := labels })
      pc.currentOutScalarFieldIndex.toNat
    { pc with scalarFields := written }

/-! ## `ExtractConnectedComponents_py` -/

/-- The locals of `ExtractConnectedComponents_py` that live across the clouds, and the state
of the random generator.  The counter `nbCloudDone` is an `int` that never exceeds the number
of entities; it is carried without a bound. -/
structure ExtractState where
  realComponentCount : Int
  nbCloudDone : Int
  resultComponents : List ccPointCloud
  gen : Nat
deriving DecidableEq, Repr

/-- How the body of the loop over the clouds ends: at its end, by `break`, or by `return`. -/
inductive Flow where
  | next
  | brk
  | ret
deriving DecidableEq, Repr

/-- The vector `clouds`: the entities of point-cloud kind, in order. -/
def collectClouds : List ccHObject → List ccGenericPointCloud
  | [] => []
  | .cloud c :: rest => c :: collectClouds rest
  | .other _ :: rest => collectClouds rest

/-- The safety test: the loop that counts in `realComponentCount` the groups of `components`
with `size() >= minComponentSize` (the `int` is converted to `unsigned`). -/
def safetyTest (components : List ReferenceCloud) (minComponentSize : Int)
    (realComponentCount : Int) : Int :=
  components.foldl
    (fun n c => if c.size ≥ toUnsigned minComponentSize then n + 1 else n) realComponentCount

/-- The end of the loop body, from the deletion of the label field on: materialization of the
groups held by `components` and `nbCloudDone++`. -/
def finishCloud (E : Engine) (minComponentSize : Int) (randColors : Bool) (pc : ccPointCloud)
    (sfIdx : Int) (components : List ReferenceCloud) (st : ExtractState) :
    Option (Flow × ccGenericPointCloud × ExtractState) :=
  let pc1 := pc.deleteScalarField sfIdx
  if !components.isEmpty then
    match createComponentsClouds_ E (some (.pointCloud pc1)) components
        (toUnsigned minComponentSize) randColors true st.gen with
    | none => none
    | some r =>
      some (.next, .pointCloud pc1,
        { st with resultComponents := st.resultComponents ++ r.resultClouds,
                  nbCloudDone := st.nbCloudDone + 1,
                  gen := r.gen })
  else
    some (.next, .pointCloud pc1, { st with nbCloudDone := st.nbCloudDone + 1 })

/-- The first part of the loop body, up to `pc->setCurrentScalarField(sfIdx)`: the octree is
fetched or computed and the label scalar field found or added.  The result is the cloud, the
octree and `sfIdx` with which the labelling is called, or, when the iteration ends by `break`
(no octree, or `sfIdx < 0`), the cloud at that point. -/
def labelingInput (E : Engine) (pc0 : ccPointCloud) :
    ccPointCloud ⊕ (ccPointCloud × ccOctree × Int) :=
  let theOctree : Option ccOctree :=
    match pc0.octree with
    | some o => some o
    | none => E.computeOctree pc0
  match theOctree with
  | none => .inl pc0
  | some octree =>
    let pc1 := { pc0 with octree := some octree }
    let found := pc1.getScalarFieldIndexByName E.labelName
    let added := if found < 0 then pc1.addScalarField E E.labelName else (found, pc1)
    if added.1 < 0 then .inl added.2
    else .inr (added.2.setCurrentScalarField added.1, octree, added.1)

/-- The second part of the loop body, from the declaration of `components` on: labelling,
safety test, extraction, and the end of the body.  The call `computeMinAndMax()` changes
nothing of the state carried here. -/
def labelAndExtract (E : Engine) (octreeLevel minComponentSize maxNumberComponents : Int)
    (randColors : Bool) (pc2 : ccPointCloud) (octree : ccOctree) (sfIdx : Int)
    (st : ExtractState) : Option (Flow × ccGenericPointCloud × ExtractState) :=
  let components : List ReferenceCloud := []
  let labelled := E.labelConnectedComponents pc2 (toUnsignedChar octreeLevel) octree
  let componentCount := labelled.1
  let pc3 := pc2.writeLabels labelled.2
  if componentCount ≥ 0 then
    let realComponentCount := safetyTest components minComponentSize st.realComponentCount
    if realComponentCount > maxNumberComponents then
      some (.ret, .pointCloud (pc3.deleteScalarField sfIdx),
        { st with realComponentCount := realComponentCount })
    else
      let extracted := E.extractConnectedComponents pc3 components
      finishCloud E minComponentSize randColors pc3 sfIdx extracted.2
        { st with realComponentCount := realComponentCount }
  else
    finishCloud E minComponentSize randColors pc3 sfIdx components st

/-- The body of the loop `for (ccGenericPointCloud* cloud : clouds)`: the cloud after the
iteration, the locals after it, and how the iteration ends.  The result `none` stands for an
access out of bounds inside `createComponentsClouds_`. -/
def processCloud (E : Engine) (octreeLevel minComponentSize maxNumberComponents : Int)
    (randColors : Bool) (cloud : ccGenericPointCloud) (st : ExtractState) :
    Option (Flow × ccGenericPointCloud × ExtractState) :=
  match cloud with
  | .generic _ => some (.next, cloud, st)
  | .pointCloud pc0 =>
    match labelingInput E pc0 with
    | .inl pcb => some (.brk, .pointCloud pcb, st)
    | .inr (pc2, octree, sfIdx) =>
      labelAndExtract E octreeLevel minComponentSize maxNumberComponents randColors
        pc2 octree sfIdx st

/-- The loop over the vector `clouds`: the clouds after the loop and the locals at its exit. -/
def cloudsLoop (E : Engine) (octreeLevel minComponentSize maxNumberComponents : Int)
    (randColors : Bool) :
    List ccGenericPointCloud → ExtractState → Option (List ccGenericPointCloud × ExtractState)
  | [], st => some ([], st)
  | cloud :: rest, st =>
    match processCloud E octreeLevel minComponentSize maxNumberComponents randColors cloud st with
    | none => none
    | some (.next, cloud1, st1) =>
      match cloudsLoop E octreeLevel minComponentSize maxNumberComponents randColors rest st1 with
      | none => none
      | some (rest1, st2) => some (cloud1 :: rest1, st2)
    | some (.brk, cloud1, st1) => some (cloud1 :: rest, st1)
    | some (.ret, cloud1, st1) => some (cloud1 :: rest, st1)

/-- The entities after the call: the clouds of the list replaced, in order, by their state
after the loop; the other entities are never reached. -/
def writeBack : List ccHObject → List ccGenericPointCloud → List ccHObject
  | [], _ => []
  | .other n :: rest, cs => .other n :: writeBack rest cs
  | .cloud c :: rest, [] => .cloud c :: writeBack rest []
  | .cloud _ :: rest, c1 :: cs => .cloud c1 :: writeBack rest cs

/-- What a call of `ExtractConnectedComponents_py` leaves: the returned pair
`(nbCloudDone, resultComponents)`, the entities after the call and the state of the random
generator. -/
structure ExtractResult where
  nbCloudDone : Int
  resultComponents : List ccPointCloud
  entities : List ccHObject
  gen : Nat
deriving DecidableEq, Repr

/-- The function `ExtractConnectedComponents_py(entities, octreeLevel, minComponentSize,
maxNumberComponents, randomColors)`; `gen` is the number of colours drawn so far. -/
def ExtractConnectedComponents_py (E : Engine) (entities : List ccHObject)
    (octreeLevel minComponentSize maxNumberComponents : Int) (randomColors : Bool)
    (gen : Nat) : Option ExtractResult :=
  let clouds := collectClouds entities
  if clouds.length = 0 then some ⟨0, [], entities, gen⟩
  else
    match cloudsLoop E octreeLevel minComponentSize maxNumberComponents randomColors clouds
        ⟨0, 0, [], gen⟩ with
    | none => none
    | some (clouds1, st) => some ⟨st.nbCloudDone, st.resultComponents, writeBack entities clouds1, st.gen⟩

/-- The Python function `ExtractConnectedComponents` registered in `BOOST_PYTHON_MODULE` with
the keywords `clouds`, `octreeLevel = 8`, `minComponentSize = 100`, `maxNumberComponents = 100`,
`randomColors = false`: an argument left out by the caller (`none`) takes its default. -/
def ExtractConnectedComponents (E : Engine) (clouds : List ccHObject)
    (octreeLevel minComponentSize maxNumberComponents : Option Int)
    (randomColors : Option Bool) (gen : Nat) : Option ExtractResult :=
  ExtractConnectedComponents_py E clouds (octreeLevel.getD 8) (minComponentSize.getD 100)
    (maxNumberComponents.getD 100) (randomColors.getD false) gen

/-! ## Vocabulary of the properties -/

/-- The contract of a sort on its output as a sequence: a rearrangement of the input. -/
def Engine.SortPermutes (E : Engine) : Prop :=
  ∀ l : List ComponentIndexAndSize, (E.ParallelSort l).Perm l

/-- The contract of a sort with respect to the comparator: in the output no element compares
before an element placed ahead of it. -/
def Engine.SortOrders (E : Engine) : Prop :=
  ∀ l : List ComponentIndexAndSize,
    (E.ParallelSort l).Pairwise
      (fun a b => ComponentIndexAndSize.DescendingCompOperator b a = false)

/-- The `ccPointCloud` view `pc` of the source cloud taken by `createComponentsClouds_`. -/
def asPointCloud : ccGenericPointCloud → Option ccPointCloud
  | .pointCloud p => some p
  | .generic _ => none

/-- The cloud built for a group: `pc ? pc->partialClone(compIndexes) : ccPointCloud::From(compIndexes)`. -/
def cloneOf (E : Engine) (pc : Option ccPointCloud) (compIndexes : ReferenceCloud) :
    Option ccPointCloud :=
  match pc with
  | some p => E.partialClone p compIndexes
  | none => E.From compIndexes

/-- What the loop does to a freshly built cloud before it is returned: the optional random
colour (the `gen`-th of the generator), the global shift and scale of the source, and the
name `CC#nbComp`. -/
def decorate (E : Engine) (pc : Option ccPointCloud) (randomColors : Bool) (gen nbComp : Nat)
    (compCloud : ccPointCloud) : ccPointCloud :=
  let colored := if randomColors then compCloud.setColor (E.Random gen) else compCloud
  let shifted :=
    match pc with
    | some p => colored.copyGlobalShiftAndScale p
    | none => colored
  shifted.setName (ccName nbComp)

/-- The sequence of clouds returned for a sequence of freshly built clouds, the counters
starting at `gen` and `nbComp`. -/
def decorateAll (E : Engine) (pc : Option ccPointCloud) (randomColors : Bool) :
    Nat → Nat → List ccPointCloud → List ccPointCloud
  | _, _, [] => []
  | gen, nbComp, c :: rest =>
    decorate E pc randomColors gen nbComp c ::
      decorateAll E pc randomColors (if randomColors then gen + 1 else gen) (nbComp + 1) rest

/-- The order in which the loop of `createComponentsClouds_` visits the groups. -/
def processingOrder (E : Engine) (components : List ReferenceCloud) (sortBysize : Bool) :
    List ReferenceCloud :=
  match sortBlock E components sortBysize with
  | some sortedIndexes =>
    (List.range components.length).filterMap (compIndexesAt components sortedIndexes)
  | none => []

/-- A group has enough points: `compIndexes->size() >= minPointsPerComponent`. -/
def qualifies (minPointsPerComponent : Nat) (g : ReferenceCloud) : Bool :=
  decide (g.size ≥ minPointsPerComponent)

/-- The cloud `c` is one the loop returns for the group `g` of a source whose `ccPointCloud`
view is `pc`: the cloud built for `g`, decorated. -/
def BuiltFrom (E : Engine) (pc : Option ccPointCloud) (randomColors : Bool)
    (g : ReferenceCloud) (c : ccPointCloud) : Prop :=
  ∃ raw gen nbComp, cloneOf E pc g = some raw ∧ c = decorate E pc randomColors gen nbComp raw

/-- Size recorded in `sortedIndexes` for the group of index `i`. -/
def sizeAt (C : List ReferenceCloud) (i : Nat) : Nat :=
  match C[i]? with
  | some c => c.size
  | none => 0

/-- The content of `sortedIndexes` before sorting. -/
def indexedSizes (C : List ReferenceCloud) : List ComponentIndexAndSize :=
  (List.range C.length).map (fun i => ⟨i, sizeAt C i⟩)

/-! ## Vocabulary of the properties of `ExtractConnectedComponents_py` -/

/-- The test `entity->isKindOf(CC_TYPES::POINT_CLOUD)`. -/
def isKindOfPointCloud : ccHObject → Bool
  | .cloud _ => true
  | .other _ => false

/-- The test `cloud->isA(CC_TYPES::POINT_CLOUD)`. -/
def isAPointCloud : ccGenericPointCloud → Bool
  | .pointCloud _ => true
  | .generic _ => false

/-- The containers filled by `extractConnectedComponents` hold fewer than `2^32` groups (a
cloud has fewer than `2^32` points). -/
def Engine.ExtractBounded (E : Engine) : Prop :=
  ∀ (pc : ccPointCloud) (components : List ReferenceCloud),
    (E.extractConnectedComponents pc components).2.length < 4294967296

/-- The entity is a `ccPointCloud` with a scalar field of the reserved label name. -/
def hasLabelField (E : Engine) : ccHObject → Prop
  | .cloud (.pointCloud pc) => ∃ sf ∈ pc.scalarFields, sf.name = E.labelName
  | _ => False

/-- The number of clouds whose iteration reaches the labelling step before any `break`: the
`ccPointCloud`s, taken in order until the first one for which the octree or the label field
is missing, whatever the status of their labelling. -/
def countedClouds (E : Engine) : List ccGenericPointCloud → Int
  | [] => 0
  | .generic _ :: rest => countedClouds E rest
  | .pointCloud pc0 :: rest =>
    match labelingInput E pc0 with
    | .inl _ => 0
    | .inr _ => 1 + countedClouds E rest

/-- The number of input clouds for which the labelling ran to completion, read as the
sentence of the specification has it: the `ccPointCloud`s that reach the labelling step and
for which `labelConnectedComponents` returns a non-negative status. -/
def labelledClouds (E : Engine) (octreeLevel : Int) : List ccGenericPointCloud → Int
  | [] => 0
  | .generic _ :: rest => labelledClouds E octreeLevel rest
  | .pointCloud pc0 :: rest =>
    match labelingInput E pc0 with
    | .inl _ => labelledClouds E octreeLevel rest
    | .inr (pc2, octree, _) =>
      if (E.labelConnectedComponents pc2 (toUnsignedChar octreeLevel) octree).1 ≥ 0
      then 1 + labelledClouds E octreeLevel rest
      else labelledClouds E octreeLevel rest

/-- No iteration of the loop over the clouds ends by `break` or `return`. -/
def noEarlyExit (E : Engine) (octreeLevel minComponentSize maxNumberComponents : Int)
    (randColors : Bool) : List ccGenericPointCloud → ExtractState → Bool
  | [], _ => true
  | cloud :: rest, st =>
    match processCloud E octreeLevel minComponentSize maxNumberComponents randColors cloud st with
    | some (.next, _, st1) =>
      noEarlyExit E octreeLevel minComponentSize maxNumberComponents randColors rest st1
    | _ => false

/-- No iteration of the loop over the clouds ends by the `return` of the safety test (and
none fails on an access out of bounds). -/
def noReturn (E : Engine) (octreeLevel minComponentSize maxNumberComponents : Int)
    (randColors : Bool) : List ccGenericPointCloud → ExtractState → Bool
  | [], _ => true
  | cloud :: rest, st =>
    match processCloud E octreeLevel minComponentSize maxNumberComponents randColors cloud st with
    | some (.next, _, st1) =>
      noReturn E octreeLevel minComponentSize maxNumberComponents randColors rest st1
    | some (.brk, _, _) => true
    | some (.ret, _, _) => false
    | none => false

/-- The locals `s` of a run started from zero, seen from a run that had already counted `nb`
clouds and collected the components `res`. -/
def shiftState (nb : Int) (res : List ccPointCloud) (s : ExtractState) : ExtractState :=
  ⟨s.realComponentCount, nb + s.nbCloudDone, res ++ s.resultComponents, s.gen⟩

/-- The pair returned and the state left by a call on `xs ++ ys`, from what the call on `xs`
and then the call on `ys` leave. -/
def joinResults (a b : ExtractResult) : ExtractResult :=
  ⟨a.nbCloudDone + b.nbCloudDone, a.resultComponents ++ b.resultComponents,
    a.entities ++ b.entities, b.gen⟩

/-- The ranked sequence of one cloud: the clouds that `createComponentsClouds_` returns for
the groups extracted from the cloud after its labelling, with the state of the random
generator after that call.  A cloud that is not a `ccPointCloud`, that has no octree or no
label field, or whose labelling fails, has no group.  The result `none` stands for an access
out of bounds inside `createComponentsClouds_`. -/
def cloudComponents (E : Engine) (octreeLevel minComponentSize : Int) (randomColors : Bool)
    (cloud : ccGenericPointCloud) (gen : Nat) : Option (List ccPointCloud × Nat) :=
  match cloud with
  | .generic _ => some ([], gen)
  | .pointCloud pc0 =>
    match labelingInput E pc0 with
    | .inl _ => some ([], gen)
    | .inr (pc2, octree, sfIdx) =>
      let labelled := E.labelConnectedComponents pc2 (toUnsignedChar octreeLevel) octree
      let pc3 := pc2.writeLabels labelled.2
      let groups := if labelled.1 ≥ 0 then (E.extractConnectedComponents pc3 []).2 else []
      (createComponentsClouds_ E (some (.pointCloud (pc3.deleteScalarField sfIdx))) groups
        (toUnsigned minComponentSize) randomColors true gen).map
        (fun r => (r.resultClouds, r.gen))

/-- The concatenation, in the order of the clouds, of their ranked sequences, the random
generator passing from one cloud to the next. -/
def concatComponents (E : Engine) (octreeLevel minComponentSize : Int) (randomColors : Bool) :
    List ccGenericPointCloud → Nat → Option (List ccPointCloud × Nat)
  | [], gen => some ([], gen)
  | cloud :: rest, gen =>
    match cloudComponents E octreeLevel minComponentSize randomColors cloud gen with
    | none => none
    | some (comps, gen1) =>
      match concatComponents E octreeLevel minComponentSize randomColors rest gen1 with
      | none => none
      | some (more, gen2) => some (comps ++ more, gen2)

/-- The engine whose labelling answers, whatever the level it is called with, what the
labelling of `E` answers at the level `level`. -/
def Engine.labellingAt (E : Engine) (level : Nat) : Engine :=
  { E with
    labelConnectedComponents := fun pc _ octree => E.labelConnectedComponents pc level octree }

/-! ## A concrete engine -/

/-- A sort by decreasing size (insertion sort). -/
def sortBySize (l : List ComponentIndexAndSize) : List ComponentIndexAndSize :=
  l.insertionSort (fun a b => b.size ≤ a.size)

/-- A cloud made of the points of `pc` at the given indices. -/
def pickPoints (pc : ccPointCloud) (g : ReferenceCloud) : ccPointCloud :=
  { name := pc.name ++ ".extract"
    points := g.indices.filterMap (fun i => pc.points[i]?)
    rgbaColors := none
    scalarFields := []
    currentInScalarFieldIndex := -1
    currentOutScalarFieldIndex := -1
    globalShift := ⟨0, 0, 0⟩
    globalScale := 1
    octree := none }

/-- An engine in which no allocation fails; labelling every cloud gives the three groups
`{0}`, `{1, 2, 3}`, `{4, 5}`. -/
def sampleEngine : Engine :=
  { ParallelSort := sortBySize
    reserve := fun _ => true
    partialClone := fun pc g => some (pickPoints pc g)
    From := fun g => some ⟨"", g.indices.map (fun _ => ⟨0, 0, 0⟩), none, [], -1, -1, ⟨0, 0, 0⟩, 1, none⟩
    Random := fun n => ⟨n % 256, 7, 9⟩
    computeOctree := fun _ => some ⟨1⟩
    allocScalarField := fun _ => true
    labelConnectedComponents := fun _ _ _ => (3, [1, 2, 2, 2, 3, 3])
    extractConnectedComponents := fun _ _ => (true, [⟨[0]⟩, ⟨[1, 2, 3]⟩, ⟨[4, 5]⟩])
    labelName := "CC labels" }

/-- The sample engine with a labelling that succeeds at the level `level` only. -/
def onlyLevelEngine (level : Nat) : Engine :=
  { sampleEngine with
    labelConnectedComponents := fun _ l _ =>
      if l = level then (3, [1, 2, 2, 2, 3, 3]) else (-1, []) }

/-- A cloud of six points with one scalar field. -/
def sampleCloud : ccPointCloud :=
  { name := "cloud"
    points := [⟨0, 0, 0⟩, ⟨10, 0, 0⟩, ⟨10, 1, 0⟩, ⟨10, 2, 0⟩, ⟨20, 0, 0⟩, ⟨20, 1, 0⟩]
    rgbaColors := none
    scalarFields := [⟨"Intensity", [5, 5, 5, 5, 5, 5]⟩]
    currentInScalarFieldIndex := -1
    currentOutScalarFieldIndex := -1
    globalShift := ⟨100, 200, 300⟩
    globalScale := 2
    octree := none }

/-- The groups of the sample cloud. -/
def sampleGroups : List ReferenceCloud := [⟨[0]⟩, ⟨[1, 2, 3]⟩, ⟨[4, 5]⟩]

/-- The sample engine with a labelling that fails on every cloud (negative status). -/
def failedLabelEngine : Engine :=
  { sampleEngine with labelConnectedComponents := fun _ _ _ => (-1, []) }

/-- The sample engine in which the cloud named `big` has the three groups of the sample and
every other cloud the single group `{0, 1}`. -/
def namedEngine : Engine :=
  { sampleEngine with
    extractConnectedComponents := fun pc _ =>
      if pc.name = "big" then (true, sampleGroups) else (true, [⟨[0, 1]⟩]) }

/-- The sample cloud under the name `big`. -/
def bigCloud : ccPointCloud := { sampleCloud with name := "big" }

/-- A mesh, an entity that is not of point-cloud kind. -/
def sampleMesh : ccHObject := .other "mesh"

/-- The sample cloud under the name `bad`. -/
def badCloud : ccPointCloud := { sampleCloud with name := "bad" }

/-- The sample engine in which no octree can be computed for the cloud named `bad`. -/
def octreeFailEngine : Engine :=
  { sampleEngine with
    computeOctree := fun pc => if pc.name = "bad" then none else some ⟨1⟩ }

/-- The sample engine in which no scalar field can be allocated for the cloud named `bad`. -/
def allocFailEngine : Engine :=
  { sampleEngine with allocScalarField := fun pc => decide (pc.name ≠ "bad") }

/-- The sample engine in which the labelling of the cloud named `bad` fails. -/
def labelFailEngine : Engine :=
  { sampleEngine with
    labelConnectedComponents := fun pc _ _ =>
      if pc.name = "bad" then (-1, []) else (3, [1, 2, 2, 2, 3, 3]) }

/-- The cloud named `bad` at the time its labelling is called: octree cached, label field
added as field of index `1` and made current. -/
def badCloudAtLabelling : ccPointCloud :=
  ({ badCloud with
      octree := some ⟨1⟩,
      scalarFields := badCloud.scalarFields ++ [⟨"CC labels", [0, 0, 0, 0, 0, 0]⟩] }
    : ccPointCloud).setCurrentScalarField 1

/-- The construction of the cloud of the group fails: the group has enough points, but the
cloud built for it is the null pointer. -/
def constructionFails (E : Engine) (pc : Option ccPointCloud) (minPointsPerComponent : Nat)
    (g : ReferenceCloud) : Bool :=
  qualifies minPointsPerComponent g && (cloneOf E pc g).isNone

/-- The ranking the specification describes: descending by size, two groups of equal size
kept in the order of the container (a stable sort of the groups). -/
def stableOrder (components : List ReferenceCloud) : List ReferenceCloud :=
  components.insertionSort (fun a b => b.size ≤ a.size)

/-! ## The sort of the GNU C++ library

`ParallelSort` is a name of the engine for the sort of the platform; in a build without a
parallel library it is `std::sort`.  The definitions below follow the algorithm of `std::sort`
in the GNU C++ library step by step, on a sequence held in a list and positions counted from
its start: median-of-three partition while a range has more than 16 elements (heap sort when
the depth limit is reached), then insertion sort. -/

/-- The comparison `comp(*i, *j)` of the elements at two positions; an invalid position
compares as false. -/
def compAt {α : Type} (comp : α → α → Bool) (l : List α) (i j : Nat) : Bool :=
  match l[i]?, l[j]? with
  | some a, some b => comp a b
  | _, _ => false

/-- The exchange `std::iter_swap(i, j)`. -/
def iterSwap {α : Type} (l : List α) (i j : Nat) : List α :=
  match l[i]?, l[j]? with
  | some a, some b => (l.set i b).set j a
  | _, _ => l

/-- The assignment `*dst = std::move(*src)`. -/
def moveTo {α : Type} (l : List α) (dst src : Nat) : List α :=
  match l[src]? with
  | some a => l.set dst a
  | none => l

/-- The value `std::__lg(n)`, the integer part of the binary logarithm. -/
def lgAux : Nat → Nat → Nat
  | 0, _ => 0
  | fuel + 1, n => if n ≥ 2 then lgAux fuel (n / 2) + 1 else 0

/-- The value `std::__lg(n)`. -/
def lg (n : Nat) : Nat := lgAux n n

/-- The function `std::__move_median_to_first(result, a, b, c, comp)`. -/
def moveMedianToFirst {α : Type} (comp : α → α → Bool) (l : List α) (result a b c : Nat) :
    List α :=
  if compAt comp l a b then
    if compAt comp l b c then iterSwap l result b
    else if compAt comp l a c then iterSwap l result c
    else iterSwap l result a
  else if compAt comp l a c then iterSwap l result a
  else if compAt comp l b c then iterSwap l result c
  else iterSwap l result b

/-- The loop `while (comp(first, pivot)) ++first;`. -/
def scanUp {α : Type} (comp : α → α → Bool) (l : List α) (pivot : Nat) : Nat → Nat → Nat
  | 0, first => first
  | fuel + 1, first =>
    if compAt comp l first pivot then scanUp comp l pivot fuel (first + 1) else first

/-- The loop `while (comp(pivot, last)) --last;`. -/
def scanDown {α : Type} (comp : α → α → Bool) (l : List α) (pivot : Nat) : Nat → Nat → Nat
  | 0, last => last
  | fuel + 1, last =>
    if compAt comp l pivot last then scanDown comp l pivot fuel (last - 1) else last

/-- The function `std::__unguarded_partition(first, last, pivot, comp)`: the sequence after
it and the cut returned.  Each round moves `first` forward, so the length of the sequence
bounds the number of rounds. -/
def unguardedPartition {α : Type} (comp : α → α → Bool) (pivot : Nat) :
    Nat → List α → Nat → Nat → List α × Nat
  | 0, l, first, _ => (l, first)
  | fuel + 1, l, first, last =>
    let first1 := scanUp comp l pivot l.length first
    let last1 := scanDown comp l pivot l.length (last - 1)
    if first1 < last1 then
      unguardedPartition comp pivot fuel (iterSwap l first1 last1) (first1 + 1) last1
    else (l, first1)

/-- The function `std::__unguarded_partition_pivot(first, last, comp)`. -/
def unguardedPartitionPivot {α : Type} (comp : α → α → Bool) (l : List α) (first last : Nat) :
    List α × Nat :=
  let mid := first + (last - first) / 2
  let l1 := moveMedianToFirst comp l first (first + 1) mid (last - 1)
  unguardedPartition comp first (l1.length + 1) l1 (first + 1) last

/-- The loop of `std::__push_heap(first, holeIndex, topIndex, value, comp)`. -/
def pushHeap {α : Type} (comp : α → α → Bool) (value : α) (first topIndex : Nat) :
    Nat → List α → Nat → List α
  | 0, l, holeIndex => l.set (first + holeIndex) value
  | fuel + 1, l, holeIndex =>
    let parent := (holeIndex - 1) / 2
    match l[first + parent]? with
    | some p =>
      if holeIndex > topIndex ∧ comp p value = true then
        pushHeap comp value first topIndex fuel (l.set (first + holeIndex) p) parent
      else l.set (first + holeIndex) value
    | none => l.set (first + holeIndex) value

/-- The first loop of `std::__adjust_heap`: the sequence, `holeIndex` and `secondChild` at
its exit. -/
def siftDown {α : Type} (comp : α → α → Bool) (first len : Nat) :
    Nat → List α → Nat → Nat → List α × Nat × Nat
  | 0, l, holeIndex, secondChild => (l, holeIndex, secondChild)
  | fuel + 1, l, holeIndex, secondChild =>
    if secondChild < (len - 1) / 2 then
      let child := 2 * (secondChild + 1)
      let child1 := if compAt comp l (first + child) (first + (child - 1)) then child - 1
        else child
      siftDown comp first len fuel (moveTo l (first + holeIndex) (first + child1)) child1 child1
    else (l, holeIndex, secondChild)

/-- The function `std::__adjust_heap(first, holeIndex, len, value, comp)`. -/
def adjustHeap {α : Type} (comp : α → α → Bool) (l : List α) (first holeIndex len : Nat)
    (value : α) : List α :=
  let s := siftDown comp first len len l holeIndex holeIndex
  let l1 := s.1
  let hole1 := s.2.1
  let secondChild := s.2.2
  if len % 2 = 0 ∧ secondChild = (len - 2) / 2 then
    let child := 2 * (secondChild + 1)
    pushHeap comp value first holeIndex len
      (moveTo l1 (first + hole1) (first + (child - 1))) (child - 1)
  else pushHeap comp value first holeIndex len l1 hole1

/-- The function `std::__make_heap(first, last, comp)`: `__adjust_heap` for each parent from
`(len - 2) / 2` down to `0`. -/
def makeHeap {α : Type} (comp : α → α → Bool) (l : List α) (first last : Nat) : List α :=
  let len := last - first
  if len < 2 then l
  else
    ((List.range ((len - 2) / 2 + 1)).reverse).foldl
      (fun acc parent =>
        match acc[first + parent]? with
        | some value => adjustHeap comp acc first parent len value
        | none => acc) l

/-- The function `std::__sort_heap(first, last, comp)`: one `__pop_heap(first, last, last)`
for each `last` from the end down to `first + 1`. -/
def sortHeap {α : Type} (comp : α → α → Bool) (l : List α) (first last : Nat) : List α :=
  ((List.range' (first + 1) (last - first - 1)).reverse).foldl
    (fun acc result =>
      match acc[result]? with
      | some value => adjustHeap comp (moveTo acc result first) first 0 (result - first) value
      | none => acc) l

/-- The call `std::__partial_sort(first, last, last, comp)`, a heap sort of the range. -/
def partialSort {α : Type} (comp : α → α → Bool) (l : List α) (first last : Nat) : List α :=
  sortHeap comp (makeHeap comp l first last) first last

/-- The function `std::__introsort_loop(first, last, depth_limit, comp)`; the recursion is on
`depth_limit`, which each round of the loop decrements. -/
def introsortLoop {α : Type} (comp : α → α → Bool) : Nat → List α → Nat → Nat → List α
  | 0, l, first, last => if last - first > 16 then partialSort comp l first last else l
  | depthLimit + 1, l, first, last =>
    if last - first > 16 then
      let p := unguardedPartitionPivot comp l first last
      let l1 := introsortLoop comp depthLimit p.1 p.2 last
      introsortLoop comp depthLimit l1 first p.2
    else l

/-- The loop of `std::__unguarded_linear_insert(last, comp)`, `val` being the element
inserted. -/
def linearInsertLoop {α : Type} (comp : α → α → Bool) (val : α) : Nat → List α → Nat → List α
  | 0, l, last => l.set last val
  | fuel + 1, l, last =>
    if last = 0 then l.set last val
    else
      match l[last - 1]? with
      | some next =>
        if comp val next then linearInsertLoop comp val fuel (l.set last next) (last - 1)
        else l.set last val
      | none => l.set last val

/-- The function `std::__unguarded_linear_insert(last, comp)`. -/
def unguardedLinearInsert {α : Type} (comp : α → α → Bool) (l : List α) (last : Nat) : List α :=
  match l[last]? with
  | some val => linearInsertLoop comp val l.length l last
  | none => l

/-- The function `std::__insertion_sort(first, last, comp)`. -/
def insertionSortRange {α : Type} (comp : α → α → Bool) (l : List α) (first last : Nat) :
    List α :=
  (List.range' (first + 1) (last - first - 1)).foldl
    (fun acc i =>
      if compAt comp acc i first then
        match acc[i]? with
        | some val =>
          acc.take first ++ val :: (acc.drop first).take (i - first) ++ acc.drop (i + 1)
        | none => acc
      else unguardedLinearInsert comp acc i) l

/-- The function `std::__unguarded_insertion_sort(first, last, comp)`. -/
def unguardedInsertionSort {α : Type} (comp : α → α → Bool) (l : List α) (first last : Nat) :
    List α :=
  (List.range' first (last - first)).foldl (fun acc i => unguardedLinearInsert comp acc i) l

/-- The function `std::__final_insertion_sort(first, last, comp)`. -/
def finalInsertionSort {α : Type} (comp : α → α → Bool) (l : List α) (first last : Nat) :
    List α :=
  if last - first > 16 then
    unguardedInsertionSort comp (insertionSortRange comp l first (first + 16)) (first + 16) last
  else insertionSortRange comp l first last

/-- The call `std::sort(v.begin(), v.end(), comp)` of the GNU C++ library: the introsort
loop, then the final insertion sort. -/
def stdSort {α : Type} (comp : α → α → Bool) (l : List α) : List α :=
  if l.length = 0 then l
  else
    finalInsertionSort comp (introsortLoop comp (lg l.length * 2) l 0 l.length) 0 l.length

/-- The sample engine with `std::sort` of the GNU C++ library as `ParallelSort`. -/
def stdSortEngine : Engine :=
  { sampleEngine with
    ParallelSort := stdSort ComponentIndexAndSize.DescendingCompOperator }

/-- The engine `stdSortEngine` with a partial clone that fails on the group `{0, 1}`. -/
def stdSortCloneFailEngine : Engine :=
  { stdSortEngine with
    partialClone := fun pc g => if g.indices = [0, 1] then none else some (pickPoints pc g) }

/-- The sample engine with a partial clone that fails on the group `{0, 1}`. -/
def cloneFailEngine : Engine :=
  { sampleEngine with
    partialClone := fun pc g => if g.indices = [0, 1] then none else some (pickPoints pc g) }

/-- The groups `{2k, 2k + 1}` for the numbers `k` of the list, in that order. -/
def pairGroups (ks : List Nat) : List ReferenceCloud :=
  ks.map (fun k => ⟨[2 * k, 2 * k + 1]⟩)

/-- Seventeen groups of two points: `{0, 1}`, `{2, 3}`, ..., `{32, 33}`. -/
def seventeenGroups : List ReferenceCloud := pairGroups (List.range 17)

/-- A cloud of thirty-four points, the point of index `i` at abscissa `i`. -/
def longCloud : ccPointCloud :=
  { sampleCloud with points := (List.range 34).map (fun i => ⟨(i : Int), 0, 0⟩) }

/-- Three groups of two points. -/
def tiedGroups : List ReferenceCloud := [⟨[0, 1]⟩, ⟨[2, 3]⟩, ⟨[4, 5]⟩]

/-- The index of the group selected at iteration `i` of the materialization loop:
`_sortedIndexes ? _sortedIndexes->at(i).index : i`; `none` is an `at` out of range. -/
def indexAt (sortedIndexes : Option (List ComponentIndexAndSize)) (i : Nat) : Option Nat :=
  match sortedIndexes with
  | some s => (s[i]?).map (fun e => e.index)
  | none => some i

/-- The indices used by the successive iterations of the materialization loop. -/
def indexSequence (E : Engine) (components : List ReferenceCloud) (sortBysize : Bool) :
    List (Option Nat) :=
  match sortBlock E components sortBysize with
  | some sortedIndexes => (List.range components.length).map (indexAt sortedIndexes)
  | none => []

/-- The sample cloud with a scalar field that already bears the reserved label name. -/
def relabelledCloud : ccPointCloud :=
  { sampleCloud with
    scalarFields := [⟨"Intensity", [5, 5, 5, 5, 5, 5]⟩, ⟨"CC labels", [1, 1, 1, 1, 1, 1]⟩] }

/-- Some iteration of the loop over the clouds ends by the `return` of the safety test. -/
def returnTaken (E : Engine) (octreeLevel minComponentSize maxNumberComponents : Int)
    (randColors : Bool) : List ccGenericPointCloud → ExtractState → Bool
  | [], _ => false
  | cloud :: rest, st =>
    match processCloud E octreeLevel minComponentSize maxNumberComponents randColors cloud st with
    | some (.next, _, st1) =>
      returnTaken E octreeLevel minComponentSize maxNumberComponents randColors rest st1
    | some (.ret, _, _) => true
    | _ => false

/-- Among the clouds the loop reaches before any `break`, one has a labelling that returns a
non-negative status. -/
def labellingSucceeds (E : Engine) (octreeLevel : Int) : List ccGenericPointCloud → Bool
  | [] => false
  | .generic _ :: rest => labellingSucceeds E octreeLevel rest
  | .pointCloud pc0 :: rest =>
    match labelingInput E pc0 with
    | .inl _ => false
    | .inr (pc2, octree, _) =>
      if (E.labelConnectedComponents pc2 (toUnsignedChar octreeLevel) octree).1 ≥ 0 then true
      else labellingSucceeds E octreeLevel rest

/-! ## The colour functions of `ccPointCloudPy.cpp` -/

/-- How a call ends: it returns a value, it throws a C++ exception, it is still running when
the fuel is used up, or its behaviour is undefined (overflow of an `int`, reading a colour
that the cloud does not have). -/
inductive Outcome (α : Type) where
  | returned (a : α)
  | thrown
  | running
  | undefined
deriving DecidableEq, Repr

/-- Sequencing of two calls: the second runs on the value returned by the first. -/
def Outcome.bind {α β : Type} (x : Outcome α) (f : α → Outcome β) : Outcome β :=
  match x with
  | .returned a => f a
  | .thrown => .thrown
  | .running => .running
  | .undefined => .undefined

/-- The name `QString("%1 #%2").arg(baseName).arg(tries)`, for a base name without place
marker (the five base names used by `sfFromColor_py` have none). -/
def sfNameFormat (baseName : String) (tries : Nat) : String :=
  baseName ++ " #" ++ toString tries

/-- The loop of `GetFirstAvailableSFName`, from the state `name`, `tries`; `fuel` bounds the
number of evaluations of the loop condition.  It returns the state in which the loop is left.
The counter `tries` is an `int`: `++tries` beyond `2147483647` is undefined. -/
def sfNameLoop (cloud : ccPointCloud) (baseName : String) :
    Nat → String → Nat → Outcome (String × Nat)
  | 0, _, _ => .running
  | fuel + 1, name, tries =>
    if cloud.getScalarFieldIndexByName name ≥ 0 ∨ tries > 99 then
      if tries + 1 > 2147483647 then .undefined
      else sfNameLoop cloud baseName fuel (sfNameFormat baseName (tries + 1)) (tries + 1)
    else .returned (name, tries)

/-- The function `GetFirstAvailableSFName(cloud, baseName)`; the empty string is the null
`QString()`. -/
def GetFirstAvailableSFName (cloud : ccPointCloud) (baseName : String) (fuel : Nat) :
    Outcome String :=
  (sfNameLoop cloud baseName fuel baseName 0).bind fun p =>
    if p.2 > 99 then .returned "" else .returned p.1

/-- The colour `self.getPointColor(j)`; `none` when the cloud has no colour of that index. -/
def ccPointCloud.getPointColor (pc : ccPointCloud) (j : Nat) : Option Rgba :=
  match pc.rgbaColors with
  | none => none
  | some cols => cols[j]?

/-- Modelled from the spec: `addScalarField(sf)` of the external engine, for a field built by
the caller: refuses a name in use, otherwise appends the field and returns its index, or `-1`
when the allocation fails. -/
def ccPointCloud.addScalarField_sf (E : Engine) (pc : ccPointCloud) (sf : ScalarField) :
    Int × ccPointCloud :=
  if pc.getScalarFieldIndexByName sf.name ≥ 0 then (-1, pc)
  else if E.allocScalarField pc then
    ((pc.scalarFields.length : Int), { pc with scalarFields := pc.scalarFields ++ [sf] })
  else (-1, pc)

/-- One entry of `fields`: `flag ? new ccScalarField(GetFirstAvailableSFName(self, base)) :
nullptr`. -/
def newField (self : ccPointCloud) (fuel : Nat) (flag : Bool) (baseName : String) :
    Outcome (Option ScalarField) :=
  if flag then
    (GetFirstAvailableSFName self baseName fuel).bind fun name => .returned (some ⟨name, []⟩)
  else .returned none

/-- The reservation loop on one entry: a field whose `reserveSafe(count)` fails is released. -/
def reserveField (reserveSafe : String → Nat → Bool) (count : Nat) :
    Option ScalarField → Option ScalarField
  | some sf => if reserveSafe sf.name count then some sf else none
  | none => none

/-- The colours read by the export loop, one `getPointColor(j)` for each index of the list. -/
def readColors (self : ccPointCloud) : List Nat → Option (List Rgba)
  | [] => some []
  | j :: rest =>
    match self.getPointColor j with
    | none => none
    | some col =>
      match readColors self rest with
      | none => none
      | some cols => some (col :: cols)

/-- The export loop on one entry: `addElement` of one value for each colour read. -/
def fillField (value : Rgba → Scalar) (cols : List Rgba) :
    Option ScalarField → Option ScalarField
  | some sf => some { sf with values := sf.values ++ cols.map value }
  | none => none

/-- One round of the last loop of `sfFromColor_py`: a field of the same name is deleted, then
the new field is added (`computeMinAndMax` and `release` leave the cloud as it is). -/
def insertField (E : Engine) (self : ccPointCloud) : Option ScalarField → ccPointCloud
  | none => self
  | some sf =>
    let sfIdx := self.getScalarFieldIndexByName sf.name
    let self1 := if sfIdx ≥ 0 then self.deleteScalarField sfIdx else self
    (self1.addScalarField_sf E sf).2

/-- The function `sfFromColor_py(self, exportR, exportG, exportB, exportAlpha,
exportComposite)`: the value returned and the cloud after the call.  `reserveSafe name count`
tells whether the reservation succeeds for the field `name`; `third s` is the value of
`static_cast<ScalarType>(s) / 3` in the arithmetic of `ScalarType`, which the model leaves
open. -/
def sfFromColor_py (E : Engine) (reserveSafe : String → Nat → Bool) (third : Nat → Scalar)
    (fuel : Nat) (self : ccPointCloud)
    (exportR exportG exportB exportAlpha exportComposite : Bool) :
    Outcome (Bool × ccPointCloud) :=
  (newField self fuel exportR "R").bind fun f0 =>
  (newField self fuel exportG "G").bind fun f1 =>
  (newField self fuel exportB "B").bind fun f2 =>
  (newField self fuel exportAlpha "Alpha").bind fun f3 =>
  (newField self fuel exportComposite "Composite").bind fun f4 =>
    let count := self.size
    let g0 := reserveField reserveSafe count f0
    let g1 := reserveField reserveSafe count f1
    let g2 := reserveField reserveSafe count f2
    let g3 := reserveField reserveSafe count f3
    let g4 := reserveField reserveSafe count f4
    match readColors self (List.range self.size) with
    | none => .undefined
    | some cols =>
      let fields := [fillField (fun col => (col.r : Int)) cols g0,
        fillField (fun col => (col.g : Int)) cols g1,
        fillField (fun col => (col.b : Int)) cols g2,
        fillField (fun col => (col.a : Int)) cols g3,
        fillField (fun col => third (col.r + col.g + col.b)) cols g4]
      .returned (true, fields.foldl (insertField E) self)

/-- One channel of the new colour in `changeColorLevels_py`.  `levelOf c sin0 qIn sout0 pOut`
is the value of `static_cast<ColorCompType>(max(min(sout0 + (double(c) - sin0) / qIn * pOut,
255), 0))` in double precision, which the model leaves open. -/
def newChannel (levelOf : Nat → Nat → Int → Nat → Int → Nat) (apply : Bool)
    (c sin0 sout0 : Nat) (qIn pOut : Int) : Nat :=
  if apply then
    if qIn ≠ 0 then levelOf c sin0 qIn sout0 pOut
    else max (min sout0 255) 0
  else c

/-- The colour `newRgb` built from `col` in one round of the loop over the points. -/
def newRgb (levelOf : Nat → Nat → Int → Nat → Int → Nat) (onRed onGreen onBlue : Bool)
    (sin0 sout0 : Nat) (qIn pOut : Int) (col : Rgba) : Rgba :=
  { r := newChannel levelOf onRed col.r sin0 sout0 qIn pOut
    g := newChannel levelOf onGreen col.g sin0 sout0 qIn pOut
    b := newChannel levelOf onBlue col.b sin0 sout0 qIn pOut
    a := col.a }

/-- The loop over the points: `getPointColor(i)` then `setPointColor(i, newRgb)`; `none` when
a colour read does not exist. -/
def colorLoop (f : Rgba → Rgba) : List Nat → List Rgba → Option (List Rgba)
  | [], cols => some cols
  | i :: rest, cols =>
    match cols[i]? with
    | none => none
    | some col => colorLoop f rest (cols.set i (f col))

/-- The function `changeColorLevels_py(self, sin0, sin1, sout0, sout1, onRed, onGreen,
onBlue)`: the value returned and the cloud after the call; `thrown` is `color_exception`. -/
def changeColorLevels_py (levelOf : Nat → Nat → Int → Nat → Int → Nat) (self : ccPointCloud)
    (sin0 sin1 sout0 sout1 : Nat) (onRed onGreen onBlue : Bool) :
    Outcome (Bool × ccPointCloud) :=
  match self.rgbaColors with
  | none => .thrown
  | some cols =>
    if sin0 ≥ sin1 ∨ sout0 ≥ sout1 then .returned (false, self)
    else
      let pointCount := self.size
      let qIn : Int := (sin1 : Int) - sin0
      let pOut : Int := (sout1 : Int) - sout0
      match colorLoop (newRgb levelOf onRed onGreen onBlue sin0 sout0 qIn pOut)
          (List.range pointCount) cols with
      | none => .undefined
      | some cols1 => .returned (true, { self with rgbaColors := some cols1 })

/-! ## Vocabulary for the colour functions -/

/-- The `k`-th candidate name of `GetFirstAvailableSFName`: `baseName`, then `baseName #1`,
`baseName #2`, and so on. -/
def sfCandidate (baseName : String) (k : Nat) : String :=
  if k = 0 then baseName else sfNameFormat baseName k

/-- The names of the scalar fields of a cloud. -/
def fieldNames (pc : ccPointCloud) : List String :=
  pc.scalarFields.map (fun sf => sf.name)

/-- A cloud without scalar field. -/
def bareCloud : ccPointCloud := { sampleCloud with scalarFields := [] }

/-- The sample cloud with a colour for each point and the fields `R` and `Intensity`. -/
def colouredCloud : ccPointCloud :=
  { sampleCloud with
    rgbaColors := some [⟨10, 20, 30, 255⟩, ⟨40, 50, 60, 255⟩, ⟨70, 80, 90, 128⟩,
      ⟨100, 110, 120, 255⟩, ⟨130, 140, 150, 0⟩, ⟨160, 170, 180, 255⟩]
    scalarFields := [⟨"R", [1, 1, 1, 1, 1, 1]⟩, ⟨"Intensity", [5, 5, 5, 5, 5, 5]⟩] }

/-- A cloud in which the hundred candidates of the base name `R` are all in use. -/
def fullCloud : ccPointCloud :=
  { sampleCloud with
    scalarFields := (List.range 100).map (fun k => ⟨sfCandidate "R" k, []⟩) }

/-- A sample for the open arithmetic of the levels: the level of exact arithmetic. -/
def exactLevel (c sin0 : Nat) (qIn : Int) (sout0 : Nat) (pOut : Int) : Nat :=
  (max (min ((sout0 : Int) + ((c : Int) - sin0) * pOut / qIn) 255) 0).toNat

/-- A sample for the open arithmetic of the composite field: the integer quotient. -/
def sampleThird (s : Nat) : Scalar := (s / 3 : Nat)

/-! ## Auxiliary results on `createComponentsClouds_` -/

theorem range_filterMap_getElem? {α β : Type} (f : α → Option β) (s : List α) :
    (List.range s.length).filterMap (fun i => (s[i]?).bind f) = s.filterMap f := by
  induction s with
  | nil => rfl
  | cons a s ih =>
    rw [List.length_cons, List.range_succ_eq_map, List.filterMap_cons, List.filterMap_map]
    simp only [List.getElem?_cons_zero, List.filterMap_cons, Option.some_bind]
    have : ((fun i => ((a :: s)[i]?).bind f) ∘ Nat.succ) = (fun i => (s[i]?).bind f) := by
      funext i
      simp [Function.comp]
    rw [this, ih]

theorem range_filterMap_self {α : Type} (s : List α) :
    (List.range s.length).filterMap (fun i => s[i]?) = s := by
  have h := range_filterMap_getElem? (fun e : α => some e) s
  rw [List.filterMap_some] at h
  have e : (fun i : Nat => s[i]?) = (fun i : Nat => (s[i]?).bind (fun e => some e)) := by
    funext i
    cases s[i]? <;> rfl
  rw [e]
  exact h

theorem mapM_option_eq {α β : Type} (f : α → Option β) (g : α → β) (l : List α)
    (h : ∀ a ∈ l, f a = some (g a)) : l.mapM f = some (l.map g) := by
  induction l with
  | nil => rfl
  | cons a l ih =>
    rw [List.mapM_cons, h a (List.mem_cons_self _ _), ih (fun b hb => h b (List.mem_cons_of_mem _ hb))]
    rfl

theorem compIndexesAt_sorted (C : List ReferenceCloud) (S : List ComponentIndexAndSize) (i : Nat) :
    compIndexesAt C (some S) i = (S[i]?).bind (fun e => C[e.index]?) := by
  simp only [compIndexesAt]
  cases S[i]? <;> rfl

theorem fillSortedIndexes_eq (C : List ReferenceCloud) (n : Nat) (h : n ≤ C.length) :
    fillSortedIndexes C n = some ((List.range n).map (fun i => ⟨i, sizeAt C i⟩)) := by
  unfold fillSortedIndexes
  apply mapM_option_eq
  intro i hi
  have hlt : i < C.length := lt_of_lt_of_le (List.mem_range.mp hi) h
  simp [sizeAt, List.getElem?_eq_getElem hlt]

theorem componentsLoop_eq (E : Engine) (pc : Option ccPointCloud) (C : List ReferenceCloud)
    (S : Option (List ComponentIndexAndSize)) (m : Nat) (rc : Bool) :
    ∀ (is : List Nat) (st : LoopState), (∀ i ∈ is, (compIndexesAt C S i).isSome) →
      componentsLoop E pc C S m rc is st
        = some ((is.filterMap (compIndexesAt C S)).foldl (loopBody E pc m rc) st) := by
  intro is
  induction is with
  | nil => intro st _; rfl
  | cons i rest ih =>
    intro st h
    have hi := h i (List.mem_cons_self _ _)
    obtain ⟨g, hg⟩ := Option.isSome_iff_exists.mp hi
    rw [componentsLoop, List.filterMap_cons]
    simp only [hg]
    rw [ih _ (fun j hj => h j (List.mem_cons_of_mem _ hj))]
    rfl

theorem foldl_loopBody (E : Engine) (pc : Option ccPointCloud) (m : Nat) (rc : Bool) :
    ∀ (gs : List ReferenceCloud) (st : LoopState),
      gs.foldl (loopBody E pc m rc) st =
        ⟨st.resultClouds ++ decorateAll E pc rc st.gen st.nbComp
            ((gs.filter (qualifies m)).filterMap (cloneOf E pc)),
          st.nbComp + ((gs.filter (qualifies m)).filterMap (cloneOf E pc)).length,
          if rc then st.gen + ((gs.filter (qualifies m)).filterMap (cloneOf E pc)).length
          else st.gen⟩ := by
  intro gs
  induction gs with
  | nil => intro st; simp [decorateAll]
  | cons g rest ih =>
    intro st
    rw [List.foldl_cons, ih]
    by_cases hq : g.size ≥ m
    · cases hc : cloneOf E pc g with
      | none =>
        have hb : loopBody E pc m rc st g = st := by
          unfold loopBody
          unfold cloneOf at hc
          simp only [hq, if_true, hc]
        rw [hb]
        simp [List.filter_cons, qualifies, hq, hc]
      | some raw =>
        have hb : loopBody E pc m rc st g =
            ⟨st.resultClouds ++ [decorate E pc rc st.gen st.nbComp raw], st.nbComp + 1,
              if rc then st.gen + 1 else st.gen⟩ := by
          unfold loopBody
          unfold cloneOf at hc
          simp only [hq, if_true, hc]
          cases rc <;> simp [decorate]
        rw [hb]
        cases rc <;>
          simp [List.filter_cons, qualifies, hq, hc, decorateAll, Nat.add_assoc, Nat.add_comm 1]
    · have hb : loopBody E pc m rc st g = st := by
        unfold loopBody
        simp only [hq, if_false]
      rw [hb]
      simp [List.filter_cons, qualifies, hq]


theorem sortBlock_eq (E : Engine) (C : List ReferenceCloud) (sb : Bool)
    (hlen : C.length < 4294967296) :
    sortBlock E C sb =
      some (if sb = true ∧ E.reserve C.length = true then some (E.ParallelSort (indexedSizes C))
            else none) := by
  unfold sortBlock
  cases sb with
  | false => simp
  | true =>
    cases hr : E.reserve C.length with
    | false => simp
    | true =>
      simp only [if_true, Nat.mod_eq_of_lt hlen, fillSortedIndexes_eq C C.length le_rfl]
      simp [indexedSizes]

theorem mem_indexedSizes {C : List ReferenceCloud} {e : ComponentIndexAndSize}
    (h : e ∈ indexedSizes C) : ∃ g, C[e.index]? = some g ∧ g.size = e.size := by
  unfold indexedSizes at h
  obtain ⟨i, hi, rfl⟩ := List.mem_map.mp h
  have hlt : i < C.length := List.mem_range.mp hi
  exact ⟨C[i], List.getElem?_eq_getElem hlt, by simp [sizeAt, List.getElem?_eq_getElem hlt]⟩

theorem indexedSizes_filterMap (C : List ReferenceCloud) :
    (indexedSizes C).filterMap (fun e => C[e.index]?) = C := by
  unfold indexedSizes
  rw [List.filterMap_map]
  exact range_filterMap_self C

theorem compIndexesAt_isSome (E : Engine) (C : List ReferenceCloud) (sb : Bool)
    (hperm : E.SortPermutes) :
    ∀ i ∈ List.range C.length,
      (compIndexesAt C (if sb = true ∧ E.reserve C.length = true
        then some (E.ParallelSort (indexedSizes C)) else none) i).isSome := by
  intro i hi
  have hlt : i < C.length := List.mem_range.mp hi
  split
  · rw [compIndexesAt_sorted]
    have hl : (E.ParallelSort (indexedSizes C)).length = C.length := by
      rw [(hperm _).length_eq]
      simp [indexedSizes]
    have hi2 : i < (E.ParallelSort (indexedSizes C)).length := by rw [hl]; exact hlt
    rw [List.getElem?_eq_getElem hi2, Option.some_bind]
    have hm : (E.ParallelSort (indexedSizes C))[i] ∈ indexedSizes C :=
      (hperm _).subset (List.getElem_mem _)
    obtain ⟨g, hg, _⟩ := mem_indexedSizes hm
    rw [hg]
    rfl
  · simp [compIndexesAt, List.getElem?_eq_getElem hlt]

theorem processingOrder_eq (E : Engine) (C : List ReferenceCloud) (sb : Bool)
    (hperm : E.SortPermutes) (hlen : C.length < 4294967296) :
    processingOrder E C sb =
      if sb = true ∧ E.reserve C.length = true
      then (E.ParallelSort (indexedSizes C)).filterMap (fun e => C[e.index]?)
      else C := by
  unfold processingOrder
  rw [sortBlock_eq E C sb hlen]
  simp only
  split
  · have hl : (E.ParallelSort (indexedSizes C)).length = C.length := by
      rw [(hperm _).length_eq]
      simp [indexedSizes]
    have e : compIndexesAt C (some (E.ParallelSort (indexedSizes C))) =
        (fun i => ((E.ParallelSort (indexedSizes C))[i]?).bind (fun e => C[e.index]?)) := by
      funext i
      exact compIndexesAt_sorted _ _ _
    rw [e, ← hl]
    exact range_filterMap_getElem? _ _
  · have e : compIndexesAt C none = (fun i => C[i]?) := by
      funext i
      rfl
    rw [e]
    exact range_filterMap_self C

theorem processingOrder_perm (E : Engine) (C : List ReferenceCloud) (sb : Bool)
    (hperm : E.SortPermutes) (hlen : C.length < 4294967296) :
    (processingOrder E C sb).Perm C := by
  rw [processingOrder_eq E C sb hperm hlen]
  split
  · have h := (hperm (indexedSizes C)).filterMap (fun e => C[e.index]?)
    rw [indexedSizes_filterMap] at h
    exact h
  · exact List.Perm.refl _

theorem processingOrder_sorted (E : Engine) (C : List ReferenceCloud)
    (hperm : E.SortPermutes) (hord : E.SortOrders) (hlen : C.length < 4294967296)
    (hres : E.reserve C.length = true) :
    (processingOrder E C true).Pairwise (fun a b => a.size ≥ b.size) := by
  rw [processingOrder_eq E C true hperm hlen]
  simp only [hres, and_self, if_true]
  rw [List.pairwise_filterMap]
  refine (hord (indexedSizes C)).imp_of_mem ?_
  intro a b ha hb hab g hg g1 hg1
  obtain ⟨ga, hga, hsa⟩ := mem_indexedSizes ((hperm _).subset ha)
  obtain ⟨gb, hgb, hsb⟩ := mem_indexedSizes ((hperm _).subset hb)
  have h1 : g = ga := by
    have := hg
    simp only [Option.mem_def] at this
    rw [hga] at this
    exact (Option.some.inj this).symm
  have h2 : g1 = gb := by
    have := hg1
    simp only [Option.mem_def] at this
    rw [hgb] at this
    exact (Option.some.inj this).symm
  subst h1 h2
  simp only [ComponentIndexAndSize.DescendingCompOperator, decide_eq_false_iff_not, not_lt,
    gt_iff_lt] at hab
  rw [hsa, hsb]
  exact hab

theorem createComponentsClouds__eq (E : Engine) (c : ccGenericPointCloud)
    (C : List ReferenceCloud) (m : Nat) (rc sb : Bool) (gen : Nat)
    (hperm : E.SortPermutes) (hlen : C.length < 4294967296) :
    createComponentsClouds_ E (some c) C m rc sb gen =
      some ⟨decorateAll E (asPointCloud c) rc gen 0
              (((processingOrder E C sb).filter (qualifies m)).filterMap
                (cloneOf E (asPointCloud c))),
            [],
            if rc then gen + (((processingOrder E C sb).filter (qualifies m)).filterMap
                (cloneOf E (asPointCloud c))).length
            else gen⟩ := by
  cases C with
  | nil =>
    simp [createComponentsClouds_, processingOrder, sortBlock_eq E [] sb (by simp), decorateAll]
  | cons g rest =>
    have hpc : (match c with
        | .pointCloud p => some p
        | .generic _ => none) = asPointCloud c := by
      cases c <;> rfl
    unfold createComponentsClouds_ processingOrder
    simp only [List.isEmpty_cons, Bool.false_eq_true, if_false, sortBlock_eq E (g :: rest) sb hlen,
      hpc]
    rw [componentsLoop_eq _ _ _ _ _ _ _ _ (compIndexesAt_isSome E (g :: rest) sb hperm)]
    simp only [foldl_loopBody, List.nil_append, Nat.zero_add]

theorem sampleEngine_sortPermutes : sampleEngine.SortPermutes :=
  fun l => List.perm_insertionSort _ l

theorem sampleEngine_sortOrders : sampleEngine.SortOrders := by
  intro l
  haveI : IsTotal ComponentIndexAndSize (fun a b => b.size ≤ a.size) :=
    ⟨fun a b => Nat.le_total b.size a.size⟩
  haveI : IsTrans ComponentIndexAndSize (fun a b => b.size ≤ a.size) :=
    ⟨fun _ _ _ hab hbc => Nat.le_trans hbc hab⟩
  have h : (sortBySize l).Pairwise (fun a b => b.size ≤ a.size) :=
    List.sorted_insertionSort (fun a b : ComponentIndexAndSize => b.size ≤ a.size) l
  refine h.imp ?_
  intro a b hab
  simp [ComponentIndexAndSize.DescendingCompOperator, hab]

theorem createComponentsClouds__null (E : Engine) (C : List ReferenceCloud) (m : Nat)
    (rc sb : Bool) (gen : Nat) :
    createComponentsClouds_ E none C m rc sb gen = some ⟨[], C, gen⟩ := rfl

theorem forall₂_decorateAll (E : Engine) (pc : Option ccPointCloud) (rc : Bool) :
    ∀ (gs : List ReferenceCloud) (gen nb : Nat),
      List.Forall₂ (BuiltFrom E pc rc) (gs.filter (fun g => (cloneOf E pc g).isSome))
        (decorateAll E pc rc gen nb (gs.filterMap (cloneOf E pc))) := by
  intro gs
  induction gs with
  | nil => intro gen nb; exact List.Forall₂.nil
  | cons g rest ih =>
    intro gen nb
    cases hc : cloneOf E pc g with
    | none => simpa [List.filter_cons, List.filterMap_cons, hc] using ih gen nb
    | some raw =>
      simp only [List.filter_cons, List.filterMap_cons, hc, Option.isSome_some, if_true,
        decorateAll]
      exact List.Forall₂.cons ⟨raw, gen, nb, hc, rfl⟩ (ih _ _)

theorem decorateAll_length (E : Engine) (pc : Option ccPointCloud) (rc : Bool) :
    ∀ (raws : List ccPointCloud) (gen nb : Nat),
      (decorateAll E pc rc gen nb raws).length = raws.length := by
  intro raws
  induction raws with
  | nil => intro gen nb; rfl
  | cons c rest ih => intro gen nb; simp [decorateAll, ih]

theorem decorateAll_names (E : Engine) (pc : Option ccPointCloud) (rc : Bool) :
    ∀ (raws : List ccPointCloud) (gen nb : Nat),
      (decorateAll E pc rc gen nb raws).map (fun c => c.name)
        = (List.range raws.length).map (fun j => ccName (nb + j)) := by
  intro raws
  induction raws with
  | nil => intro gen nb; rfl
  | cons c rest ih =>
    intro gen nb
    rw [List.length_cons, List.range_succ_eq_map]
    simp only [decorateAll, List.map_cons, List.map_map, ih, Nat.add_zero]
    refine congrArg₂ List.cons ?_ ?_
    · simp [decorate, ccPointCloud.setName]
    · apply List.map_congr_left
      intro j _
      simp [Function.comp, Nat.add_assoc, Nat.add_comm 1]

theorem decorateAll_getElem? (E : Engine) (pc : Option ccPointCloud) (rc : Bool) :
    ∀ (raws : List ccPointCloud) (gen nb j : Nat),
      (decorateAll E pc rc gen nb raws)[j]?
        = (raws[j]?).map (decorate E pc rc (if rc then gen + j else gen) (nb + j)) := by
  intro raws
  induction raws with
  | nil => intro gen nb j; simp [decorateAll]
  | cons c rest ih =>
    intro gen nb j
    cases j with
    | zero => simp [decorateAll]
    | succ k =>
      simp only [decorateAll, List.getElem?_cons_succ, ih]
      cases rc <;> simp [Nat.add_assoc, Nat.add_comm 1]

theorem filterMap_getElem?_of_isSome {α β : Type} (f : α → Option β) :
    ∀ (l : List α) (j : Nat), (∀ a ∈ l, (f a).isSome) →
      (l.filterMap f)[j]? = (l[j]?).bind f := by
  intro l
  induction l with
  | nil => intro j _; simp
  | cons a rest ih =>
    intro j h
    obtain ⟨b, hb⟩ := Option.isSome_iff_exists.mp (h a (List.mem_cons_self _ _))
    rw [List.filterMap_cons, hb]
    cases j with
    | zero => simp [hb]
    | succ k =>
      simp only [List.getElem?_cons_succ]
      exact ih k (fun x hx => h x (List.mem_cons_of_mem _ hx))

/-- C1 (threshold enforcement): a call of `createComponentsClouds_` returns, and the clouds it
returns are built, one for one and in order, from groups `gs` that are taken from the
groups of the container with `size() >= minPointsPerComponent`; so every returned cloud comes
from a group that is large enough, and no group below the threshold yields a cloud. -/
theorem C1_threshold_enforcement (E : Engine) (cloud : Option ccGenericPointCloud)
    (components : List ReferenceCloud) (minPointsPerComponent : Nat)
    (randomColors sortBysize : Bool) (gen : Nat)
    (hperm : E.SortPermutes) (hlen : components.length < 4294967296) :
    ∃ r gs, createComponentsClouds_ E cloud components minPointsPerComponent randomColors
        sortBysize gen = some r ∧
      List.Forall₂ (BuiltFrom E (cloud.bind asPointCloud) randomColors) gs r.resultClouds ∧
      gs.Subperm (components.filter (fun g => decide (g.size ≥ minPointsPerComponent))) ∧
      (∀ g ∈ gs, g ∈ components ∧ g.size ≥ minPointsPerComponent) ∧
      ((∀ g ∈ components, g.size < minPointsPerComponent) → r.resultClouds = []) := by
  cases cloud with
  | none =>
    refine ⟨_, [], createComponentsClouds__null _ _ _ _ _ _, List.Forall₂.nil,
      List.nil_subperm, ?_, fun _ => rfl⟩
    intro g hg
    cases hg
  | some c =>
    have hsub : ((((processingOrder E components sortBysize).filter
        (qualifies minPointsPerComponent)).filter
          (fun g => (cloneOf E (asPointCloud c) g).isSome))).Subperm
        (components.filter (fun g => decide (g.size ≥ minPointsPerComponent))) :=
      (List.filter_sublist _).subperm.trans
        ((processingOrder_perm E components sortBysize hperm hlen).filter _).subperm
    have hmem : ∀ g ∈ (((processingOrder E components sortBysize).filter
        (qualifies minPointsPerComponent)).filter
          (fun g => (cloneOf E (asPointCloud c) g).isSome)),
        g ∈ components ∧ g.size ≥ minPointsPerComponent := by
      intro g hg
      have h := hsub.subset hg
      rw [List.mem_filter] at h
      exact ⟨h.1, of_decide_eq_true h.2⟩
    refine ⟨_, _, createComponentsClouds__eq E c components minPointsPerComponent randomColors
      sortBysize gen hperm hlen, forall₂_decorateAll _ _ _ _ _ _, hsub, hmem, ?_⟩
    intro hall
    have hnil : (((processingOrder E components sortBysize).filter
        (qualifies minPointsPerComponent)).filter
          (fun g => (cloneOf E (asPointCloud c) g).isSome)) = [] := by
      apply List.eq_nil_iff_forall_not_mem.mpr
      intro g hg
      have := hmem g hg
      exact absurd this.2 (not_le.mpr (hall g this.1))
    have h2 := (forall₂_decorateAll E (asPointCloud c) randomColors
      ((processingOrder E components sortBysize).filter (qualifies minPointsPerComponent))
      gen 0).length_eq
    rw [hnil] at h2
    exact List.length_eq_zero.mp h2.symm

theorem C1_threshold_enforcement_witness :
    sampleEngine.SortPermutes ∧ sampleGroups.length < 4294967296 ∧
    ∃ r gs, createComponentsClouds_ sampleEngine (some (.pointCloud sampleCloud)) sampleGroups 2
        true true 0 = some r ∧
      List.Forall₂ (BuiltFrom sampleEngine
        ((some (ccGenericPointCloud.pointCloud sampleCloud)).bind asPointCloud) true)
        gs r.resultClouds ∧
      gs.Subperm (sampleGroups.filter (fun g => decide (g.size ≥ 2))) ∧
      (∀ g ∈ gs, g ∈ sampleGroups ∧ g.size ≥ 2) ∧
      ((∀ g ∈ sampleGroups, g.size < 2) → r.resultClouds = []) :=
  ⟨sampleEngine_sortPermutes, by decide,
    C1_threshold_enforcement sampleEngine (some (.pointCloud sampleCloud)) sampleGroups 2
      true true 0 sampleEngine_sortPermutes (by decide)⟩


theorem decorate_points (E : Engine) (pc : Option ccPointCloud) (rc : Bool) (gen nb : Nat)
    (raw : ccPointCloud) : (decorate E pc rc gen nb raw).points = raw.points := by
  cases rc <;> cases pc <;> rfl

/-- C2 (completeness of materialization): for a non-null source cloud, when the construction
of no qualifying group fails, `createComponentsClouds_` returns one cloud per group with
`size() >= minPointsPerComponent`, and the j-th returned cloud is the cloud built (partial
clone) for the j-th qualifying group in processing order, with the same points, then named
and given the shift, scale and optional colour. -/
theorem C2_materialization_complete (E : Engine) (cloud : ccGenericPointCloud)
    (components : List ReferenceCloud) (minPointsPerComponent : Nat)
    (randomColors sortBysize : Bool) (gen : Nat)
    (hperm : E.SortPermutes) (hlen : components.length < 4294967296)
    (hclone : ∀ g ∈ components, g.size ≥ minPointsPerComponent →
      (cloneOf E (asPointCloud cloud) g).isSome) :
    ∃ r, createComponentsClouds_ E (some cloud) components minPointsPerComponent randomColors
        sortBysize gen = some r ∧
      (processingOrder E components sortBysize).Perm components ∧
      r.resultClouds.length = (components.filter (qualifies minPointsPerComponent)).length ∧
      ∀ j g, ((processingOrder E components sortBysize).filter
          (qualifies minPointsPerComponent))[j]? = some g →
        ∃ raw out, cloneOf E (asPointCloud cloud) g = some raw ∧
          r.resultClouds[j]? = some out ∧
          out = decorate E (asPointCloud cloud) randomColors
            (if randomColors then gen + j else gen) j raw ∧
          out.points = raw.points := by
  have hp := processingOrder_perm E components sortBysize hperm hlen
  have hall : ∀ g ∈ (processingOrder E components sortBysize).filter
      (qualifies minPointsPerComponent), (cloneOf E (asPointCloud cloud) g).isSome := by
    intro g hg
    rw [List.mem_filter] at hg
    exact hclone g (hp.subset hg.1) (of_decide_eq_true hg.2)
  refine ⟨_, createComponentsClouds__eq E cloud components minPointsPerComponent randomColors
    sortBysize gen hperm hlen, hp, ?_, ?_⟩
  · simp only [decorateAll_length]
    have h1 : (((processingOrder E components sortBysize).filter
        (qualifies minPointsPerComponent)).filterMap (cloneOf E (asPointCloud cloud))).length
        = ((processingOrder E components sortBysize).filter
            (qualifies minPointsPerComponent)).length := by
      have hf := (forall₂_decorateAll E (asPointCloud cloud) randomColors
        ((processingOrder E components sortBysize).filter (qualifies minPointsPerComponent))
        gen 0).length_eq
      rw [decorateAll_length, List.filter_eq_self.mpr hall] at hf
      exact hf.symm
    rw [h1]
    exact (hp.filter _).length_eq
  · intro j g hj
    have hg : g ∈ (processingOrder E components sortBysize).filter
        (qualifies minPointsPerComponent) := List.getElem?_mem hj
    obtain ⟨raw, hraw⟩ := Option.isSome_iff_exists.mp (hall g hg)
    refine ⟨raw, _, hraw, ?_, rfl, decorate_points _ _ _ _ _ _⟩
    simp only [decorateAll_getElem?, filterMap_getElem?_of_isSome _ _ _ hall, hj,
      Option.some_bind, hraw, Option.map_some', Nat.zero_add]

theorem C2_materialization_complete_witness :
    sampleEngine.SortPermutes ∧ sampleGroups.length < 4294967296 ∧
    (∀ g ∈ sampleGroups, g.size ≥ 2 →
      (cloneOf sampleEngine (asPointCloud (.pointCloud sampleCloud)) g).isSome) ∧
    ∃ r, createComponentsClouds_ sampleEngine (some (.pointCloud sampleCloud)) sampleGroups 2
        true true 0 = some r ∧
      (processingOrder sampleEngine sampleGroups true).Perm sampleGroups ∧
      r.resultClouds.length = (sampleGroups.filter (qualifies 2)).length ∧
      ∀ j g, ((processingOrder sampleEngine sampleGroups true).filter (qualifies 2))[j]? = some g →
        ∃ raw out, cloneOf sampleEngine (asPointCloud (.pointCloud sampleCloud)) g = some raw ∧
          r.resultClouds[j]? = some out ∧
          out = decorate sampleEngine (asPointCloud (.pointCloud sampleCloud)) true
            (if true = true then 0 + j else 0) j raw ∧
          out.points = raw.points :=
  ⟨sampleEngine_sortPermutes, by decide, fun _ _ _ => rfl,
    C2_materialization_complete sampleEngine (.pointCloud sampleCloud) sampleGroups 2
      true true 0 sampleEngine_sortPermutes (by decide) (fun _ _ _ => rfl)⟩

/-- C3 (size ordering): when sorting is in effect (`sortBysize` is true and the scratch
vector could be reserved), `createComponentsClouds_` returns, and the clouds it returns are
built, one for one and in order, from groups `gs` taken in processing order whose sizes are
non-increasing: a cloud placed before another comes from a group at least as large. -/
theorem C3_size_ordering (E : Engine) (cloud : Option ccGenericPointCloud)
    (components : List ReferenceCloud) (minPointsPerComponent : Nat)
    (randomColors : Bool) (gen : Nat)
    (hperm : E.SortPermutes) (hord : E.SortOrders) (hlen : components.length < 4294967296)
    (hres : E.reserve components.length = true) :
    ∃ r gs, createComponentsClouds_ E cloud components minPointsPerComponent randomColors
        true gen = some r ∧
      List.Forall₂ (BuiltFrom E (cloud.bind asPointCloud) randomColors) gs r.resultClouds ∧
      gs.Sublist (processingOrder E components true) ∧
      gs.Pairwise (fun a b => a.size ≥ b.size) := by
  cases cloud with
  | none =>
    exact ⟨_, [], createComponentsClouds__null _ _ _ _ _ _, List.Forall₂.nil,
      List.nil_sublist _, List.Pairwise.nil⟩
  | some c =>
    have hsub : ((((processingOrder E components true).filter
        (qualifies minPointsPerComponent)).filter
          (fun g => (cloneOf E (asPointCloud c) g).isSome))).Sublist
        (processingOrder E components true) :=
      (List.filter_sublist _).trans (List.filter_sublist _)
    exact ⟨_, _, createComponentsClouds__eq E c components minPointsPerComponent randomColors
      true gen hperm hlen, forall₂_decorateAll _ _ _ _ _ _, hsub,
      (processingOrder_sorted E components hperm hord hlen hres).sublist hsub⟩

theorem C3_size_ordering_witness :
    sampleEngine.SortPermutes ∧ sampleEngine.SortOrders ∧ sampleGroups.length < 4294967296 ∧
    sampleEngine.reserve sampleGroups.length = true ∧
    ∃ r gs, createComponentsClouds_ sampleEngine (some (.pointCloud sampleCloud)) sampleGroups 1
        false true 0 = some r ∧
      List.Forall₂ (BuiltFrom sampleEngine
        ((some (ccGenericPointCloud.pointCloud sampleCloud)).bind asPointCloud) false)
        gs r.resultClouds ∧
      gs.Sublist (processingOrder sampleEngine sampleGroups true) ∧
      gs.Pairwise (fun a b => a.size ≥ b.size) :=
  ⟨sampleEngine_sortPermutes, sampleEngine_sortOrders, by decide, rfl,
    C3_size_ordering sampleEngine (some (.pointCloud sampleCloud)) sampleGroups 1 false 0
      sampleEngine_sortPermutes sampleEngine_sortOrders (by decide) rfl⟩

/-- C4 (naming contiguity): a call of `createComponentsClouds_` returns, and the names of the
`k` clouds it returns are `CC#0`, `CC#1`, ..., `CC#(k-1)` in output order, whatever groups were
too small or could not be built. -/
theorem C4_naming_contiguity (E : Engine) (cloud : Option ccGenericPointCloud)
    (components : List ReferenceCloud) (minPointsPerComponent : Nat)
    (randomColors sortBysize : Bool) (gen : Nat)
    (hperm : E.SortPermutes) (hlen : components.length < 4294967296) :
    ∃ r, createComponentsClouds_ E cloud components minPointsPerComponent randomColors
        sortBysize gen = some r ∧
      r.resultClouds.map (fun c => c.name)
        = (List.range r.resultClouds.length).map (fun j => "CC#" ++ toString j) := by
  cases cloud with
  | none => exact ⟨_, createComponentsClouds__null _ _ _ _ _ _, rfl⟩
  | some c =>
    refine ⟨_, createComponentsClouds__eq E c components minPointsPerComponent randomColors
      sortBysize gen hperm hlen, ?_⟩
    simp only [decorateAll_names, decorateAll_length, Nat.zero_add]
    rfl

theorem C4_naming_contiguity_witness :
    sampleEngine.SortPermutes ∧ sampleGroups.length < 4294967296 ∧
    ∃ r, createComponentsClouds_ sampleEngine (some (.pointCloud sampleCloud)) sampleGroups 2
        false true 0 = some r ∧
      r.resultClouds.map (fun c => c.name)
        = (List.range r.resultClouds.length).map (fun j => "CC#" ++ toString j) :=
  ⟨sampleEngine_sortPermutes, by decide,
    C4_naming_contiguity sampleEngine (some (.pointCloud sampleCloud)) sampleGroups 2
      false true 0 sampleEngine_sortPermutes (by decide)⟩

/-! ## Auxiliary results on `ExtractConnectedComponents_py` -/

theorem collectClouds_eq_nil (es : List ccHObject)
    (h : ∀ e ∈ es, isKindOfPointCloud e = false) : collectClouds es = [] := by
  induction es with
  | nil => rfl
  | cons e rest ih =>
    cases e with
    | cloud c => exact absurd (h _ (List.mem_cons_self _ _)) (by simp [isKindOfPointCloud])
    | other n => exact ih (fun x hx => h x (List.mem_cons_of_mem _ hx))

theorem collectClouds_filter (es : List ccHObject) :
    collectClouds (es.filter isKindOfPointCloud) = collectClouds es := by
  induction es with
  | nil => rfl
  | cons e rest ih =>
    cases e with
    | cloud c => simp [List.filter_cons, isKindOfPointCloud, collectClouds, ih]
    | other n => simp [List.filter_cons, isKindOfPointCloud, collectClouds, ih]

theorem collectClouds_append (xs ys : List ccHObject) :
    collectClouds (xs ++ ys) = collectClouds xs ++ collectClouds ys := by
  induction xs with
  | nil => rfl
  | cons e rest ih =>
    cases e with
    | cloud c => simp [collectClouds, ih]
    | other n => simp [collectClouds, ih]

theorem writeBack_nil (es : List ccHObject) : writeBack es [] = es := by
  induction es with
  | nil => rfl
  | cons e rest ih =>
    cases e with
    | cloud c => simp [writeBack, ih]
    | other n => simp [writeBack, ih]

theorem writeBack_append (ys : List ccHObject) (cs2 : List ccGenericPointCloud) :
    ∀ (xs : List ccHObject) (cs1 : List ccGenericPointCloud),
      cs1.length = (collectClouds xs).length →
      writeBack (xs ++ ys) (cs1 ++ cs2) = writeBack xs cs1 ++ writeBack ys cs2 := by
  intro xs
  induction xs with
  | nil =>
    intro cs1 h
    have : cs1 = [] := List.length_eq_zero.mp (by simpa [collectClouds] using h)
    subst this
    cases ys <;> simp [writeBack]
  | cons e rest ih =>
    intro cs1 h
    cases e with
    | other n => simp [writeBack, ih cs1 (by simpa [collectClouds] using h)]
    | cloud c =>
      cases cs1 with
      | nil => simp [collectClouds] at h
      | cons c1 cs1 =>
        simp [writeBack, ih cs1 (by simpa [collectClouds] using h)]

theorem ExtractConnectedComponents_py_eq (E : Engine) (es : List ccHObject) (ol m mx : Int)
    (rc : Bool) (gen : Nat) :
    ExtractConnectedComponents_py E es ol m mx rc gen =
      (cloudsLoop E ol m mx rc (collectClouds es) ⟨0, 0, [], gen⟩).map
        (fun p => ⟨p.2.nbCloudDone, p.2.resultComponents, writeBack es p.1, p.2.gen⟩) := by
  unfold ExtractConnectedComponents_py
  cases hc : collectClouds es with
  | nil => simp [cloudsLoop, writeBack_nil]
  | cons c cs =>
    simp only [List.length_cons, Nat.add_one_ne_zero, if_false]
    cases cloudsLoop E ol m mx rc (c :: cs) ⟨0, 0, [], gen⟩ with
    | none => rfl
    | some p => rfl

theorem finishCloud_shift (E : Engine) (m : Int) (rc : Bool) (pc : ccPointCloud) (sfIdx : Int)
    (C : List ReferenceCloud) (r nb : Int) (res : List ccPointCloud) (g : Nat) :
    finishCloud E m rc pc sfIdx C ⟨r, nb, res, g⟩ =
      (finishCloud E m rc pc sfIdx C ⟨r, 0, [], g⟩).map
        (fun t => (t.1, t.2.1, shiftState nb res t.2.2)) := by
  unfold finishCloud
  cases C.isEmpty with
  | true => simp [shiftState]
  | false =>
    simp only [Bool.not_false, if_true]
    cases createComponentsClouds_ E (some (.pointCloud (pc.deleteScalarField sfIdx))) C
        (toUnsigned m) rc true g with
    | none => rfl
    | some r => simp [shiftState]

theorem labelAndExtract_shift (E : Engine) (ol m mx : Int) (rc : Bool) (pc2 : ccPointCloud)
    (o : ccOctree) (sfIdx : Int) (r nb : Int) (res : List ccPointCloud) (g : Nat) :
    labelAndExtract E ol m mx rc pc2 o sfIdx ⟨r, nb, res, g⟩ =
      (labelAndExtract E ol m mx rc pc2 o sfIdx ⟨r, 0, [], g⟩).map
        (fun t => (t.1, t.2.1, shiftState nb res t.2.2)) := by
  unfold labelAndExtract
  simp only [safetyTest, List.foldl_nil]
  split
  · split
    · simp [shiftState]
    · exact finishCloud_shift _ _ _ _ _ _ _ _ _ _
  · exact finishCloud_shift _ _ _ _ _ _ _ _ _ _

theorem processCloud_shift (E : Engine) (ol m mx : Int) (rc : Bool) (c : ccGenericPointCloud)
    (r nb : Int) (res : List ccPointCloud) (g : Nat) :
    processCloud E ol m mx rc c ⟨r, nb, res, g⟩ =
      (processCloud E ol m mx rc c ⟨r, 0, [], g⟩).map
        (fun t => (t.1, t.2.1, shiftState nb res t.2.2)) := by
  cases c with
  | generic n => simp [processCloud, shiftState]
  | pointCloud pc0 =>
    simp only [processCloud]
    cases labelingInput E pc0 with
    | inl pcb => simp [shiftState]
    | inr t =>
      obtain ⟨pc2, o, sfIdx⟩ := t
      exact labelAndExtract_shift _ _ _ _ _ _ _ _ _ _ _ _


theorem shiftState_shiftState (nb nb1 : Int) (res res1 : List ccPointCloud) (s : ExtractState) :
    shiftState nb res (shiftState nb1 res1 s) = shiftState (nb + nb1) (res ++ res1) s := by
  simp [shiftState, Int.add_assoc, List.append_assoc]

theorem cloudsLoop_shift (E : Engine) (ol m mx : Int) (rc : Bool) :
    ∀ (cs : List ccGenericPointCloud) (r nb : Int) (res : List ccPointCloud) (g : Nat),
      cloudsLoop E ol m mx rc cs ⟨r, nb, res, g⟩ =
        (cloudsLoop E ol m mx rc cs ⟨r, 0, [], g⟩).map (fun p => (p.1, shiftState nb res p.2)) := by
  intro cs
  induction cs with
  | nil => intro r nb res g; simp [cloudsLoop, shiftState]
  | cons c rest ih =>
    intro r nb res g
    rw [cloudsLoop, cloudsLoop, processCloud_shift]
    cases processCloud E ol m mx rc c ⟨r, 0, [], g⟩ with
    | none => rfl
    | some t =>
      obtain ⟨fl, c1, s1⟩ := t
      obtain ⟨r1, nb1, res1, g1⟩ := s1
      cases fl with
      | brk => rfl
      | ret => rfl
      | next =>
        simp only [Option.map_some', shiftState]
        rw [ih r1 (nb + nb1) (res ++ res1) g1, ih r1 nb1 res1 g1]
        cases cloudsLoop E ol m mx rc rest ⟨r1, 0, [], g1⟩ with
        | none => rfl
        | some p =>
          obtain ⟨cs1, s2⟩ := p
          simp [shiftState, Int.add_assoc, List.append_assoc]

theorem finishCloud_realComponentCount (E : Engine) (m : Int) (rc : Bool) (pc : ccPointCloud)
    (sfIdx : Int) (C : List ReferenceCloud) (st : ExtractState)
    (t : Flow × ccGenericPointCloud × ExtractState)
    (h : finishCloud E m rc pc sfIdx C st = some t) :
    t.1 = .next ∧ t.2.2.realComponentCount = st.realComponentCount ∧
      t.2.2.nbCloudDone = st.nbCloudDone + 1 := by
  unfold finishCloud at h
  cases hC : C.isEmpty with
  | true =>
    simp only [hC, Bool.not_true, Bool.false_eq_true, if_false, Option.some.injEq] at h
    subst h
    exact ⟨rfl, rfl, rfl⟩
  | false =>
    simp only [hC, Bool.not_false, if_true] at h
    cases hcr : createComponentsClouds_ E (some (.pointCloud (pc.deleteScalarField sfIdx))) C
        (toUnsigned m) rc true st.gen with
    | none => simp [hcr] at h
    | some r =>
      simp only [hcr, Option.some.injEq] at h
      subst h
      exact ⟨rfl, rfl, rfl⟩

theorem processCloud_realComponentCount (E : Engine) (ol m mx : Int) (rc : Bool)
    (c : ccGenericPointCloud) (st : ExtractState)
    (t : Flow × ccGenericPointCloud × ExtractState)
    (h : processCloud E ol m mx rc c st = some t) :
    t.2.2.realComponentCount = st.realComponentCount := by
  cases c with
  | generic n =>
    simp only [processCloud, Option.some.injEq] at h
    subst h
    rfl
  | pointCloud pc0 =>
    simp only [processCloud] at h
    cases hl : labelingInput E pc0 with
    | inl pcb =>
      simp only [hl, Option.some.injEq] at h
      subst h
      rfl
    | inr u =>
      obtain ⟨pc2, o, sfIdx⟩ := u
      simp only [hl, labelAndExtract, safetyTest, List.foldl_nil] at h
      split at h
      · split at h
        · simp only [Option.some.injEq] at h
          subst h
          rfl
        · exact (finishCloud_realComponentCount _ _ _ _ _ _ _ _ h).2.1
      · exact (finishCloud_realComponentCount _ _ _ _ _ _ _ _ h).2.1

theorem cloudsLoop_append (E : Engine) (ol m mx : Int) (rc : Bool)
    (ys : List ccGenericPointCloud) :
    ∀ (xs : List ccGenericPointCloud) (st : ExtractState),
      noEarlyExit E ol m mx rc xs st = true →
      ∃ xs1 st1, cloudsLoop E ol m mx rc xs st = some (xs1, st1) ∧
        xs1.length = xs.length ∧
        st1.realComponentCount = st.realComponentCount ∧
        cloudsLoop E ol m mx rc (xs ++ ys) st =
          (cloudsLoop E ol m mx rc ys st1).map (fun p => (xs1 ++ p.1, p.2)) := by
  intro xs
  induction xs with
  | nil =>
    intro st _
    refine ⟨[], st, rfl, rfl, rfl, ?_⟩
    rw [List.nil_append]
    cases cloudsLoop E ol m mx rc ys st <;> simp
  | cons c rest ih =>
    intro st h
    rw [noEarlyExit] at h
    cases hp : processCloud E ol m mx rc c st with
    | none => simp [hp] at h
    | some t =>
      obtain ⟨fl, c1, s1⟩ := t
      cases fl with
      | brk => simp [hp] at h
      | ret => simp [hp] at h
      | next =>
        simp only [hp] at h
        obtain ⟨xs1, st1, h1, hlen, hr, h2⟩ := ih s1 h
        have hr1 := processCloud_realComponentCount _ _ _ _ _ _ _ _ hp
        refine ⟨c1 :: xs1, st1, ?_, by simp [hlen], hr.trans hr1, ?_⟩
        · simp [cloudsLoop, hp, h1]
        · rw [List.cons_append, cloudsLoop]
          simp only [hp, h2]
          cases cloudsLoop E ol m mx rc ys st1 with
          | none => rfl
          | some p => rfl

theorem finishCloud_components (E : Engine) (m : Int) (rc : Bool) (pc : ccPointCloud)
    (sfIdx : Int) (C : List ReferenceCloud) (st : ExtractState)
    (t : Flow × ccGenericPointCloud × ExtractState)
    (h : finishCloud E m rc pc sfIdx C st = some t) :
    t.2.2.resultComponents = st.resultComponents ∨
    ∃ src comps cr, createComponentsClouds_ E (some (.pointCloud src)) comps (toUnsigned m) rc
        true st.gen = some cr ∧
      t.2.2.resultComponents = st.resultComponents ++ cr.resultClouds := by
  unfold finishCloud at h
  cases hC : C.isEmpty with
  | true =>
    simp only [hC, Bool.not_true, Bool.false_eq_true, if_false, Option.some.injEq] at h
    subst h
    exact Or.inl rfl
  | false =>
    simp only [hC, Bool.not_false, if_true] at h
    cases hcr : createComponentsClouds_ E (some (.pointCloud (pc.deleteScalarField sfIdx))) C
        (toUnsigned m) rc true st.gen with
    | none => simp [hcr] at h
    | some r =>
      simp only [hcr, Option.some.injEq] at h
      subst h
      exact Or.inr ⟨_, _, r, hcr, rfl⟩

theorem processCloud_components (E : Engine) (ol m mx : Int) (rc : Bool)
    (c : ccGenericPointCloud) (st : ExtractState)
    (t : Flow × ccGenericPointCloud × ExtractState)
    (h : processCloud E ol m mx rc c st = some t) :
    t.2.2.resultComponents = st.resultComponents ∨
    ∃ src comps cr, createComponentsClouds_ E (some (.pointCloud src)) comps (toUnsigned m) rc
        true st.gen = some cr ∧
      t.2.2.resultComponents = st.resultComponents ++ cr.resultClouds := by
  cases c with
  | generic n =>
    simp only [processCloud, Option.some.injEq] at h
    subst h
    exact Or.inl rfl
  | pointCloud pc0 =>
    simp only [processCloud] at h
    cases hl : labelingInput E pc0 with
    | inl pcb =>
      simp only [hl, Option.some.injEq] at h
      subst h
      exact Or.inl rfl
    | inr u =>
      obtain ⟨pc2, o, sfIdx⟩ := u
      simp only [hl, labelAndExtract, safetyTest, List.foldl_nil] at h
      split at h
      · split at h
        · simp only [Option.some.injEq] at h
          subst h
          exact Or.inl rfl
        · exact finishCloud_components _ _ _ _ _ _ _ _ h
      · exact finishCloud_components _ _ _ _ _ _ _ _ h

theorem single_cloud_components (E : Engine) (ol m mx : Int) (rc : Bool)
    (c : ccGenericPointCloud) (gen : Nat) (r : ExtractResult)
    (h : ExtractConnectedComponents_py E [.cloud c] ol m mx rc gen = some r) :
    r.resultComponents = [] ∨
    ∃ src comps cr, createComponentsClouds_ E (some (.pointCloud src)) comps (toUnsigned m) rc
        true gen = some cr ∧ r.resultComponents = cr.resultClouds := by
  rw [ExtractConnectedComponents_py_eq] at h
  simp only [collectClouds, cloudsLoop] at h
  cases hp : processCloud E ol m mx rc c ⟨0, 0, [], gen⟩ with
  | none => simp [hp] at h
  | some t =>
    obtain ⟨fl, c1, s1⟩ := t
    have hc := processCloud_components _ _ _ _ _ _ _ _ hp
    simp only [List.nil_append] at hc
    cases fl <;>
    · simp only [hp, Option.map_some', Option.some.injEq] at h
      subst h
      exact hc

/-- C7 (empty input): on an entity list that is empty or holds no entity of point-cloud kind,
`ExtractConnectedComponents_py` returns the pair `(0, [])` and leaves every entity (and the
random generator) as it was, whatever the parameters. -/
theorem C7_empty_input (E : Engine) (entities : List ccHObject)
    (octreeLevel minComponentSize maxNumberComponents : Int) (randomColors : Bool) (gen : Nat)
    (h : ∀ e ∈ entities, isKindOfPointCloud e = false) :
    ExtractConnectedComponents_py E entities octreeLevel minComponentSize maxNumberComponents
      randomColors gen = some ⟨0, [], entities, gen⟩ := by
  unfold ExtractConnectedComponents_py
  simp [collectClouds_eq_nil entities h]

theorem C7_empty_input_witness :
    (∀ e ∈ [sampleMesh, ccHObject.other "polyline"], isKindOfPointCloud e = false) ∧
    ExtractConnectedComponents_py sampleEngine [sampleMesh, ccHObject.other "polyline"]
      8 100 100 false 0 = some ⟨0, [], [sampleMesh, ccHObject.other "polyline"], 0⟩ :=
  ⟨by decide, C7_empty_input sampleEngine [sampleMesh, ccHObject.other "polyline"]
    8 100 100 false 0 (by decide)⟩

/-- C8 (entities that are not point clouds are ignored): the pair `(count, components)`
returned by `ExtractConnectedComponents_py` on an entity list is the pair it returns on the
list with the entities that are not of point-cloud kind removed, and the call returns on the
one exactly when it returns on the other. -/
theorem C8_non_clouds_ignored (E : Engine) (entities : List ccHObject)
    (octreeLevel minComponentSize maxNumberComponents : Int) (randomColors : Bool) (gen : Nat) :
    (ExtractConnectedComponents_py E entities octreeLevel minComponentSize maxNumberComponents
        randomColors gen).map (fun r => (r.nbCloudDone, r.resultComponents)) =
    (ExtractConnectedComponents_py E (entities.filter isKindOfPointCloud) octreeLevel
        minComponentSize maxNumberComponents randomColors gen).map
      (fun r => (r.nbCloudDone, r.resultComponents)) := by
  rw [ExtractConnectedComponents_py_eq, ExtractConnectedComponents_py_eq, collectClouds_filter]
  cases cloudsLoop E octreeLevel minComponentSize maxNumberComponents randomColors
      (collectClouds entities) ⟨0, 0, [], gen⟩ with
  | none => rfl
  | some p => rfl

theorem createComponentsClouds__nil (E : Engine) (c : Option ccGenericPointCloud) (m : Nat)
    (rc sb : Bool) (gen : Nat) :
    createComponentsClouds_ E c [] m rc sb gen = some ⟨[], [], gen⟩ := by
  cases c <;> simp [createComponentsClouds_]

theorem finishCloud_next (E : Engine) (m : Int) (rc : Bool) (pc : ccPointCloud)
    (sfIdx : Int) (C : List ReferenceCloud) (st : ExtractState)
    (t : Flow × ccGenericPointCloud × ExtractState)
    (h : finishCloud E m rc pc sfIdx C st = some t) :
    ∃ comps,
      (createComponentsClouds_ E (some (.pointCloud (pc.deleteScalarField sfIdx))) C
        (toUnsigned m) rc true st.gen).map (fun r => (r.resultClouds, r.gen))
        = some (comps, t.2.2.gen) ∧
      t.2.2.resultComponents = st.resultComponents ++ comps := by
  unfold finishCloud at h
  cases hC : C.isEmpty with
  | true =>
    have hnil : C = [] := List.isEmpty_iff.mp hC
    subst hnil
    simp only [List.isEmpty_nil, Bool.not_true, Bool.false_eq_true, if_false,
      Option.some.injEq] at h
    subst h
    exact ⟨[], by rw [createComponentsClouds__nil]; rfl, by simp⟩
  | false =>
    simp only [hC, Bool.not_false, if_true] at h
    cases hcr : createComponentsClouds_ E (some (.pointCloud (pc.deleteScalarField sfIdx))) C
        (toUnsigned m) rc true st.gen with
    | none => simp [hcr] at h
    | some r =>
      simp only [hcr, Option.some.injEq] at h
      subst h
      exact ⟨r.resultClouds, rfl, rfl⟩

theorem processCloud_next (E : Engine) (ol m mx : Int) (rc : Bool)
    (c c1 : ccGenericPointCloud) (st s1 : ExtractState)
    (h : processCloud E ol m mx rc c st = some (.next, c1, s1)) :
    ∃ comps, cloudComponents E ol m rc c st.gen = some (comps, s1.gen) ∧
      s1.resultComponents = st.resultComponents ++ comps := by
  cases c with
  | generic n =>
    simp only [processCloud, Option.some.injEq, Prod.mk.injEq, true_and] at h
    obtain ⟨_, hs⟩ := h
    subst hs
    exact ⟨[], rfl, by simp⟩
  | pointCloud pc0 =>
    simp only [processCloud] at h
    simp only [cloudComponents]
    cases hl : labelingInput E pc0 with
    | inl pcb =>
      rw [hl] at h
      simp at h
    | inr u =>
      obtain ⟨pc2, o, sfIdx⟩ := u
      rw [hl] at h
      simp only [labelAndExtract, safetyTest, List.foldl_nil] at h
      simp only []
      split at h
      · rename_i hge
        split at h
        · simp at h
        · obtain ⟨comps, hc, hr⟩ := finishCloud_next _ _ _ _ _ _ _ _ h
          exact ⟨comps, by simpa only [hge, if_true] using hc, hr⟩
      · rename_i hge
        obtain ⟨comps, hc, hr⟩ := finishCloud_next _ _ _ _ _ _ _ _ h
        exact ⟨comps, by simpa only [hge, if_false] using hc, hr⟩

theorem cloudsLoop_concat (E : Engine) (ol m mx : Int) (rc : Bool) :
    ∀ (cs : List ccGenericPointCloud) (st : ExtractState),
      noEarlyExit E ol m mx rc cs st = true →
      ∃ cs1 st1 comps, cloudsLoop E ol m mx rc cs st = some (cs1, st1) ∧
        concatComponents E ol m rc cs st.gen = some (comps, st1.gen) ∧
        st1.resultComponents = st.resultComponents ++ comps := by
  intro cs
  induction cs with
  | nil => intro st _; exact ⟨[], st, [], rfl, rfl, by simp⟩
  | cons c rest ih =>
    intro st h
    simp only [noEarlyExit] at h
    cases hp : processCloud E ol m mx rc c st with
    | none => rw [hp] at h; simp at h
    | some t =>
      obtain ⟨fl, c1, s1⟩ := t
      rw [hp] at h
      cases fl with
      | brk => simp at h
      | ret => simp at h
      | next =>
        simp only at h
        obtain ⟨comps, hc, hr⟩ := processCloud_next _ _ _ _ _ _ _ _ _ hp
        obtain ⟨cs1, st1, more, hl, hcc, hrr⟩ := ih s1 h
        refine ⟨c1 :: cs1, st1, comps ++ more, ?_, ?_, ?_⟩
        · simp only [cloudsLoop, hp, hl]
        · simp only [concatComponents, hc, hcc]
        · rw [hrr, hr, List.append_assoc]

/-- C9 (aggregation in input order): when no iteration over the clouds of `xs` ends by `break`
or `return`, the call on `xs` returns some `a` whose component sequence is the concatenation,
in the order of the clouds, of the sequences returned by `createComponentsClouds_` for the
groups extracted from each cloud; and the call on `xs ++ ys` returns what the call on `xs`
followed by the call on `ys` (with the random generator left by the first) return together:
the counts added and the component sequences concatenated in input order. -/
theorem C9_aggregation_in_input_order (E : Engine) (xs ys : List ccHObject)
    (octreeLevel minComponentSize maxNumberComponents : Int) (randomColors : Bool) (gen : Nat)
    (hrun : noEarlyExit E octreeLevel minComponentSize maxNumberComponents randomColors
      (collectClouds xs) ⟨0, 0, [], gen⟩ = true) :
    ∃ a, ExtractConnectedComponents_py E xs octreeLevel minComponentSize maxNumberComponents
        randomColors gen = some a ∧
      concatComponents E octreeLevel minComponentSize randomColors (collectClouds xs) gen
        = some (a.resultComponents, a.gen) ∧
      ExtractConnectedComponents_py E (xs ++ ys) octreeLevel minComponentSize
          maxNumberComponents randomColors gen =
        (ExtractConnectedComponents_py E ys octreeLevel minComponentSize maxNumberComponents
          randomColors a.gen).map (joinResults a) := by
  obtain ⟨xs1, st1, h1, hlen, hr, h2⟩ :=
    cloudsLoop_append E octreeLevel minComponentSize maxNumberComponents randomColors
      (collectClouds ys) (collectClouds xs) ⟨0, 0, [], gen⟩ hrun
  obtain ⟨cs1, st2, comps, hl, hcc, hrr⟩ :=
    cloudsLoop_concat E octreeLevel minComponentSize maxNumberComponents randomColors
      (collectClouds xs) ⟨0, 0, [], gen⟩ hrun
  rw [h1] at hl
  simp only [Option.some.injEq, Prod.mk.injEq] at hl
  obtain ⟨_, hst⟩ := hl
  subst hst
  simp only [List.nil_append] at hrr
  refine ⟨⟨st1.nbCloudDone, st1.resultComponents, writeBack xs xs1, st1.gen⟩, ?_, ?_, ?_⟩
  · rw [ExtractConnectedComponents_py_eq, h1]
    rfl
  · rw [hcc, hrr]
  · rw [ExtractConnectedComponents_py_eq, ExtractConnectedComponents_py_eq,
      collectClouds_append, h2]
    obtain ⟨r1, nb1, res1, g1⟩ := st1
    simp only at hr
    subst hr
    rw [cloudsLoop_shift]
    cases cloudsLoop E octreeLevel minComponentSize maxNumberComponents randomColors
        (collectClouds ys) ⟨0, 0, [], g1⟩ with
    | none => rfl
    | some p =>
      obtain ⟨ys1, s2⟩ := p
      simp [joinResults, shiftState, writeBack_append ys ys1 xs xs1 hlen]

theorem C9_aggregation_in_input_order_witness :
    noEarlyExit namedEngine 8 1 100 true
      (collectClouds [.cloud (.pointCloud sampleCloud), sampleMesh, .cloud (.pointCloud bigCloud)])
      ⟨0, 0, [], 0⟩ = true ∧
    ∃ a, ExtractConnectedComponents_py namedEngine
        [.cloud (.pointCloud sampleCloud), sampleMesh, .cloud (.pointCloud bigCloud)]
        8 1 100 true 0 = some a ∧
      concatComponents namedEngine 8 1 true
        (collectClouds
          [.cloud (.pointCloud sampleCloud), sampleMesh, .cloud (.pointCloud bigCloud)]) 0
        = some (a.resultComponents, a.gen) ∧
      ExtractConnectedComponents_py namedEngine
          ([.cloud (.pointCloud sampleCloud), sampleMesh, .cloud (.pointCloud bigCloud)] ++
            [.cloud (.pointCloud sampleCloud)]) 8 1 100 true 0 =
        (ExtractConnectedComponents_py namedEngine [.cloud (.pointCloud sampleCloud)]
          8 1 100 true a.gen).map (joinResults a) :=
  ⟨by decide, C9_aggregation_in_input_order namedEngine
    [.cloud (.pointCloud sampleCloud), sampleMesh, .cloud (.pointCloud bigCloud)]
    [.cloud (.pointCloud sampleCloud)] 8 1 100 true 0 (by decide)⟩

theorem modify_append_length {α : Type} (f : α → α) (x : α) (F : List α) :
    (F ++ [x]).modify f F.length = F ++ [f x] := by
  induction F with
  | nil => rfl
  | cons a rest ih => simp [List.modify_succ_cons, ih]

theorem set_append_length {α : Type} (x y : α) (F : List α) :
    (F ++ [x]).set F.length y = F ++ [y] := by
  induction F with
  | nil => rfl
  | cons a rest ih => simp [ih]

theorem getScalarFieldIndexByName_nonneg (pc : ccPointCloud) (name : String)
    (h : ¬ pc.getScalarFieldIndexByName name < 0) :
    ∃ sf ∈ pc.scalarFields, sf.name = name := by
  unfold ccPointCloud.getScalarFieldIndexByName at h
  by_cases hlt : pc.scalarFields.findIdx (fun sf => sf.name == name) < pc.scalarFields.length
  · refine ⟨pc.scalarFields[pc.scalarFields.findIdx (fun sf => sf.name == name)],
      List.getElem_mem _, ?_⟩
    have := List.findIdx_getElem (w := hlt)
    simpa using this
  · simp [hlt] at h

theorem add_write_delete (E : Engine) (pc : ccPointCloud) (labels : List Scalar)
    (hfound : pc.getScalarFieldIndexByName E.labelName < 0)
    (halloc : E.allocScalarField pc = true) :
    (pc.addScalarField E E.labelName).1 = (pc.scalarFields.length : Int) ∧
    ((((pc.addScalarField E E.labelName).2.setCurrentScalarField
        (pc.addScalarField E E.labelName).1).writeLabels labels).deleteScalarField
          (pc.addScalarField E E.labelName).1).scalarFields = pc.scalarFields := by
  have hadd : pc.addScalarField E E.labelName =
      ((pc.scalarFields.length : Int),
        { pc with scalarFields :=
            pc.scalarFields ++ [⟨E.labelName, List.replicate pc.size 0⟩] }) := by
    unfold ccPointCloud.addScalarField
    simp [not_le.mpr hfound, halloc]
  rw [hadd]
  refine ⟨rfl, ?_⟩
  have hnn : ¬ ((pc.scalarFields.length : Int) < 0) := by omega
  simp only [ccPointCloud.setCurrentScalarField, ccPointCloud.writeLabels, hnn, if_false,
    Int.toNat_ofNat, modify_append_length, ccPointCloud.deleteScalarField, List.length_append,
    List.length_singleton]
  have hge : ¬ ((pc.scalarFields.length : Int) ≥ ((pc.scalarFields.length + 1 : Nat) : Int)) := by
    push_cast
    omega
  simp only [hge, or_false, if_false, List.getLast?_append, List.getLast?_singleton,
    set_append_length, List.dropLast_concat]
  rfl


theorem labelingInput_labelField (E : Engine) (pc0 : ccPointCloud) :
    (∃ sf ∈ pc0.scalarFields, sf.name = E.labelName) ∨
    (match labelingInput E pc0 with
      | .inl pcb => pcb.scalarFields = pc0.scalarFields
      | .inr (pc2, _, sfIdx) =>
        ∀ labels, ((pc2.writeLabels labels).deleteScalarField sfIdx).scalarFields
          = pc0.scalarFields) := by
  unfold labelingInput
  cases hoct : (match pc0.octree with
      | some o => some o
      | none => E.computeOctree pc0) with
  | none => exact Or.inr rfl
  | some o =>
    simp only []
    by_cases hfound :
        ({ pc0 with octree := some o } : ccPointCloud).getScalarFieldIndexByName E.labelName < 0
    · right
      simp only [hfound, if_true]
      cases halloc : E.allocScalarField { pc0 with octree := some o } with
      | false =>
        have hadd : ({ pc0 with octree := some o } : ccPointCloud).addScalarField E E.labelName
            = (-1, { pc0 with octree := some o }) := by
          unfold ccPointCloud.addScalarField
          simp [not_le.mpr hfound, halloc]
        simp [hadd]
      | true =>
        have h := add_write_delete E { pc0 with octree := some o }
        have h1 := (h [] hfound halloc).1
        have hnn : ¬ (({ pc0 with octree := some o } : ccPointCloud).addScalarField E
            E.labelName).1 < 0 := by
          rw [h1]
          omega
        simp only [hnn, if_false]
        intro labels
        exact (h labels hfound halloc).2
    · left
      exact getScalarFieldIndexByName_nonneg _ _ hfound

theorem finishCloud_cloud (E : Engine) (m : Int) (rc : Bool) (pc : ccPointCloud)
    (sfIdx : Int) (C : List ReferenceCloud) (st : ExtractState)
    (t : Flow × ccGenericPointCloud × ExtractState)
    (h : finishCloud E m rc pc sfIdx C st = some t) :
    t.2.1 = .pointCloud (pc.deleteScalarField sfIdx) := by
  unfold finishCloud at h
  cases hC : C.isEmpty with
  | true =>
    simp only [hC, Bool.not_true, Bool.false_eq_true, if_false, Option.some.injEq] at h
    subst h
    rfl
  | false =>
    simp only [hC, Bool.not_false, if_true] at h
    cases hcr : createComponentsClouds_ E (some (.pointCloud (pc.deleteScalarField sfIdx))) C
        (toUnsigned m) rc true st.gen with
    | none => simp [hcr] at h
    | some r =>
      simp only [hcr, Option.some.injEq] at h
      subst h
      rfl

theorem labelAndExtract_cloud (E : Engine) (ol m mx : Int) (rc : Bool) (pc2 : ccPointCloud)
    (o : ccOctree) (sfIdx : Int) (st : ExtractState)
    (t : Flow × ccGenericPointCloud × ExtractState)
    (h : labelAndExtract E ol m mx rc pc2 o sfIdx st = some t) :
    t.2.1 = .pointCloud ((pc2.writeLabels
      (E.labelConnectedComponents pc2 (toUnsignedChar ol) o).2).deleteScalarField sfIdx) := by
  simp only [labelAndExtract, safetyTest, List.foldl_nil] at h
  split at h
  · split at h
    · simp only [Option.some.injEq] at h
      subst h
      rfl
    · exact finishCloud_cloud _ _ _ _ _ _ _ _ h
  · exact finishCloud_cloud _ _ _ _ _ _ _ _ h

theorem processCloud_labelField (E : Engine) (ol m mx : Int) (rc : Bool)
    (c : ccGenericPointCloud) (st : ExtractState)
    (t : Flow × ccGenericPointCloud × ExtractState)
    (h : processCloud E ol m mx rc c st = some t) :
    hasLabelField E (.cloud t.2.1) → hasLabelField E (.cloud c) := by
  cases c with
  | generic n =>
    simp only [processCloud, Option.some.injEq] at h
    subst h
    exact id
  | pointCloud pc0 =>
    rcases labelingInput_labelField E pc0 with hl | hr
    · intro _
      exact hl
    · simp only [processCloud] at h
      cases hli : labelingInput E pc0 with
      | inl pcb =>
        simp only [hli, Option.some.injEq] at h hr
        subst h
        simp only [hasLabelField, hr]
        exact id
      | inr u =>
        obtain ⟨pc2, o, sfIdx⟩ := u
        simp only [hli] at h hr
        rw [labelAndExtract_cloud _ _ _ _ _ _ _ _ _ _ h]
        simp only [hasLabelField, hr]
        exact id

theorem cloudsLoop_labelField (E : Engine) (ol m mx : Int) (rc : Bool) :
    ∀ (cs : List ccGenericPointCloud) (st : ExtractState)
      (p : List ccGenericPointCloud × ExtractState),
      cloudsLoop E ol m mx rc cs st = some p →
      List.Forall₂ (fun c c1 => hasLabelField E (.cloud c1) → hasLabelField E (.cloud c))
        cs p.1 := by
  intro cs
  induction cs with
  | nil =>
    intro st p h
    simp only [cloudsLoop, Option.some.injEq] at h
    subst h
    exact List.Forall₂.nil
  | cons c rest ih =>
    intro st p h
    rw [cloudsLoop] at h
    have hrefl : List.Forall₂
        (fun c c1 => hasLabelField E (.cloud c1) → hasLabelField E (.cloud c)) rest rest :=
      List.forall₂_same.mpr (fun _ _ => id)
    cases hp : processCloud E ol m mx rc c st with
    | none => simp [hp] at h
    | some t =>
      obtain ⟨fl, c1, s1⟩ := t
      have hc := processCloud_labelField _ _ _ _ _ _ _ _ hp
      cases fl with
      | brk =>
        simp only [hp, Option.some.injEq] at h
        subst h
        exact List.Forall₂.cons hc hrefl
      | ret =>
        simp only [hp, Option.some.injEq] at h
        subst h
        exact List.Forall₂.cons hc hrefl
      | next =>
        simp only [hp] at h
        cases hr : cloudsLoop E ol m mx rc rest s1 with
        | none => simp [hr] at h
        | some q =>
          obtain ⟨rest1, s2⟩ := q
          simp only [hr, Option.some.injEq] at h
          subst h
          exact List.Forall₂.cons hc (ih _ _ hr)

theorem writeBack_forall₂ (R : ccHObject → ccHObject → Prop) (hrefl : ∀ e, R e e) :
    ∀ (es : List ccHObject) (cs : List ccGenericPointCloud),
      List.Forall₂ (fun c c1 => R (.cloud c) (.cloud c1)) (collectClouds es) cs →
      List.Forall₂ R es (writeBack es cs) := by
  intro es
  induction es with
  | nil => intro cs _; exact List.Forall₂.nil
  | cons e rest ih =>
    intro cs h
    cases e with
    | other n => exact List.Forall₂.cons (hrefl _) (ih cs h)
    | cloud c =>
      cases cs with
      | nil => simp [collectClouds] at h
      | cons c1 cs1 =>
        simp only [collectClouds, List.forall₂_cons] at h
        exact List.Forall₂.cons h.1 (ih cs1 h.2)


theorem finishCloud_total (E : Engine) (m : Int) (rc : Bool) (pc : ccPointCloud)
    (sfIdx : Int) (C : List ReferenceCloud) (st : ExtractState)
    (hperm : E.SortPermutes) (hlen : C.length < 4294967296) :
    ∃ t, finishCloud E m rc pc sfIdx C st = some t := by
  unfold finishCloud
  cases C.isEmpty with
  | true => exact ⟨_, rfl⟩
  | false =>
    simp only [Bool.not_false, if_true]
    rw [createComponentsClouds__eq E _ C _ rc true st.gen hperm hlen]
    exact ⟨_, rfl⟩

theorem labelAndExtract_flow (E : Engine) (ol m mx : Int) (rc : Bool) (pc2 : ccPointCloud)
    (o : ccOctree) (sfIdx : Int) (st : ExtractState)
    (hperm : E.SortPermutes) (hbound : E.ExtractBounded) :
    ∃ t, labelAndExtract E ol m mx rc pc2 o sfIdx st = some t ∧
      (t.1 = .ret ∨ (t.1 = .next ∧ t.2.2.nbCloudDone = st.nbCloudDone + 1)) := by
  unfold labelAndExtract
  simp only [safetyTest, List.foldl_nil]
  split
  · split
    · exact ⟨_, rfl, Or.inl rfl⟩
    · obtain ⟨t, ht⟩ := finishCloud_total E m rc
        (pc2.writeLabels (E.labelConnectedComponents pc2 (toUnsignedChar ol) o).2) sfIdx
        (E.extractConnectedComponents
          (pc2.writeLabels (E.labelConnectedComponents pc2 (toUnsignedChar ol) o).2) []).2
        { st with realComponentCount := st.realComponentCount } hperm (hbound _ _)
      have hf := finishCloud_realComponentCount _ _ _ _ _ _ _ _ ht
      exact ⟨t, ht, Or.inr ⟨hf.1, hf.2.2⟩⟩
  · obtain ⟨t, ht⟩ := finishCloud_total E m rc
      (pc2.writeLabels (E.labelConnectedComponents pc2 (toUnsignedChar ol) o).2) sfIdx
      [] st hperm (by simp)
    have hf := finishCloud_realComponentCount _ _ _ _ _ _ _ _ ht
    exact ⟨t, ht, Or.inr ⟨hf.1, hf.2.2⟩⟩

theorem cloudsLoop_total (E : Engine) (ol m mx : Int) (rc : Bool)
    (hperm : E.SortPermutes) (hbound : E.ExtractBounded) :
    ∀ (cs : List ccGenericPointCloud) (st : ExtractState),
      ∃ p, cloudsLoop E ol m mx rc cs st = some p := by
  intro cs
  induction cs with
  | nil => intro st; exact ⟨_, rfl⟩
  | cons c rest ih =>
    intro st
    cases c with
    | generic n =>
      obtain ⟨p, hp⟩ := ih st
      exact ⟨(.generic n :: p.1, p.2), by simp [cloudsLoop, processCloud, hp]⟩
    | pointCloud pc0 =>
      simp only [cloudsLoop, processCloud]
      cases hli : labelingInput E pc0 with
      | inl pcb => exact ⟨_, rfl⟩
      | inr u =>
        obtain ⟨pc2, o, sfIdx⟩ := u
        simp only []
        obtain ⟨t, ht, _⟩ := labelAndExtract_flow E ol m mx rc pc2 o sfIdx st hperm hbound
        obtain ⟨fl, c1, s1⟩ := t
        rw [ht]
        cases fl with
        | brk => exact ⟨_, rfl⟩
        | ret => exact ⟨_, rfl⟩
        | next =>
          obtain ⟨p, hp⟩ := ih s1
          simp only [hp]
          exact ⟨_, rfl⟩

theorem cloudsLoop_count (E : Engine) (ol m mx : Int) (rc : Bool)
    (hperm : E.SortPermutes) (hbound : E.ExtractBounded) :
    ∀ (cs : List ccGenericPointCloud) (st : ExtractState),
      noReturn E ol m mx rc cs st = true →
      ∃ p, cloudsLoop E ol m mx rc cs st = some p ∧
        p.2.nbCloudDone = st.nbCloudDone + countedClouds E cs := by
  intro cs
  induction cs with
  | nil => intro st _; exact ⟨_, rfl, by simp [countedClouds]⟩
  | cons c rest ih =>
    intro st hnr
    cases c with
    | generic n =>
      have hnr1 : noReturn E ol m mx rc rest st = true := by
        simpa [noReturn, processCloud] using hnr
      obtain ⟨p, hp, hc⟩ := ih st hnr1
      refine ⟨(.generic n :: p.1, p.2), ?_, ?_⟩
      · simp [cloudsLoop, processCloud, hp]
      · simpa [countedClouds] using hc
    | pointCloud pc0 =>
      simp only [noReturn, processCloud] at hnr
      simp only [cloudsLoop, processCloud, countedClouds]
      cases hli : labelingInput E pc0 with
      | inl pcb => exact ⟨_, rfl, by simp⟩
      | inr u =>
        obtain ⟨pc2, o, sfIdx⟩ := u
        simp only [hli] at hnr
        simp only []
        obtain ⟨t, ht, hfl⟩ := labelAndExtract_flow E ol m mx rc pc2 o sfIdx st hperm hbound
        obtain ⟨fl, c1, s1⟩ := t
        rw [ht] at hnr
        rw [ht]
        rcases hfl with hret | ⟨hnext, hnb⟩
        · simp only at hret
          subst hret
          simp at hnr
        · simp only at hnext hnb
          subst hnext
          simp only at hnr
          obtain ⟨p, hp, hc⟩ := ih s1 hnr
          simp only [hp]
          refine ⟨_, rfl, ?_⟩
          simp only [hc, hnb]
          omega

theorem ExtractConnectedComponents_py_returns (E : Engine) (es : List ccHObject)
    (ol m mx : Int) (rc : Bool) (gen : Nat)
    (hperm : E.SortPermutes) (hbound : E.ExtractBounded) :
    ∃ p, cloudsLoop E ol m mx rc (collectClouds es) ⟨0, 0, [], gen⟩ = some p ∧
      ExtractConnectedComponents_py E es ol m mx rc gen
        = some ⟨p.2.nbCloudDone, p.2.resultComponents, writeBack es p.1, p.2.gen⟩ := by
  obtain ⟨p, hp⟩ := cloudsLoop_total E ol m mx rc hperm hbound (collectClouds es)
    ⟨0, 0, [], gen⟩
  refine ⟨p, hp, ?_⟩
  rw [ExtractConnectedComponents_py_eq, hp]
  rfl

theorem sampleEngine_extractBounded : sampleEngine.ExtractBounded :=
  fun _ _ => (by decide : (3 : Nat) < 4294967296)

theorem failedLabelEngine_extractBounded : failedLabelEngine.ExtractBounded :=
  fun _ _ => (by decide : (3 : Nat) < 4294967296)

theorem namedEngine_extractBounded : namedEngine.ExtractBounded := by
  intro pc C
  simp only [namedEngine]
  split <;> decide

/-- C6 (scratch cleanup): a call of `ExtractConnectedComponents_py` returns, and on every exit
path each entity that has a scalar field of the reserved label name after the call had one
before the call: no input cloud keeps a label field added by the call. -/
theorem C6_scratch_cleanup (E : Engine) (entities : List ccHObject)
    (octreeLevel minComponentSize maxNumberComponents : Int) (randomColors : Bool) (gen : Nat)
    (hperm : E.SortPermutes) (hbound : E.ExtractBounded) :
    ∃ r, ExtractConnectedComponents_py E entities octreeLevel minComponentSize
        maxNumberComponents randomColors gen = some r ∧
      List.Forall₂ (fun before after => hasLabelField E after → hasLabelField E before)
        entities r.entities := by
  obtain ⟨p, hp, hr⟩ := ExtractConnectedComponents_py_returns E entities octreeLevel
    minComponentSize maxNumberComponents randomColors gen hperm hbound
  refine ⟨_, hr, ?_⟩
  exact writeBack_forall₂ (fun before after => hasLabelField E after → hasLabelField E before)
    (fun _ => id) entities p.1 (cloudsLoop_labelField _ _ _ _ _ _ _ _ hp)

theorem C6_scratch_cleanup_witness :
    sampleEngine.SortPermutes ∧ sampleEngine.ExtractBounded ∧
    ∃ r, ExtractConnectedComponents_py sampleEngine
        [.cloud (.pointCloud sampleCloud), sampleMesh] 8 2 100 false 0 = some r ∧
      List.Forall₂
        (fun before after => hasLabelField sampleEngine after → hasLabelField sampleEngine before)
        [.cloud (.pointCloud sampleCloud), sampleMesh] r.entities :=
  ⟨sampleEngine_sortPermutes, sampleEngine_extractBounded,
    C6_scratch_cleanup sampleEngine [.cloud (.pointCloud sampleCloud), sampleMesh] 8 2 100 false 0
      sampleEngine_sortPermutes sampleEngine_extractBounded⟩

/-- C10, the claim refuted: on a single cloud whose labelling returns a negative status, no
cloud has its labelling run to completion, yet the integer returned is `1`. -/
theorem C10_counterexample :
    (failedLabelEngine.labelConnectedComponents sampleCloud 8 ⟨1⟩).1 < 0 ∧
    labelledClouds failedLabelEngine 8 (collectClouds [.cloud (.pointCloud sampleCloud)]) = 0 ∧
    (ExtractConnectedComponents_py failedLabelEngine [.cloud (.pointCloud sampleCloud)]
      8 100 100 false 0).map (fun r => r.nbCloudDone) = some 1 ∧
    (ExtractConnectedComponents_py failedLabelEngine [.cloud (.pointCloud sampleCloud)]
      8 100 100 false 0).map (fun r => r.nbCloudDone) ≠
      some (labelledClouds failedLabelEngine 8
        (collectClouds [.cloud (.pointCloud sampleCloud)])) := by
  decide

/-- C10 as amended: a call of `ExtractConnectedComponents_py` in which the `return` of the
safety test is not taken returns, and the integer it returns is the number of clouds whose
iteration reaches `nbCloudDone++`: the `ccPointCloud`s, taken in order until the first
`break`, for which the labelling is called, whatever the status the labelling returns. -/
theorem C10_processed_count (E : Engine) (entities : List ccHObject)
    (octreeLevel minComponentSize maxNumberComponents : Int) (randomColors : Bool) (gen : Nat)
    (hperm : E.SortPermutes) (hbound : E.ExtractBounded)
    (hnoret : noReturn E octreeLevel minComponentSize maxNumberComponents randomColors
      (collectClouds entities) ⟨0, 0, [], gen⟩ = true) :
    ∃ r, ExtractConnectedComponents_py E entities octreeLevel minComponentSize
        maxNumberComponents randomColors gen = some r ∧
      r.nbCloudDone = countedClouds E (collectClouds entities) := by
  obtain ⟨p, hp, hc⟩ := cloudsLoop_count E octreeLevel minComponentSize maxNumberComponents
    randomColors hperm hbound (collectClouds entities) ⟨0, 0, [], gen⟩ hnoret
  refine ⟨⟨p.2.nbCloudDone, p.2.resultComponents, writeBack entities p.1, p.2.gen⟩, ?_,
    by simpa using hc⟩
  rw [ExtractConnectedComponents_py_eq, hp]
  rfl

theorem C10_processed_count_witness :
    failedLabelEngine.SortPermutes ∧ failedLabelEngine.ExtractBounded ∧
    noReturn failedLabelEngine 8 100 100 false
      (collectClouds [.cloud (.pointCloud sampleCloud), .cloud (.pointCloud bigCloud)])
      ⟨0, 0, [], 0⟩ = true ∧
    ∃ r, ExtractConnectedComponents_py failedLabelEngine
        [.cloud (.pointCloud sampleCloud), .cloud (.pointCloud bigCloud)] 8 100 100 false 0
          = some r ∧
      r.nbCloudDone = countedClouds failedLabelEngine
        (collectClouds [.cloud (.pointCloud sampleCloud), .cloud (.pointCloud bigCloud)]) :=
  ⟨sampleEngine_sortPermutes, failedLabelEngine_extractBounded, by decide,
    C10_processed_count failedLabelEngine
      [.cloud (.pointCloud sampleCloud), .cloud (.pointCloud bigCloud)] 8 100 100 false 0
      sampleEngine_sortPermutes failedLabelEngine_extractBounded (by decide)⟩

/-- C5, the code at a failing input: three clouds, the second of which has three groups of at
least `minComponentSize = 1` points, with `maxNumberComponents = 2`.  The call does not stop
at the second cloud: it counts the three clouds and returns the five components of the three
clouds. -/
theorem C5_circuit_breaker_not_fired :
    ((namedEngine.extractConnectedComponents bigCloud []).2.filter
      (fun g => decide (g.size ≥ toUnsigned 1))).length = 3 ∧
    (ExtractConnectedComponents_py namedEngine
      [.cloud (.pointCloud sampleCloud), .cloud (.pointCloud bigCloud),
        .cloud (.pointCloud sampleCloud)] 8 1 2 false 0).map
      (fun r => (r.nbCloudDone, r.resultComponents.map (fun c => (c.name, c.points.length))))
      = some (3, [("CC#0", 2), ("CC#0", 3), ("CC#1", 2), ("CC#2", 1), ("CC#0", 2)]) := by
  decide

/-! ## Failures inside the loop over the clouds -/

theorem cloudsLoop_length (E : Engine) (ol m mx : Int) (rc : Bool) :
    ∀ (cs : List ccGenericPointCloud) (st : ExtractState)
      (p : List ccGenericPointCloud × ExtractState),
      cloudsLoop E ol m mx rc cs st = some p → p.1.length = cs.length := by
  intro cs
  induction cs with
  | nil =>
    intro st p h
    simp only [cloudsLoop, Option.some.injEq] at h
    subst h
    rfl
  | cons c rest ih =>
    intro st p h
    rw [cloudsLoop] at h
    cases hp : processCloud E ol m mx rc c st with
    | none => simp [hp] at h
    | some t =>
      obtain ⟨fl, c1, s1⟩ := t
      cases fl with
      | brk =>
        simp only [hp, Option.some.injEq] at h
        subst h
        rfl
      | ret =>
        simp only [hp, Option.some.injEq] at h
        subst h
        rfl
      | next =>
        simp only [hp] at h
        cases hr : cloudsLoop E ol m mx rc rest s1 with
        | none => simp [hr] at h
        | some q =>
          obtain ⟨rest1, s2⟩ := q
          simp only [hr, Option.some.injEq] at h
          subst h
          simp [ih _ _ hr]

theorem writeBack_collectClouds (es : List ccHObject) : writeBack es (collectClouds es) = es := by
  induction es with
  | nil => rfl
  | cons e rest ih =>
    cases e with
    | cloud c => simp [writeBack, collectClouds, ih]
    | other n => simp [writeBack, collectClouds, ih]

theorem cloudsLoop_break_same (E : Engine) (ol m mx : Int) (rc : Bool)
    (c : ccGenericPointCloud) (cy : List ccGenericPointCloud)
    (hc : ∀ st, processCloud E ol m mx rc c st = some (.brk, c, st)) :
    ∀ (cx : List ccGenericPointCloud) (st : ExtractState),
      cloudsLoop E ol m mx rc (cx ++ c :: cy) st =
        (cloudsLoop E ol m mx rc cx st).map (fun p => (p.1 ++ c :: cy, p.2)) := by
  intro cx
  induction cx with
  | nil =>
    intro st
    simp [cloudsLoop, hc]
  | cons a rest ih =>
    intro st
    rw [List.cons_append, cloudsLoop, cloudsLoop]
    cases hp : processCloud E ol m mx rc a st with
    | none => rfl
    | some t =>
      obtain ⟨fl, a1, s1⟩ := t
      cases fl with
      | brk => rfl
      | ret => rfl
      | next =>
        simp only [ih s1]
        cases cloudsLoop E ol m mx rc rest s1 with
        | none => rfl
        | some q => rfl

theorem labelingInput_octree_failure (E : Engine) (pc0 : ccPointCloud)
    (hcache : pc0.octree = none) (hfail : E.computeOctree pc0 = none) :
    labelingInput E pc0 = .inl pc0 := by
  unfold labelingInput
  simp [hcache, hfail]

theorem processCloud_of_inl (E : Engine) (ol m mx : Int) (rc : Bool) (pc0 pcb : ccPointCloud)
    (h : labelingInput E pc0 = .inl pcb) (st : ExtractState) :
    processCloud E ol m mx rc (.pointCloud pc0) st = some (.brk, .pointCloud pcb, st) := by
  simp [processCloud, h]

/-- C11, the claim refuted: in a batch of two clouds where the octree of the first cannot be
computed, the call returns `(0, [])` and leaves both clouds as they were, although the second
cloud, given alone, is counted and yields two components. -/
theorem C11_counterexample :
    badCloud.octree = none ∧ octreeFailEngine.computeOctree badCloud = none ∧
    ExtractConnectedComponents_py octreeFailEngine
        [.cloud (.pointCloud badCloud), .cloud (.pointCloud sampleCloud)] 8 2 100 false 0
      = some ⟨0, [], [.cloud (.pointCloud badCloud), .cloud (.pointCloud sampleCloud)], 0⟩ ∧
    (ExtractConnectedComponents_py octreeFailEngine [.cloud (.pointCloud sampleCloud)]
        8 2 100 false 0).map (fun r => (r.nbCloudDone, r.resultComponents.length))
      = some (1, 2) := by
  decide

/-- C11 as amended: if the octree of a cloud of the batch cannot be computed, that cloud yields
no component and the loop over the clouds is left: the call returns what it returns on the
entities placed before that cloud, and that cloud and every later entity are left as they
were. -/
theorem C11_octree_failure_breaks (E : Engine) (xs ys : List ccHObject) (pc0 : ccPointCloud)
    (octreeLevel minComponentSize maxNumberComponents : Int) (randomColors : Bool) (gen : Nat)
    (hcache : pc0.octree = none) (hfail : E.computeOctree pc0 = none) :
    ExtractConnectedComponents_py E (xs ++ .cloud (.pointCloud pc0) :: ys) octreeLevel
        minComponentSize maxNumberComponents randomColors gen =
      (ExtractConnectedComponents_py E xs octreeLevel minComponentSize maxNumberComponents
        randomColors gen).map
        (fun a => ⟨a.nbCloudDone, a.resultComponents,
          a.entities ++ .cloud (.pointCloud pc0) :: ys, a.gen⟩) := by
  have hc := processCloud_of_inl E octreeLevel minComponentSize maxNumberComponents randomColors
    pc0 pc0 (labelingInput_octree_failure E pc0 hcache hfail)
  rw [ExtractConnectedComponents_py_eq, ExtractConnectedComponents_py_eq, collectClouds_append]
  simp only [collectClouds]
  rw [cloudsLoop_break_same E _ _ _ _ _ _ hc]
  cases hl : cloudsLoop E octreeLevel minComponentSize maxNumberComponents randomColors
      (collectClouds xs) ⟨0, 0, [], gen⟩ with
  | none => rfl
  | some p =>
    have hlen := cloudsLoop_length _ _ _ _ _ _ _ _ hl
    simp only [Option.map_some', Option.some.injEq, ExtractResult.mk.injEq, true_and, and_true]
    have h1 := writeBack_append (.cloud (.pointCloud pc0) :: ys)
      (.pointCloud pc0 :: collectClouds ys) xs p.1 hlen
    rw [h1]
    simp [writeBack, writeBack_collectClouds]

theorem C11_octree_failure_breaks_witness :
    badCloud.octree = none ∧ octreeFailEngine.computeOctree badCloud = none ∧
    ExtractConnectedComponents_py octreeFailEngine
        ([.cloud (.pointCloud sampleCloud)] ++ .cloud (.pointCloud badCloud) ::
          [.cloud (.pointCloud sampleCloud)]) 8 2 100 false 0 =
      (ExtractConnectedComponents_py octreeFailEngine [.cloud (.pointCloud sampleCloud)]
        8 2 100 false 0).map
        (fun a => ⟨a.nbCloudDone, a.resultComponents,
          a.entities ++ .cloud (.pointCloud badCloud) :: [.cloud (.pointCloud sampleCloud)],
          a.gen⟩) :=
  ⟨rfl, rfl, C11_octree_failure_breaks octreeFailEngine [.cloud (.pointCloud sampleCloud)]
    [.cloud (.pointCloud sampleCloud)] badCloud 8 2 100 false 0 rfl rfl⟩


theorem labelingInput_alloc_failure (E : Engine) (pc0 : ccPointCloud) (o : ccOctree)
    (hoct : pc0.octree = some o ∨ (pc0.octree = none ∧ E.computeOctree pc0 = some o))
    (hfound : ({ pc0 with octree := some o } : ccPointCloud).getScalarFieldIndexByName
      E.labelName < 0)
    (hadd : (({ pc0 with octree := some o } : ccPointCloud).addScalarField E E.labelName).1 < 0) :
    labelingInput E pc0 = .inl { pc0 with octree := some o } := by
  have h2 : (({ pc0 with octree := some o } : ccPointCloud).addScalarField E E.labelName).2
      = { pc0 with octree := some o } := by
    unfold ccPointCloud.addScalarField
    split
    · rfl
    · split
      · rename_i h1 h2
        unfold ccPointCloud.addScalarField at hadd
        simp only [h1, h2, if_false, if_true] at hadd
        omega
      · rfl
  have ho : (match pc0.octree with
      | some o => some o
      | none => E.computeOctree pc0) = some o := by
    rcases hoct with h | ⟨h, h1⟩
    · simp [h]
    · simp [h, h1]
  unfold labelingInput
  simp only [ho, hfound, if_true, hadd, h2]

/-- C12, the claim refuted: in a batch of two clouds where the label field of the first cannot
be allocated, the call returns `(0, [])` and the second cloud is left as it was, although,
given alone, it is counted and yields two components. -/
theorem C12_counterexample :
    ((({ badCloud with octree := some ⟨1⟩ } : ccPointCloud).addScalarField allocFailEngine
      allocFailEngine.labelName).1 < 0) ∧
    ExtractConnectedComponents_py allocFailEngine
        [.cloud (.pointCloud badCloud), .cloud (.pointCloud sampleCloud)] 8 2 100 false 0
      = some ⟨0, [], [.cloud (.pointCloud { badCloud with octree := some ⟨1⟩ }),
          .cloud (.pointCloud sampleCloud)], 0⟩ ∧
    (ExtractConnectedComponents_py allocFailEngine [.cloud (.pointCloud sampleCloud)]
        8 2 100 false 0).map (fun r => (r.nbCloudDone, r.resultComponents.length))
      = some (1, 2) := by
  decide

/-- C12 as amended: if, for a cloud reached by the loop, the label scalar field is missing and
`addScalarField` returns a negative index, that cloud yields no component and the loop over
the clouds is left: the call returns the count and the components of the entities placed
before that cloud; that cloud keeps its octree and gets no field, and no later entity is
processed. -/
theorem C12_label_field_failure_breaks (E : Engine) (xs ys : List ccHObject)
    (pc0 : ccPointCloud) (o : ccOctree)
    (octreeLevel minComponentSize maxNumberComponents : Int) (randomColors : Bool) (gen : Nat)
    (hrun : noEarlyExit E octreeLevel minComponentSize maxNumberComponents randomColors
      (collectClouds xs) ⟨0, 0, [], gen⟩ = true)
    (hoct : pc0.octree = some o ∨ (pc0.octree = none ∧ E.computeOctree pc0 = some o))
    (hfound : ({ pc0 with octree := some o } : ccPointCloud).getScalarFieldIndexByName
      E.labelName < 0)
    (hadd : (({ pc0 with octree := some o } : ccPointCloud).addScalarField E E.labelName).1 < 0) :
    ∃ a, ExtractConnectedComponents_py E xs octreeLevel minComponentSize maxNumberComponents
        randomColors gen = some a ∧
      ExtractConnectedComponents_py E (xs ++ .cloud (.pointCloud pc0) :: ys) octreeLevel
          minComponentSize maxNumberComponents randomColors gen =
        some ⟨a.nbCloudDone, a.resultComponents,
          a.entities ++ .cloud (.pointCloud { pc0 with octree := some o }) :: ys, a.gen⟩ := by
  have hc := processCloud_of_inl E octreeLevel minComponentSize maxNumberComponents randomColors
    pc0 _ (labelingInput_alloc_failure E pc0 o hoct hfound hadd)
  obtain ⟨xs1, st1, h1, hlen, _, h2⟩ :=
    cloudsLoop_append E octreeLevel minComponentSize maxNumberComponents randomColors
      (.pointCloud pc0 :: collectClouds ys) (collectClouds xs) ⟨0, 0, [], gen⟩ hrun
  refine ⟨⟨st1.nbCloudDone, st1.resultComponents, writeBack xs xs1, st1.gen⟩, ?_, ?_⟩
  · rw [ExtractConnectedComponents_py_eq, h1]
    rfl
  · rw [ExtractConnectedComponents_py_eq, collectClouds_append]
    simp only [collectClouds]
    rw [h2]
    simp only [cloudsLoop, hc, Option.map_some', Option.some.injEq, ExtractResult.mk.injEq,
      true_and, and_true]
    rw [writeBack_append _ _ xs xs1 hlen]
    simp [writeBack, writeBack_collectClouds]

theorem C12_label_field_failure_breaks_witness :
    noEarlyExit allocFailEngine 8 2 100 false
      (collectClouds [.cloud (.pointCloud sampleCloud)]) ⟨0, 0, [], 0⟩ = true ∧
    (badCloud.octree = some ⟨1⟩ ∨
      (badCloud.octree = none ∧ allocFailEngine.computeOctree badCloud = some ⟨1⟩)) ∧
    ∃ a, ExtractConnectedComponents_py allocFailEngine [.cloud (.pointCloud sampleCloud)]
        8 2 100 false 0 = some a ∧
      ExtractConnectedComponents_py allocFailEngine
          ([.cloud (.pointCloud sampleCloud)] ++ .cloud (.pointCloud badCloud) ::
            [.cloud (.pointCloud sampleCloud)]) 8 2 100 false 0 =
        some ⟨a.nbCloudDone, a.resultComponents,
          a.entities ++ .cloud (.pointCloud { badCloud with octree := some ⟨1⟩ }) ::
            [.cloud (.pointCloud sampleCloud)], a.gen⟩ :=
  ⟨by decide, Or.inr ⟨rfl, rfl⟩,
    C12_label_field_failure_breaks allocFailEngine [.cloud (.pointCloud sampleCloud)]
      [.cloud (.pointCloud sampleCloud)] badCloud ⟨1⟩ 8 2 100 false 0 (by decide)
      (Or.inr ⟨rfl, rfl⟩) (by decide) (by decide)⟩

theorem getScalarFieldIndexByName_neg (pc : ccPointCloud) (name : String)
    (h : pc.getScalarFieldIndexByName name < 0) :
    ∀ sf ∈ pc.scalarFields, sf.name ≠ name := by
  unfold ccPointCloud.getScalarFieldIndexByName at h
  by_cases hlt : pc.scalarFields.findIdx (fun sf => sf.name == name) < pc.scalarFields.length
  · simp only [hlt, if_true] at h
    omega
  · intro sf hsf heq
    apply hlt
    exact List.findIdx_lt_length_of_exists ⟨sf, hsf, by simp [heq]⟩

theorem getScalarFieldIndexByName_found (pc : ccPointCloud) (name : String)
    (h : ¬ pc.getScalarFieldIndexByName name < 0) :
    0 ≤ pc.getScalarFieldIndexByName name ∧
    (pc.getScalarFieldIndexByName name).toNat < pc.scalarFields.length ∧
    ∃ sf, pc.scalarFields[(pc.getScalarFieldIndexByName name).toNat]? = some sf ∧
      sf.name = name := by
  unfold ccPointCloud.getScalarFieldIndexByName at h ⊢
  by_cases hlt : pc.scalarFields.findIdx (fun sf => sf.name == name) < pc.scalarFields.length
  · simp only [hlt, if_true, Int.toNat_ofNat]
    refine ⟨by omega, trivial, _, List.getElem?_eq_getElem hlt, ?_⟩
    have := List.findIdx_getElem (w := hlt)
    simpa using this
  · simp [hlt] at h

theorem labelingInput_inr (E : Engine) (pc0 pc2 : ccPointCloud) (o : ccOctree) (sfIdx : Int)
    (hli : labelingInput E pc0 = .inr (pc2, o, sfIdx)) :
    0 ≤ sfIdx ∧ sfIdx.toNat < pc2.scalarFields.length ∧
    (∃ sf, pc2.scalarFields[sfIdx.toNat]? = some sf ∧ sf.name = E.labelName) ∧
    pc2.currentInScalarFieldIndex = sfIdx ∧ pc2.currentOutScalarFieldIndex = sfIdx ∧
    ((∃ sf ∈ pc0.scalarFields, sf.name = E.labelName) → pc2.scalarFields = pc0.scalarFields) ∧
    ((∀ sf ∈ pc0.scalarFields, sf.name ≠ E.labelName) →
      ∃ v, pc2.scalarFields = pc0.scalarFields ++ [⟨E.labelName, v⟩]) := by
  unfold labelingInput at hli
  cases hoct : (match pc0.octree with
      | some o => some o
      | none => E.computeOctree pc0) with
  | none => simp [hoct] at hli
  | some o1 =>
    simp only [hoct] at hli
    by_cases hfound :
        ({ pc0 with octree := some o1 } : ccPointCloud).getScalarFieldIndexByName E.labelName < 0
    · have hno := getScalarFieldIndexByName_neg _ _ hfound
      simp only [hfound, if_true] at hli
      cases halloc : E.allocScalarField { pc0 with octree := some o1 } with
      | false =>
        have hadd : ({ pc0 with octree := some o1 } : ccPointCloud).addScalarField E E.labelName
            = (-1, { pc0 with octree := some o1 }) := by
          unfold ccPointCloud.addScalarField
          simp [not_le.mpr hfound, halloc]
        simp [hadd] at hli
      | true =>
        have hadd : ({ pc0 with octree := some o1 } : ccPointCloud).addScalarField E E.labelName =
            ((pc0.scalarFields.length : Int),
              { pc0 with octree := some o1, scalarFields :=
                  pc0.scalarFields ++ [⟨E.labelName, List.replicate pc0.size 0⟩] }) := by
          unfold ccPointCloud.addScalarField
          simp [not_le.mpr hfound, halloc, ccPointCloud.size]
        rw [hadd] at hli
        have hnn : ¬ ((pc0.scalarFields.length : Int) < 0) := by omega
        simp only [hnn, if_false, Sum.inr.injEq, Prod.mk.injEq] at hli
        obtain ⟨h2, _, h3⟩ := hli
        subst h2 h3
        refine ⟨by omega, by simp [ccPointCloud.setCurrentScalarField], ?_, rfl, rfl, ?_, ?_⟩
        · exact ⟨⟨E.labelName, List.replicate pc0.size 0⟩,
            by simp [ccPointCloud.setCurrentScalarField], rfl⟩
        · intro ⟨sf, hsf, hn⟩
          exact absurd hn (hno sf hsf)
        · intro _
          exact ⟨_, rfl⟩
    · obtain ⟨h0, hlt, hsf⟩ := getScalarFieldIndexByName_found _ _ hfound
      simp only [hfound, if_false, Sum.inr.injEq, Prod.mk.injEq] at hli
      obtain ⟨h2, _, h3⟩ := hli
      subst h2 h3
      refine ⟨h0, hlt, hsf, rfl, rfl, fun _ => rfl, ?_⟩
      intro hall
      obtain ⟨sf, hsf1, hsf2⟩ := hsf
      exact absurd hsf2 (hall sf (List.getElem?_mem hsf1))


theorem writeLabels_length (pc : ccPointCloud) (labels : List Scalar) :
    (pc.writeLabels labels).scalarFields.length = pc.scalarFields.length := by
  unfold ccPointCloud.writeLabels
  split
  · rfl
  · simp

theorem deleteScalarField_length (pc : ccPointCloud) (index : Int)
    (h0 : 0 ≤ index) (hlt : index.toNat < pc.scalarFields.length) :
    (pc.deleteScalarField index).scalarFields.length + 1 = pc.scalarFields.length := by
  unfold ccPointCloud.deleteScalarField
  have hcond : ¬ (index < 0 ∨ index ≥ (pc.scalarFields.length : Int)) := by omega
  simp only [hcond, if_false]
  cases hl : pc.scalarFields.getLast? with
  | none =>
    rw [List.getLast?_eq_none_iff] at hl
    rw [hl] at hlt
    simp at hlt
  | some last =>
    simp only [List.length_dropLast, List.length_set]
    omega

theorem processCloud_label_failure (E : Engine) (ol m mx : Int) (rc : Bool)
    (pc0 pc2 : ccPointCloud) (o : ccOctree) (sfIdx : Int)
    (hli : labelingInput E pc0 = .inr (pc2, o, sfIdx))
    (hneg : (E.labelConnectedComponents pc2 (toUnsignedChar ol) o).1 < 0)
    (st : ExtractState) :
    processCloud E ol m mx rc (.pointCloud pc0) st =
      some (.next,
        .pointCloud ((pc2.writeLabels
          (E.labelConnectedComponents pc2 (toUnsignedChar ol) o).2).deleteScalarField sfIdx),
        { st with nbCloudDone := st.nbCloudDone + 1 }) := by
  simp only [processCloud, hli, labelAndExtract, not_le.mpr hneg, if_false, finishCloud,
    List.isEmpty_nil, Bool.not_true, Bool.false_eq_true]

theorem cloudsLoop_insert (E : Engine) (ol m mx : Int) (rc : Bool)
    (c c1 : ccGenericPointCloud) (cy : List ccGenericPointCloud)
    (hc : ∀ st, processCloud E ol m mx rc c st =
      some (.next, c1, { st with nbCloudDone := st.nbCloudDone + 1 })) :
    ∀ (cx : List ccGenericPointCloud) (st : ExtractState),
      (cloudsLoop E ol m mx rc (cx ++ c :: cy) st).map
          (fun p => (p.1.eraseIdx cx.length, p.2.resultComponents, p.2.gen)) =
        (cloudsLoop E ol m mx rc (cx ++ cy) st).map
          (fun p => (p.1, p.2.resultComponents, p.2.gen)) := by
  intro cx
  induction cx with
  | nil =>
    intro st
    obtain ⟨r, nb, res, g⟩ := st
    simp only [List.nil_append, cloudsLoop, hc, List.length_nil]
    rw [cloudsLoop_shift E ol m mx rc cy r (nb + 1) res g, cloudsLoop_shift E ol m mx rc cy r nb res g]
    cases cloudsLoop E ol m mx rc cy ⟨r, 0, [], g⟩ with
    | none => rfl
    | some q => simp [shiftState]
  | cons a rest ih =>
    intro st
    rw [List.cons_append, List.cons_append, cloudsLoop, cloudsLoop]
    cases hp : processCloud E ol m mx rc a st with
    | none => rfl
    | some t =>
      obtain ⟨fl, a1, s1⟩ := t
      cases fl with
      | brk => simp [List.eraseIdx_append_of_length_le]
      | ret => simp [List.eraseIdx_append_of_length_le]
      | next =>
        have h := ih s1
        simp only
        cases h1 : cloudsLoop E ol m mx rc (rest ++ c :: cy) s1 with
        | none =>
          rw [h1] at h
          cases h2 : cloudsLoop E ol m mx rc (rest ++ cy) s1 with
          | none => rfl
          | some q => rw [h2] at h; simp at h
        | some q1 =>
          rw [h1] at h
          cases h2 : cloudsLoop E ol m mx rc (rest ++ cy) s1 with
          | none => rw [h2] at h; simp at h
          | some q =>
            rw [h2] at h
            simp only [Option.map_some', Option.some.injEq, Prod.mk.injEq] at h
            simp [h.1, h.2.1, h.2.2]

theorem writeBack_eraseIdx (c : ccGenericPointCloud) (ys : List ccHObject) :
    ∀ (xs : List ccHObject) (l : List ccGenericPointCloud),
      l.length = (collectClouds (xs ++ .cloud c :: ys)).length →
      (writeBack (xs ++ .cloud c :: ys) l).eraseIdx xs.length =
        writeBack (xs ++ ys) (l.eraseIdx (collectClouds xs).length) := by
  intro xs
  induction xs with
  | nil =>
    intro l h
    cases l with
    | nil => simp [collectClouds] at h
    | cons c2 l1 => simp [writeBack, collectClouds]
  | cons e rest ih =>
    intro l h
    cases e with
    | other n =>
      simp only [collectClouds, List.cons_append] at h ⊢
      simp [writeBack, ih l h]
    | cloud a =>
      cases l with
      | nil => simp [collectClouds] at h
      | cons a1 l1 =>
        simp only [collectClouds, List.cons_append, List.length_cons, Nat.add_right_cancel_iff] at h
        simp [writeBack, collectClouds, ih l1 h]


/-- C13 (labelling failure is recoverable for that cloud only): when, for a cloud that reaches
the labelling step, `labelConnectedComponents` returns a negative status, the iteration ends
normally without adding a component, the label field (the field of index `sfIdx`, which bears
the reserved name) is deleted, and the components returned for the batch, the random
generator and the state of every other entity after the call are those of the batch without
that cloud. -/
theorem C13_labeling_failure_recoverable (E : Engine) (xs ys : List ccHObject)
    (pc0 pc2 : ccPointCloud) (o : ccOctree) (sfIdx : Int)
    (octreeLevel minComponentSize maxNumberComponents : Int) (randomColors : Bool) (gen : Nat)
    (hli : labelingInput E pc0 = .inr (pc2, o, sfIdx))
    (hneg : (E.labelConnectedComponents pc2 (toUnsignedChar octreeLevel) o).1 < 0) :
    (∀ st, processCloud E octreeLevel minComponentSize maxNumberComponents randomColors
        (.pointCloud pc0) st =
      some (.next,
        .pointCloud ((pc2.writeLabels
          (E.labelConnectedComponents pc2 (toUnsignedChar octreeLevel) o).2).deleteScalarField
            sfIdx),
        { st with nbCloudDone := st.nbCloudDone + 1 })) ∧
    (∃ sf, pc2.scalarFields[sfIdx.toNat]? = some sf ∧ sf.name = E.labelName) ∧
    ((pc2.writeLabels
        (E.labelConnectedComponents pc2 (toUnsignedChar octreeLevel) o).2).deleteScalarField
          sfIdx).scalarFields.length + 1 = pc2.scalarFields.length ∧
    (ExtractConnectedComponents_py E (xs ++ .cloud (.pointCloud pc0) :: ys) octreeLevel
        minComponentSize maxNumberComponents randomColors gen).map
        (fun r => (r.resultComponents, r.entities.eraseIdx xs.length, r.gen)) =
      (ExtractConnectedComponents_py E (xs ++ ys) octreeLevel minComponentSize
        maxNumberComponents randomColors gen).map
        (fun r => (r.resultComponents, r.entities, r.gen)) := by
  have hstep := processCloud_label_failure E octreeLevel minComponentSize maxNumberComponents
    randomColors pc0 pc2 o sfIdx hli hneg
  obtain ⟨h0, hlt, hsf, _⟩ := labelingInput_inr E pc0 pc2 o sfIdx hli
  refine ⟨hstep, hsf, ?_, ?_⟩
  · have h := deleteScalarField_length
      (pc2.writeLabels (E.labelConnectedComponents pc2 (toUnsignedChar octreeLevel) o).2)
      sfIdx h0 (by rw [writeLabels_length]; exact hlt)
    rw [writeLabels_length] at h
    exact h
  · have hins := cloudsLoop_insert E octreeLevel minComponentSize maxNumberComponents
      randomColors (.pointCloud pc0) _ (collectClouds ys) hstep (collectClouds xs)
      ⟨0, 0, [], gen⟩
    rw [ExtractConnectedComponents_py_eq, ExtractConnectedComponents_py_eq,
      collectClouds_append, collectClouds_append]
    simp only [collectClouds]
    cases h1 : cloudsLoop E octreeLevel minComponentSize maxNumberComponents randomColors
        (collectClouds xs ++ .pointCloud pc0 :: collectClouds ys) ⟨0, 0, [], gen⟩ with
    | none =>
      rw [h1] at hins
      cases h2 : cloudsLoop E octreeLevel minComponentSize maxNumberComponents randomColors
          (collectClouds xs ++ collectClouds ys) ⟨0, 0, [], gen⟩ with
      | none => rfl
      | some q => rw [h2] at hins; simp at hins
    | some q1 =>
      rw [h1] at hins
      cases h2 : cloudsLoop E octreeLevel minComponentSize maxNumberComponents randomColors
          (collectClouds xs ++ collectClouds ys) ⟨0, 0, [], gen⟩ with
      | none => rw [h2] at hins; simp at hins
      | some q =>
        rw [h2] at hins
        simp only [Option.map_some', Option.some.injEq, Prod.mk.injEq] at hins
        have hlen := cloudsLoop_length _ _ _ _ _ _ _ _ h1
        have hw := writeBack_eraseIdx (.pointCloud pc0) ys xs q1.1
          (by rw [hlen, collectClouds_append]; simp [collectClouds])
        simp only [Option.map_some', Option.some.injEq, Prod.mk.injEq]
        rw [hw, hins.1]
        exact ⟨hins.2.1, rfl, hins.2.2⟩

theorem C13_labeling_failure_recoverable_witness :
    labelingInput labelFailEngine badCloud = .inr (badCloudAtLabelling, ⟨1⟩, 1) ∧
    (labelFailEngine.labelConnectedComponents badCloudAtLabelling (toUnsignedChar 8) ⟨1⟩).1 < 0 ∧
    (ExtractConnectedComponents_py labelFailEngine
        ([.cloud (.pointCloud sampleCloud)] ++ .cloud (.pointCloud badCloud) ::
          [.cloud (.pointCloud sampleCloud)]) 8 2 100 true 0).map
        (fun r => (r.resultComponents,
          r.entities.eraseIdx [ccHObject.cloud (.pointCloud sampleCloud)].length, r.gen)) =
      (ExtractConnectedComponents_py labelFailEngine
        ([.cloud (.pointCloud sampleCloud)] ++ [.cloud (.pointCloud sampleCloud)])
        8 2 100 true 0).map
        (fun r => (r.resultComponents, r.entities, r.gen)) :=
  ⟨by decide, by decide,
    (C13_labeling_failure_recoverable labelFailEngine [.cloud (.pointCloud sampleCloud)]
      [.cloud (.pointCloud sampleCloud)] badCloud badCloudAtLabelling ⟨1⟩ 1 8 2 100 true 0
      (by decide) (by decide)).2.2.2⟩

/-! ## Failures and ranking inside `createComponentsClouds_` -/

theorem sortBlock_unsorted (E : Engine) (C : List ReferenceCloud) (sb : Bool)
    (h : sb = false ∨ E.reserve C.length = false) : sortBlock E C sb = some none := by
  unfold sortBlock
  rcases h with h | h
  · simp [h]
  · simp [h]

theorem processingOrder_unsorted (E : Engine) (C : List ReferenceCloud) (sb : Bool)
    (h : sb = false ∨ E.reserve C.length = false) : processingOrder E C sb = C := by
  unfold processingOrder
  rw [sortBlock_unsorted E C sb h]
  have e : compIndexesAt C none = (fun i => C[i]?) := by
    funext i
    rfl
  simp only [e]
  exact range_filterMap_self C

theorem createComponentsClouds__unsorted (E : Engine) (c : ccGenericPointCloud)
    (C : List ReferenceCloud) (m : Nat) (rc sb : Bool) (gen : Nat)
    (h : sb = false ∨ E.reserve C.length = false) :
    createComponentsClouds_ E (some c) C m rc sb gen =
      some ⟨decorateAll E (asPointCloud c) rc gen 0
              ((C.filter (qualifies m)).filterMap (cloneOf E (asPointCloud c))),
            [],
            if rc then gen + ((C.filter (qualifies m)).filterMap
                (cloneOf E (asPointCloud c))).length
            else gen⟩ := by
  cases C with
  | nil => simp [createComponentsClouds_, decorateAll]
  | cons g rest =>
    have hpc : (match c with
        | .pointCloud p => some p
        | .generic _ => none) = asPointCloud c := by
      cases c <;> rfl
    have hsome : ∀ i ∈ List.range (g :: rest).length,
        (compIndexesAt (g :: rest) none i).isSome := by
      intro i hi
      have hlt : i < (g :: rest).length := List.mem_range.mp hi
      simp [compIndexesAt, List.getElem?_eq_getElem hlt]
    have e : compIndexesAt (g :: rest) none = (fun i => (g :: rest)[i]?) := by
      funext i
      rfl
    unfold createComponentsClouds_
    simp only [List.isEmpty_cons, Bool.false_eq_true, if_false, sortBlock_unsorted E _ sb h, hpc]
    rw [componentsLoop_eq _ _ _ _ _ _ _ _ hsome, e, range_filterMap_self]
    simp only [foldl_loopBody, List.nil_append, Nat.zero_add]

theorem loopBody_of_constructionFails (E : Engine) (pc : Option ccPointCloud) (m : Nat)
    (rc : Bool) (st : LoopState) (g : ReferenceCloud)
    (h : constructionFails E pc m g = true) : loopBody E pc m rc st g = st := by
  simp only [constructionFails, qualifies, Bool.and_eq_true, decide_eq_true_eq,
    Option.isNone_iff_eq_none] at h
  unfold loopBody
  have hc := h.2
  unfold cloneOf at hc
  simp only [h.1, if_true, hc]

theorem filterMap_without_failures (E : Engine) (pc : Option ccPointCloud) (m : Nat) :
    ∀ gs : List ReferenceCloud,
      ((gs.filter (fun g => !constructionFails E pc m g)).filter (qualifies m)).filterMap
          (cloneOf E pc) =
        (gs.filter (qualifies m)).filterMap (cloneOf E pc) := by
  intro gs
  induction gs with
  | nil => rfl
  | cons g rest ih =>
    by_cases hq : qualifies m g = true
    · cases hc : cloneOf E pc g with
      | none =>
        have hf : constructionFails E pc m g = true := by simp [constructionFails, hq, hc]
        simp only [List.filter_cons, hf, hq, Bool.not_true, Bool.false_eq_true, if_false,
          if_true, List.filterMap_cons, hc, ih]
      | some raw =>
        have hf : constructionFails E pc m g = false := by simp [constructionFails, hc]
        simp only [List.filter_cons, hf, hq, Bool.not_false, if_true, List.filterMap_cons, hc,
          ih]
    · simp only [Bool.not_eq_true] at hq
      have hf : constructionFails E pc m g = false := by simp [constructionFails, hq]
      simp only [List.filter_cons, hf, hq, Bool.not_false, if_true, Bool.false_eq_true,
        if_false, ih]

set_option maxRecDepth 100000 in
/-- C14, the claim refuted: with `std::sort` as `ParallelSort`, seventeen groups of two points
of which the first cannot be built are returned as the clouds of the groups 8, 16, 15, ..., 9,
7, 6, ..., 1, in that order, while the container without the failing group (sixteen groups,
which `std::sort` leaves in place) gives the clouds of the groups 1, 2, ..., 16: the two
outputs differ. -/
theorem C14_counterexample :
    seventeenGroups.filter
        (fun g => !constructionFails stdSortCloneFailEngine (some longCloud) 1 g)
      = pairGroups [1, 2, 3, 4, 5, 6, 7, 8, 9, 10, 11, 12, 13, 14, 15, 16] ∧
    (createComponentsClouds_ stdSortCloneFailEngine (some (.pointCloud longCloud))
        seventeenGroups 1 false true 0).map (fun r => r.resultClouds)
      = some (decorateAll stdSortCloneFailEngine (some longCloud) false 0 0
          ((pairGroups [8, 16, 15, 14, 13, 12, 11, 10, 9, 7, 6, 5, 4, 3, 2, 1]).map
            (pickPoints longCloud))) ∧
    (createComponentsClouds_ stdSortCloneFailEngine (some (.pointCloud longCloud))
        (seventeenGroups.filter
          (fun g => !constructionFails stdSortCloneFailEngine (some longCloud) 1 g))
        1 false true 0).map (fun r => r.resultClouds)
      = some (decorateAll stdSortCloneFailEngine (some longCloud) false 0 0
          ((pairGroups [1, 2, 3, 4, 5, 6, 7, 8, 9, 10, 11, 12, 13, 14, 15, 16]).map
            (pickPoints longCloud))) ∧
    (createComponentsClouds_ stdSortCloneFailEngine (some (.pointCloud longCloud))
        seventeenGroups 1 false true 0).map (fun r => r.resultClouds) ≠
      (createComponentsClouds_ stdSortCloneFailEngine (some (.pointCloud longCloud))
        (seventeenGroups.filter
          (fun g => !constructionFails stdSortCloneFailEngine (some longCloud) 1 g))
        1 false true 0).map (fun r => r.resultClouds) := by
  refine ⟨by decide, by decide, by decide, by decide⟩

/-- C14 as amended: a qualifying group whose cloud cannot be built leaves the state of the
loop unchanged (no output, `nbComp` not incremented) and the remaining groups are still
processed: the call returns, and its output is the one the loop produces over the same
processing order with the failing groups removed; when sorting is not requested, it is the
output for the container with the failing groups removed. -/
theorem C14_construction_failure_skipped (E : Engine) (cloud : ccGenericPointCloud)
    (components : List ReferenceCloud) (minPointsPerComponent : Nat)
    (randomColors sortBysize : Bool) (gen : Nat)
    (hperm : E.SortPermutes) (hlen : components.length < 4294967296) :
    (∀ st g, constructionFails E (asPointCloud cloud) minPointsPerComponent g = true →
      loopBody E (asPointCloud cloud) minPointsPerComponent randomColors st g = st) ∧
    (∃ r, createComponentsClouds_ E (some cloud) components minPointsPerComponent randomColors
        sortBysize gen = some r ∧
      r.resultClouds =
        (((processingOrder E components sortBysize).filter
          (fun g => !constructionFails E (asPointCloud cloud) minPointsPerComponent g)).foldl
          (loopBody E (asPointCloud cloud) minPointsPerComponent randomColors)
          ⟨[], 0, gen⟩).resultClouds ∧
      r.gen =
        (((processingOrder E components sortBysize).filter
          (fun g => !constructionFails E (asPointCloud cloud) minPointsPerComponent g)).foldl
          (loopBody E (asPointCloud cloud) minPointsPerComponent randomColors)
          ⟨[], 0, gen⟩).gen) ∧
    (createComponentsClouds_ E (some cloud)
        (components.filter
          (fun g => !constructionFails E (asPointCloud cloud) minPointsPerComponent g))
        minPointsPerComponent randomColors false gen).map (fun r => (r.resultClouds, r.gen)) =
      (createComponentsClouds_ E (some cloud) components minPointsPerComponent randomColors
        false gen).map (fun r => (r.resultClouds, r.gen)) := by
  refine ⟨fun st g h => loopBody_of_constructionFails _ _ _ _ _ _ h, ?_, ?_⟩
  · refine ⟨_, createComponentsClouds__eq E cloud components minPointsPerComponent randomColors
      sortBysize gen hperm hlen, ?_, ?_⟩
    · simp only [foldl_loopBody, filterMap_without_failures, List.nil_append]
    · simp only [foldl_loopBody, filterMap_without_failures, Nat.zero_add]
  · rw [createComponentsClouds__unsorted E cloud _ _ _ false gen (Or.inl rfl),
      createComponentsClouds__unsorted E cloud _ _ _ false gen (Or.inl rfl)]
    simp only [filterMap_without_failures]

theorem C14_construction_failure_skipped_witness :
    cloneFailEngine.SortPermutes ∧ tiedGroups.length < 4294967296 ∧
    (createComponentsClouds_ cloneFailEngine (some (.pointCloud sampleCloud))
        (tiedGroups.filter
          (fun g => !constructionFails cloneFailEngine
            (asPointCloud (.pointCloud sampleCloud)) 1 g))
        1 true false 0).map (fun r => (r.resultClouds, r.gen)) =
      (createComponentsClouds_ cloneFailEngine (some (.pointCloud sampleCloud)) tiedGroups 1 true
        false 0).map (fun r => (r.resultClouds, r.gen)) :=
  ⟨sampleEngine_sortPermutes, by decide,
    (C14_construction_failure_skipped cloneFailEngine (.pointCloud sampleCloud) tiedGroups 1 true
      true 0 sampleEngine_sortPermutes (by decide)).2.2⟩

theorem stableOrder_perm (C : List ReferenceCloud) : (stableOrder C).Perm C :=
  List.perm_insertionSort _ C

theorem stableOrder_sorted (C : List ReferenceCloud) :
    (stableOrder C).Pairwise (fun a b => a.size ≥ b.size) := by
  haveI : IsTotal ReferenceCloud (fun a b => b.size ≤ a.size) :=
    ⟨fun a b => Nat.le_total b.size a.size⟩
  haveI : IsTrans ReferenceCloud (fun a b => b.size ≤ a.size) :=
    ⟨fun _ _ _ hab hbc => Nat.le_trans hbc hab⟩
  exact List.sorted_insertionSort (fun a b : ReferenceCloud => b.size ≤ a.size) C

theorem sizes_eq_of_perm_of_sorted (l1 l2 : List ReferenceCloud) (hp : l1.Perm l2)
    (h1 : l1.Pairwise (fun a b => a.size ≥ b.size))
    (h2 : l2.Pairwise (fun a b => a.size ≥ b.size)) :
    l1.map (fun g => g.size) = l2.map (fun g => g.size) := by
  haveI : IsAntisymm Nat (fun a b => a ≥ b) := ⟨fun _ _ hab hba => Nat.le_antisymm hba hab⟩
  apply List.eq_of_perm_of_sorted (r := fun a b : Nat => a ≥ b) (hp.map _)
  · exact List.pairwise_map.mpr h1
  · exact List.pairwise_map.mpr h2

set_option maxRecDepth 100000 in
/-- C15, the claim refuted: with `std::sort` as `ParallelSort`, seventeen groups of two points
are materialized in the order 8, 16, 15, ..., 9, 0, 7, 6, ..., 1 of their indices, which is
not the order of a stable sort (the order of the container): the group of index 8 comes
before the group of index 0. -/
theorem C15_counterexample :
    seventeenGroups.map (fun g => g.size) = List.replicate 17 2 ∧
    (createComponentsClouds_ stdSortEngine (some (.pointCloud longCloud)) seventeenGroups 1
        false true 0).map (fun r => r.resultClouds)
      = some (decorateAll stdSortEngine (some longCloud) false 0 0
          ((pairGroups [8, 16, 15, 14, 13, 12, 11, 10, 9, 0, 7, 6, 5, 4, 3, 2, 1]).map
            (pickPoints longCloud))) ∧
    processingOrder stdSortEngine seventeenGroups true
      = pairGroups [8, 16, 15, 14, 13, 12, 11, 10, 9, 0, 7, 6, 5, 4, 3, 2, 1] ∧
    stableOrder seventeenGroups = seventeenGroups ∧
    processingOrder stdSortEngine seventeenGroups true ≠ stableOrder seventeenGroups := by
  refine ⟨by decide, by decide, by decide, by decide, by decide⟩

/-- C15 as amended: when sorting is in effect, `createComponentsClouds_` returns what its loop
body gives over the processing order, and that order is a rearrangement of the groups of the
container, descending by group size, whose sequence of sizes is the one of a stable sort;
nothing is said of the relative order of two groups of equal size. -/
theorem C15_ranking_by_size (E : Engine) (cloud : ccGenericPointCloud)
    (components : List ReferenceCloud) (minPointsPerComponent : Nat) (randomColors : Bool)
    (gen : Nat)
    (hperm : E.SortPermutes) (hord : E.SortOrders) (hlen : components.length < 4294967296)
    (hres : E.reserve components.length = true) :
    (∃ r, createComponentsClouds_ E (some cloud) components minPointsPerComponent randomColors
        true gen = some r ∧
      r.resultClouds =
        ((processingOrder E components true).foldl
          (loopBody E (asPointCloud cloud) minPointsPerComponent randomColors)
          ⟨[], 0, gen⟩).resultClouds) ∧
    (processingOrder E components true).Perm components ∧
    (processingOrder E components true).Pairwise (fun a b => a.size ≥ b.size) ∧
    (processingOrder E components true).map (fun g => g.size) =
      (stableOrder components).map (fun g => g.size) := by
  have hp := processingOrder_perm E components true hperm hlen
  have hs := processingOrder_sorted E components hperm hord hlen hres
  refine ⟨⟨_, createComponentsClouds__eq E cloud components minPointsPerComponent randomColors
      true gen hperm hlen, ?_⟩, hp, hs,
    sizes_eq_of_perm_of_sorted _ _ (hp.trans (stableOrder_perm components).symm) hs
      (stableOrder_sorted components)⟩
  simp only [foldl_loopBody, List.nil_append]

theorem C15_ranking_by_size_witness :
    sampleEngine.SortPermutes ∧ sampleEngine.SortOrders ∧ sampleGroups.length < 4294967296 ∧
    sampleEngine.reserve sampleGroups.length = true ∧
    (∃ r, createComponentsClouds_ sampleEngine (some (.pointCloud sampleCloud)) sampleGroups 2
        false true 0 = some r ∧
      r.resultClouds =
        ((processingOrder sampleEngine sampleGroups true).foldl
          (loopBody sampleEngine (asPointCloud (.pointCloud sampleCloud)) 2 false)
          ⟨[], 0, 0⟩).resultClouds) ∧
    (processingOrder sampleEngine sampleGroups true).Perm sampleGroups ∧
    (processingOrder sampleEngine sampleGroups true).Pairwise (fun a b => a.size ≥ b.size) ∧
    (processingOrder sampleEngine sampleGroups true).map (fun g => g.size) =
      (stableOrder sampleGroups).map (fun g => g.size) :=
  ⟨sampleEngine_sortPermutes, sampleEngine_sortOrders, by decide, rfl,
    C15_ranking_by_size sampleEngine (.pointCloud sampleCloud) sampleGroups 2 false 0
      sampleEngine_sortPermutes sampleEngine_sortOrders (by decide) rfl⟩


/-- C16 (degraded-mode ranking): when sorting is not requested or the scratch vector cannot be
reserved, `createComponentsClouds_` still returns, and what it returns is the decoration
(names `CC#0`, `CC#1`, ... in that order) of the clouds built for the groups of the container
that have at least `minPointsPerComponent` points, taken in the order of the container, a
group whose cloud cannot be built being left out; the run in which the scratch vector is
reserved and the groups sorted returns the decoration of the same built clouds, in another
order. -/
theorem C16_degraded_mode (E : Engine) (cloud : ccGenericPointCloud)
    (components : List ReferenceCloud) (minPointsPerComponent : Nat)
    (randomColors sortBysize : Bool) (gen : Nat)
    (hdeg : sortBysize = false ∨ E.reserve components.length = false)
    (hperm : E.SortPermutes) (hlen : components.length < 4294967296) :
    ∃ (r r1 : CreateResult) (gs1 : List ReferenceCloud),
      createComponentsClouds_ E (some cloud) components minPointsPerComponent randomColors
        sortBysize gen = some r ∧
      r.resultClouds = decorateAll E (asPointCloud cloud) randomColors gen 0
        ((components.filter (fun g => decide (g.size ≥ minPointsPerComponent))).filterMap
          (cloneOf E (asPointCloud cloud))) ∧
      List.Forall₂ (BuiltFrom E (asPointCloud cloud) randomColors)
        ((components.filter (fun g => decide (g.size ≥ minPointsPerComponent))).filter
          (fun g => (cloneOf E (asPointCloud cloud) g).isSome))
        r.resultClouds ∧
      r.resultClouds.map (fun c => c.name)
        = (List.range r.resultClouds.length).map (fun j => "CC#" ++ toString j) ∧
      createComponentsClouds_ { E with reserve := fun _ => true } (some cloud) components
        minPointsPerComponent randomColors true gen = some r1 ∧
      r1.resultClouds = decorateAll E (asPointCloud cloud) randomColors gen 0
        (gs1.filterMap (cloneOf E (asPointCloud cloud))) ∧
      gs1.Perm (components.filter (fun g => decide (g.size ≥ minPointsPerComponent))) ∧
      r1.resultClouds.length = r.resultClouds.length := by
  have hperm1 : ({ E with reserve := fun _ => true } : Engine).SortPermutes := hperm
  have hp := processingOrder_perm { E with reserve := fun _ => true } components true
    hperm1 hlen
  have hq : (fun g : ReferenceCloud => decide (g.size ≥ minPointsPerComponent))
      = qualifies minPointsPerComponent := rfl
  have hclone : cloneOf { E with reserve := fun _ => true } (asPointCloud cloud)
      = cloneOf E (asPointCloud cloud) := by
    funext g
    cases asPointCloud cloud <;> rfl
  have hdec : ∀ (raws : List ccPointCloud) (g n : Nat),
      decorateAll { E with reserve := fun _ => true } (asPointCloud cloud) randomColors g n raws
        = decorateAll E (asPointCloud cloud) randomColors g n raws := by
    intro raws
    induction raws with
    | nil => intro g n; rfl
    | cons a t ih =>
      intro g n
      simp only [decorateAll, ih]
      rfl
  rw [hq]
  refine ⟨_, _, (processingOrder { E with reserve := fun _ => true } components true).filter
      (qualifies minPointsPerComponent),
    createComponentsClouds__unsorted E cloud components minPointsPerComponent randomColors
      sortBysize gen hdeg,
    rfl, forall₂_decorateAll E (asPointCloud cloud) randomColors _ _ _, ?_,
    createComponentsClouds__eq { E with reserve := fun _ => true } cloud components
      minPointsPerComponent randomColors true gen hperm1 hlen,
    ?_, hp.filter _, ?_⟩
  · simp only [decorateAll_names, decorateAll_length, Nat.zero_add]
    rfl
  · simp only [hdec, hclone]
  · simp only [decorateAll_length, hclone]
    exact ((hp.filter _).filterMap _).length_eq

theorem C16_degraded_mode_witness :
    ((false = false ∨ sampleEngine.reserve sampleGroups.length = false) ∧
      sampleEngine.SortPermutes ∧ sampleGroups.length < 4294967296) ∧
    ∃ (r r1 : CreateResult) (gs1 : List ReferenceCloud),
      createComponentsClouds_ sampleEngine (some (.pointCloud sampleCloud)) sampleGroups 2
        false false 0 = some r ∧
      r.resultClouds = decorateAll sampleEngine (asPointCloud (.pointCloud sampleCloud)) false
        0 0
        ((sampleGroups.filter (fun g => decide (g.size ≥ 2))).filterMap
          (cloneOf sampleEngine (asPointCloud (.pointCloud sampleCloud)))) ∧
      List.Forall₂ (BuiltFrom sampleEngine (asPointCloud (.pointCloud sampleCloud)) false)
        ((sampleGroups.filter (fun g => decide (g.size ≥ 2))).filter
          (fun g => (cloneOf sampleEngine (asPointCloud (.pointCloud sampleCloud)) g).isSome))
        r.resultClouds ∧
      r.resultClouds.map (fun c => c.name)
        = (List.range r.resultClouds.length).map (fun j => "CC#" ++ toString j) ∧
      createComponentsClouds_ { sampleEngine with reserve := fun _ => true }
        (some (.pointCloud sampleCloud)) sampleGroups 2 false true 0 = some r1 ∧
      r1.resultClouds = decorateAll sampleEngine (asPointCloud (.pointCloud sampleCloud)) false
        0 0 (gs1.filterMap (cloneOf sampleEngine (asPointCloud (.pointCloud sampleCloud)))) ∧
      gs1.Perm (sampleGroups.filter (fun g => decide (g.size ≥ 2))) ∧
      r1.resultClouds.length = r.resultClouds.length :=
  ⟨⟨Or.inl rfl, sampleEngine_sortPermutes, by decide⟩,
    C16_degraded_mode sampleEngine (.pointCloud sampleCloud) sampleGroups 2 false false 0
      (Or.inl rfl) sampleEngine_sortPermutes (by decide)⟩

theorem decorateAll_mem (E : Engine) (pc : Option ccPointCloud) (rc : Bool) (c : ccPointCloud) :
    ∀ (raws : List ccPointCloud) (gen nb : Nat), c ∈ decorateAll E pc rc gen nb raws →
      ∃ raw g k, c = decorate E pc rc g k raw := by
  intro raws
  induction raws with
  | nil => intro gen nb h; simp [decorateAll] at h
  | cons a rest ih =>
    intro gen nb h
    simp only [decorateAll, List.mem_cons] at h
    rcases h with h | h
    · exact ⟨a, gen, nb, h⟩
    · exact ih _ _ h

theorem decorate_shift_scale (E : Engine) (p : ccPointCloud) (rc : Bool) (gen nb : Nat)
    (raw : ccPointCloud) :
    (decorate E (some p) rc gen nb raw).globalShift = p.globalShift ∧
    (decorate E (some p) rc gen nb raw).globalScale = p.globalScale := by
  cases rc <;> exact ⟨rfl, rfl⟩

/-- C17 (metadata propagation): for a source that is a `ccPointCloud`, a call of
`createComponentsClouds_` returns, and every cloud it returns has the global shift and the
global scale of the source. -/
theorem C17_metadata_propagation (E : Engine) (source : ccPointCloud)
    (components : List ReferenceCloud) (minPointsPerComponent : Nat)
    (randomColors sortBysize : Bool) (gen : Nat)
    (hperm : E.SortPermutes) (hlen : components.length < 4294967296) :
    ∃ r, createComponentsClouds_ E (some (.pointCloud source)) components
        minPointsPerComponent randomColors sortBysize gen = some r ∧
      ∀ c ∈ r.resultClouds,
        c.globalShift = source.globalShift ∧ c.globalScale = source.globalScale := by
  refine ⟨_, createComponentsClouds__eq E (.pointCloud source) components
    minPointsPerComponent randomColors sortBysize gen hperm hlen, ?_⟩
  intro c hc
  obtain ⟨raw, g, k, rfl⟩ := decorateAll_mem _ _ _ _ _ _ _ hc
  exact decorate_shift_scale E source randomColors g k raw

theorem C17_metadata_propagation_witness :
    sampleEngine.SortPermutes ∧ sampleGroups.length < 4294967296 ∧
    ∃ r, createComponentsClouds_ sampleEngine (some (.pointCloud sampleCloud)) sampleGroups
        2 true true 0 = some r ∧
      ∀ c ∈ r.resultClouds,
        c.globalShift = sampleCloud.globalShift ∧ c.globalScale = sampleCloud.globalScale :=
  ⟨sampleEngine_sortPermutes, by decide,
    C17_metadata_propagation sampleEngine sampleCloud sampleGroups 2 true true 0
      sampleEngine_sortPermutes (by decide)⟩

theorem toUnsigned_toUnsigned (m : Int) : toUnsigned (toUnsigned m : Int) = toUnsigned m := by
  unfold toUnsigned
  have h : (0 : Int) ≤ m % 4294967296 := Int.emod_nonneg _ (by decide)
  rw [Int.toNat_of_nonneg h, Int.emod_emod_of_dvd _ (dvd_refl _)]

theorem processCloud_congr_min (E : Engine) (ol m m1 mx : Int) (rc : Bool)
    (h : toUnsigned m = toUnsigned m1) (c : ccGenericPointCloud) (st : ExtractState) :
    processCloud E ol m mx rc c st = processCloud E ol m1 mx rc c st := by
  cases c with
  | generic n => rfl
  | pointCloud pc0 =>
    simp only [processCloud, labelAndExtract, safetyTest, finishCloud, h]

theorem cloudsLoop_congr_min (E : Engine) (ol m m1 mx : Int) (rc : Bool)
    (h : toUnsigned m = toUnsigned m1) :
    ∀ (cs : List ccGenericPointCloud) (st : ExtractState),
      cloudsLoop E ol m mx rc cs st = cloudsLoop E ol m1 mx rc cs st := by
  intro cs
  induction cs with
  | nil => intro st; rfl
  | cons c rest ih =>
    intro st
    simp only [cloudsLoop, processCloud_congr_min E ol m m1 mx rc h, ih]

/-- C18 (documented defaults): `ExtractConnectedComponents` called with the cloud list alone
returns what `ExtractConnectedComponents_py` returns with `octreeLevel = 8`,
`minComponentSize = 100`, `maxNumberComponents = 100`, `randomColors = false`; the minimum
size acts through its conversion to `unsigned` only, which leaves the default `100` as it is. -/
theorem C18_documented_defaults (E : Engine) (clouds : List ccHObject) (gen : Nat) :
    ExtractConnectedComponents E clouds none none none none gen =
      ExtractConnectedComponents_py E clouds 8 100 100 false gen ∧
    toUnsigned 100 = 100 ∧
    (∀ (octreeLevel minComponentSize maxNumberComponents : Int) (randomColors : Bool),
      ExtractConnectedComponents_py E clouds octreeLevel minComponentSize maxNumberComponents
          randomColors gen =
        ExtractConnectedComponents_py E clouds octreeLevel (toUnsigned minComponentSize : Int)
          maxNumberComponents randomColors gen) := by
  refine ⟨rfl, by decide, ?_⟩
  intro ol m mx rc
  rw [ExtractConnectedComponents_py_eq, ExtractConnectedComponents_py_eq,
    cloudsLoop_congr_min E ol m (toUnsigned m : Int) mx rc (toUnsigned_toUnsigned m).symm]


theorem range_map_getElem? {α β : Type} (f : α → β) (s : List α) :
    (List.range s.length).map (fun i => (s[i]?).map f) = (s.map f).map some := by
  induction s with
  | nil => rfl
  | cons a s ih =>
    rw [List.length_cons, List.range_succ_eq_map, List.map_cons, List.map_map]
    simp only [List.getElem?_cons_zero, Option.map_some', List.map_cons]
    have : ((fun i => ((a :: s)[i]?).map f) ∘ Nat.succ) = (fun i => (s[i]?).map f) := by
      funext i
      simp [Function.comp]
    rw [this, ih]

theorem map_eq_filterMap_some {α β : Type} (f : α → Option β) :
    ∀ l : List α, (∀ a ∈ l, (f a).isSome) → l.map f = (l.filterMap f).map some := by
  intro l
  induction l with
  | nil => intro _; rfl
  | cons a rest ih =>
    intro h
    obtain ⟨b, hb⟩ := Option.isSome_iff_exists.mp (h a (List.mem_cons_self _ _))
    rw [List.map_cons, List.filterMap_cons, hb, List.map_cons,
      ih (fun x hx => h x (List.mem_cons_of_mem _ hx))]

theorem indexedSizes_map_index (C : List ReferenceCloud) :
    (indexedSizes C).map (fun e => e.index) = List.range C.length := by
  unfold indexedSizes
  rw [List.map_map]
  exact List.map_id _

/-- C19 (every group is consumed exactly once): the indices used by the successive iterations
of the materialization loop are all defined (`at(i)` never fails) and form a permutation
`idxs` of `0 .. n-1`; the call returns what the loop body gives when it is run once on each
group `components[k]`, for `k` through `idxs` in order, and nothing else; on return the
container is empty. -/
theorem C19_groups_consumed_once (E : Engine) (cloud : ccGenericPointCloud)
    (components : List ReferenceCloud) (minPointsPerComponent : Nat)
    (randomColors sortBysize : Bool) (gen : Nat)
    (hperm : E.SortPermutes) (hlen : components.length < 4294967296) :
    ∃ (idxs : List Nat) (gs : List ReferenceCloud) (r : CreateResult),
      indexSequence E components sortBysize = idxs.map some ∧
      idxs.Perm (List.range components.length) ∧
      idxs.map (fun k => components[k]?) = gs.map some ∧
      createComponentsClouds_ E (some cloud) components minPointsPerComponent randomColors
        sortBysize gen = some r ∧
      r.resultClouds =
        (gs.foldl (loopBody E (asPointCloud cloud) minPointsPerComponent randomColors)
          ⟨[], 0, gen⟩).resultClouds ∧
      r.gen =
        (gs.foldl (loopBody E (asPointCloud cloud) minPointsPerComponent randomColors)
          ⟨[], 0, gen⟩).gen ∧
      r.components = [] := by
  have hcreate := createComponentsClouds__eq E cloud components minPointsPerComponent
    randomColors sortBysize gen hperm hlen
  have hpo := processingOrder_eq E components sortBysize hperm hlen
  have hfold1 : (decorateAll E (asPointCloud cloud) randomColors gen 0
      (((processingOrder E components sortBysize).filter
        (qualifies minPointsPerComponent)).filterMap (cloneOf E (asPointCloud cloud)))) =
      ((processingOrder E components sortBysize).foldl
        (loopBody E (asPointCloud cloud) minPointsPerComponent randomColors)
        ⟨[], 0, gen⟩).resultClouds := by
    simp only [foldl_loopBody, List.nil_append]
  have hfold2 : (if randomColors then gen + (((processingOrder E components sortBysize).filter
        (qualifies minPointsPerComponent)).filterMap (cloneOf E (asPointCloud cloud))).length
      else gen) =
      ((processingOrder E components sortBysize).foldl
        (loopBody E (asPointCloud cloud) minPointsPerComponent randomColors)
        ⟨[], 0, gen⟩).gen := by
    simp only [foldl_loopBody]
  by_cases hs : sortBysize = true ∧ E.reserve components.length = true
  · have hl : (E.ParallelSort (indexedSizes components)).length = components.length := by
      rw [(hperm _).length_eq]
      simp [indexedSizes]
    refine ⟨(E.ParallelSort (indexedSizes components)).map (fun e => e.index),
      processingOrder E components sortBysize, _, ?_, ?_, ?_, hcreate, hfold1, hfold2, rfl⟩
    · unfold indexSequence
      rw [sortBlock_eq E components sortBysize hlen]
      simp only [hs, and_self, if_true, indexAt]
      rw [← hl]
      exact range_map_getElem? _ _
    · have h := (hperm (indexedSizes components)).map (fun e => e.index)
      rw [indexedSizes_map_index] at h
      exact h
    · rw [hpo]
      simp only [hs, and_self, if_true, List.map_map]
      apply map_eq_filterMap_some
      intro e he
      obtain ⟨g, hg, _⟩ := mem_indexedSizes ((hperm _).subset he)
      simp [hg]
  · refine ⟨List.range components.length, processingOrder E components sortBysize, _, ?_,
      List.Perm.refl _, ?_, hcreate, hfold1, hfold2, rfl⟩
    · unfold indexSequence
      rw [sortBlock_eq E components sortBysize hlen]
      simp only [hs, if_false]
      rfl
    · rw [hpo]
      simp only [hs, if_false]
      have h := range_map_getElem? (fun g : ReferenceCloud => g) components
      simpa using h

theorem C19_groups_consumed_once_witness :
    sampleEngine.SortPermutes ∧ sampleGroups.length < 4294967296 ∧
    ∃ (idxs : List Nat) (gs : List ReferenceCloud) (r : CreateResult),
      indexSequence sampleEngine sampleGroups true = idxs.map some ∧
      idxs.Perm (List.range sampleGroups.length) ∧
      idxs.map (fun k => sampleGroups[k]?) = gs.map some ∧
      createComponentsClouds_ sampleEngine (some (.pointCloud sampleCloud)) sampleGroups 2
        false true 0 = some r ∧
      r.resultClouds =
        (gs.foldl (loopBody sampleEngine (asPointCloud (.pointCloud sampleCloud)) 2 false)
          ⟨[], 0, 0⟩).resultClouds ∧
      r.gen =
        (gs.foldl (loopBody sampleEngine (asPointCloud (.pointCloud sampleCloud)) 2 false)
          ⟨[], 0, 0⟩).gen ∧
      r.components = [] :=
  ⟨sampleEngine_sortPermutes, by decide,
    C19_groups_consumed_once sampleEngine (.pointCloud sampleCloud) sampleGroups 2 false true 0
      sampleEngine_sortPermutes (by decide)⟩


theorem map_name_modify (labels : List Scalar) :
    ∀ (l : List ScalarField) (n : Nat),
      (l.modify (fun sf => { sf with values := labels }) n).map (fun sf => sf.name)
        = l.map (fun sf => sf.name) := by
  intro l
  induction l with
  | nil => intro n; cases n <;> rfl
  | cons a rest ih =>
    intro n
    cases n with
    | zero => rfl
    | succ k => simp [List.modify_succ_cons, ih]

theorem writeLabels_names (pc : ccPointCloud) (labels : List Scalar) :
    (pc.writeLabels labels).scalarFields.map (fun sf => sf.name)
      = pc.scalarFields.map (fun sf => sf.name) := by
  unfold ccPointCloud.writeLabels
  split
  · rfl
  · exact map_name_modify labels _ _

theorem writeLabels_current (pc : ccPointCloud) (labels : List Scalar) :
    (pc.writeLabels labels).currentInScalarFieldIndex = pc.currentInScalarFieldIndex ∧
    (pc.writeLabels labels).currentOutScalarFieldIndex = pc.currentOutScalarFieldIndex := by
  unfold ccPointCloud.writeLabels
  split <;> exact ⟨rfl, rfl⟩

/-- C20 (the label field is never duplicated): for a cloud whose scalar-field names are
pairwise distinct and that reaches the labelling step, a field that already bears the
reserved name is reused and no second one is added; at the call of the labelling the cloud has
exactly one scalar field with the reserved name, it is the field of index `sfIdx` and it is
the current input and output scalar field; writing the labels changes neither the names nor
the current field. -/
theorem C20_label_field_not_duplicated (E : Engine) (pc0 pc2 : ccPointCloud) (o : ccOctree)
    (sfIdx : Int)
    (hnodup : (pc0.scalarFields.map (fun sf => sf.name)).Nodup)
    (hli : labelingInput E pc0 = .inr (pc2, o, sfIdx)) :
    ((∃ sf ∈ pc0.scalarFields, sf.name = E.labelName) →
      pc2.scalarFields = pc0.scalarFields) ∧
    (pc2.scalarFields.map (fun sf => sf.name)).count E.labelName = 1 ∧
    (0 ≤ sfIdx ∧ ∃ sf, pc2.scalarFields[sfIdx.toNat]? = some sf ∧ sf.name = E.labelName) ∧
    pc2.currentInScalarFieldIndex = sfIdx ∧ pc2.currentOutScalarFieldIndex = sfIdx ∧
    (∀ labels,
      (pc2.writeLabels labels).scalarFields.map (fun sf => sf.name)
        = pc2.scalarFields.map (fun sf => sf.name) ∧
      (pc2.writeLabels labels).currentInScalarFieldIndex = sfIdx ∧
      (pc2.writeLabels labels).currentOutScalarFieldIndex = sfIdx) := by
  obtain ⟨h0, _, hsf, hin, hout, hreuse, hadd⟩ := labelingInput_inr E pc0 pc2 o sfIdx hli
  refine ⟨hreuse, ?_, ⟨h0, hsf⟩, hin, hout, ?_⟩
  · by_cases hex : ∃ sf ∈ pc0.scalarFields, sf.name = E.labelName
    · rw [hreuse hex]
      obtain ⟨sf, hsf1, hsf2⟩ := hex
      apply List.count_eq_one_of_mem hnodup
      rw [← hsf2]
      exact List.mem_map_of_mem _ hsf1
    · have hall : ∀ sf ∈ pc0.scalarFields, sf.name ≠ E.labelName :=
        fun sf hsf1 hsf2 => hex ⟨sf, hsf1, hsf2⟩
      obtain ⟨v, hv⟩ := hadd hall
      rw [hv, List.map_append, List.count_append]
      have hz : (pc0.scalarFields.map (fun sf => sf.name)).count E.labelName = 0 := by
        apply List.count_eq_zero_of_not_mem
        intro hm
        obtain ⟨sf, hsf1, hsf2⟩ := List.mem_map.mp hm
        exact hall sf hsf1 hsf2
      rw [hz]
      simp
  · intro labels
    have hc := writeLabels_current pc2 labels
    exact ⟨writeLabels_names pc2 labels, hc.1.trans hin, hc.2.trans hout⟩

theorem C20_label_field_not_duplicated_witness :
    (relabelledCloud.scalarFields.map (fun sf => sf.name)).Nodup ∧
    labelingInput sampleEngine relabelledCloud =
      .inr (({ relabelledCloud with octree := some ⟨1⟩ } : ccPointCloud).setCurrentScalarField 1,
        ⟨1⟩, 1) ∧
    ((({ relabelledCloud with octree := some ⟨1⟩ } : ccPointCloud).setCurrentScalarField
        1).scalarFields.map (fun sf => sf.name)).count sampleEngine.labelName = 1 :=
  ⟨by decide, by decide,
    (C20_label_field_not_duplicated sampleEngine relabelledCloud
      (({ relabelledCloud with octree := some ⟨1⟩ } : ccPointCloud).setCurrentScalarField 1)
      ⟨1⟩ 1 (by decide) (by decide)).2.1⟩

/-! ## The safety test and the conversions of the parameters -/

theorem returnTaken_iff (E : Engine) (ol m mx : Int) (rc : Bool) :
    ∀ (cs : List ccGenericPointCloud) (st : ExtractState), st.realComponentCount = 0 →
      (returnTaken E ol m mx rc cs st = true ↔ (mx < 0 ∧ labellingSucceeds E ol cs = true)) := by
  intro cs
  induction cs with
  | nil => intro st _; simp [returnTaken, labellingSucceeds]
  | cons c rest ih =>
    intro st hr
    cases c with
    | generic n =>
      simp only [returnTaken, processCloud, labellingSucceeds]
      exact ih st hr
    | pointCloud pc0 =>
      simp only [returnTaken, processCloud, labellingSucceeds]
      cases hli : labelingInput E pc0 with
      | inl pcb => simp
      | inr u =>
        obtain ⟨pc2, o, sfIdx⟩ := u
        simp only []
        by_cases hs : (E.labelConnectedComponents pc2 (toUnsignedChar ol) o).1 ≥ 0
        · by_cases hmx : mx < 0
          · have hv : labelAndExtract E ol m mx rc pc2 o sfIdx st =
                some (.ret, .pointCloud ((pc2.writeLabels
                  (E.labelConnectedComponents pc2 (toUnsignedChar ol) o).2).deleteScalarField
                    sfIdx), st) := by
              unfold labelAndExtract
              simp only [safetyTest, List.foldl_nil, hr]
              rw [if_pos hs, if_pos hmx]
              obtain ⟨r, nb, res, g⟩ := st
              simp only at hr
              subst hr
              rfl
            rw [hv]
            simp [hs, hmx]
          · have hv : labelAndExtract E ol m mx rc pc2 o sfIdx st =
                finishCloud E m rc
                  (pc2.writeLabels (E.labelConnectedComponents pc2 (toUnsignedChar ol) o).2) sfIdx
                  (E.extractConnectedComponents
                    (pc2.writeLabels (E.labelConnectedComponents pc2 (toUnsignedChar ol) o).2)
                    []).2 st := by
              unfold labelAndExtract
              simp only [safetyTest, List.foldl_nil, hr]
              rw [if_pos hs, if_neg hmx]
              obtain ⟨r, nb, res, g⟩ := st
              simp only at hr
              subst hr
              rfl
            rw [hv]
            cases hf : finishCloud E m rc
                (pc2.writeLabels (E.labelConnectedComponents pc2 (toUnsignedChar ol) o).2) sfIdx
                (E.extractConnectedComponents
                  (pc2.writeLabels (E.labelConnectedComponents pc2 (toUnsignedChar ol) o).2)
                  []).2 st with
            | none => simp [hmx]
            | some t =>
              obtain ⟨fl, c1, s1⟩ := t
              have hfc := finishCloud_realComponentCount _ _ _ _ _ _ _ _ hf
              simp only at hfc
              obtain ⟨hfl, hr1, _⟩ := hfc
              subst hfl
              simp only []
              rw [ih s1 (hr1.trans hr)]
              simp [hmx]
        · have hv : labelAndExtract E ol m mx rc pc2 o sfIdx st =
              finishCloud E m rc
                (pc2.writeLabels (E.labelConnectedComponents pc2 (toUnsignedChar ol) o).2) sfIdx
                [] st := by
            unfold labelAndExtract
            rw [if_neg hs]
          rw [hv]
          have hf : finishCloud E m rc
              (pc2.writeLabels (E.labelConnectedComponents pc2 (toUnsignedChar ol) o).2) sfIdx
              [] st = some (.next, .pointCloud ((pc2.writeLabels
                (E.labelConnectedComponents pc2 (toUnsignedChar ol) o).2).deleteScalarField sfIdx),
                { st with nbCloudDone := st.nbCloudDone + 1 }) := by
            simp [finishCloud]
          rw [hf]
          simp only [hs, if_false]
          exact ih _ hr


/-- C22 (the too-many-components test counts an empty container): the safety test runs on the
container as declared, which holds no group, so it leaves `realComponentCount` as it is, and
no iteration changes it: it is `0` at every test.  Hence the `return` of the test is taken
exactly when `maxNumberComponents < 0` and some cloud reached by the loop has a labelling
with a non-negative status; for `maxNumberComponents >= 0` it is never taken, and a cloud may
give more components than `maxNumberComponents` (three for a maximum of two). -/
theorem C22_safety_test_on_empty_container (E : Engine) (entities : List ccHObject)
    (octreeLevel minComponentSize maxNumberComponents : Int) (randomColors : Bool) (gen : Nat) :
    (∀ n, safetyTest [] minComponentSize n = n) ∧
    (∀ c st t, processCloud E octreeLevel minComponentSize maxNumberComponents randomColors
        c st = some t → t.2.2.realComponentCount = st.realComponentCount) ∧
    (returnTaken E octreeLevel minComponentSize maxNumberComponents randomColors
        (collectClouds entities) ⟨0, 0, [], gen⟩ = true ↔
      (maxNumberComponents < 0 ∧
        labellingSucceeds E octreeLevel (collectClouds entities) = true)) ∧
    (0 ≤ maxNumberComponents →
      returnTaken E octreeLevel minComponentSize maxNumberComponents randomColors
        (collectClouds entities) ⟨0, 0, [], gen⟩ = false) ∧
    (ExtractConnectedComponents_py namedEngine [.cloud (.pointCloud bigCloud)] 8 1 2 false
        0).map (fun r => r.resultComponents.length) = some 3 := by
  have hiff := returnTaken_iff E octreeLevel minComponentSize maxNumberComponents randomColors
    (collectClouds entities) ⟨0, 0, [], gen⟩ rfl
  refine ⟨fun _ => rfl, fun c st t h => processCloud_realComponentCount _ _ _ _ _ _ _ _ h,
    hiff, ?_, by decide⟩
  intro hmx
  cases hrt : returnTaken E octreeLevel minComponentSize maxNumberComponents randomColors
      (collectClouds entities) ⟨0, 0, [], gen⟩ with
  | false => rfl
  | true =>
    have := (hiff.mp hrt).1
    omega

theorem swapDelete_perm {α : Type} :
    ∀ (l : List α) (i : Nat) (last : α), i < l.length → l.getLast? = some last →
      ((l.set i last).dropLast).Perm (l.eraseIdx i) := by
  intro l
  induction l with
  | nil => intro i last h _; simp at h
  | cons x t ih =>
    intro i last hi hlast
    cases t with
    | nil =>
      have hi0 : i = 0 := by simpa using hi
      subst hi0
      simp
    | cons y t1 =>
      have hl : (y :: t1).getLast? = some last := by
        simpa [List.getLast?_cons_cons] using hlast
      cases i with
      | zero =>
        simp only [List.set_cons_zero, List.eraseIdx_cons_zero]
        have hd : (last :: y :: t1).dropLast = last :: (y :: t1).dropLast := by simp
        rw [hd]
        have hdec := List.dropLast_append_getLast? last hl
        have hp : (last :: (y :: t1).dropLast).Perm ((y :: t1).dropLast ++ [last]) :=
          (List.perm_append_singleton last _).symm
        rw [hdec] at hp
        exact hp
      | succ k =>
        have hk : k < (y :: t1).length := by simpa using hi
        have h := ih k last hk hl
        simp only [List.set_cons_succ, List.eraseIdx_cons_succ]
        have hne : (y :: t1).set k last ≠ [] := by
          intro h0
          have := congrArg List.length h0
          simp at this
        have hd : (x :: (y :: t1).set k last).dropLast = x :: ((y :: t1).set k last).dropLast := by
          cases hs : (y :: t1).set k last with
          | nil => exact absurd hs hne
          | cons a b => simp
        rw [hd]
        exact h.cons x

theorem eraseIdx_modify {α : Type} (f : α → α) :
    ∀ (l : List α) (n : Nat), (l.modify f n).eraseIdx n = l.eraseIdx n := by
  intro l
  induction l with
  | nil => intro n; cases n <;> rfl
  | cons a rest ih =>
    intro n
    cases n with
    | zero => rfl
    | succ k => simp [List.modify_succ_cons, ih]

theorem eraseIdx_name_ne :
    ∀ (F : List ScalarField) (i : Nat) (sf0 : ScalarField),
      (F.map (fun sf => sf.name)).Nodup → F[i]? = some sf0 →
      ∀ sf ∈ F.eraseIdx i, sf.name ≠ sf0.name := by
  intro F
  induction F with
  | nil => intro i sf0 _ h; simp at h
  | cons a t ih =>
    intro i sf0 hnd hget sf hsf
    simp only [List.map_cons, List.nodup_cons, List.mem_map, not_exists, not_and] at hnd
    cases i with
    | zero =>
      simp only [List.getElem?_cons_zero, Option.some.injEq] at hget
      subst hget
      simp only [List.eraseIdx_cons_zero] at hsf
      intro heq
      exact hnd.1 sf hsf heq
    | succ k =>
      simp only [List.getElem?_cons_succ] at hget
      simp only [List.eraseIdx_cons_succ, List.mem_cons] at hsf
      rcases hsf with h | h
      · subst h
        intro heq
        exact hnd.1 sf0 (List.getElem?_mem hget) heq.symm
      · exact ih k sf0 hnd.2 hget sf h

theorem deleteScalarField_perm (pc : ccPointCloud) (index : Int)
    (h0 : 0 ≤ index) (hlt : index.toNat < pc.scalarFields.length) :
    (pc.deleteScalarField index).scalarFields.Perm (pc.scalarFields.eraseIdx index.toNat) := by
  unfold ccPointCloud.deleteScalarField
  have hcond : ¬ (index < 0 ∨ index ≥ (pc.scalarFields.length : Int)) := by omega
  simp only [hcond, if_false]
  cases hl : pc.scalarFields.getLast? with
  | none =>
    rw [List.getLast?_eq_none_iff] at hl
    rw [hl] at hlt
    simp at hlt
  | some last => exact swapDelete_perm _ _ _ hlt hl

theorem writeBack_length :
    ∀ (es : List ccHObject) (cs : List ccGenericPointCloud), (writeBack es cs).length = es.length := by
  intro es
  induction es with
  | nil => intro cs; rfl
  | cons e rest ih =>
    intro cs
    cases e with
    | other n => simp [writeBack, ih]
    | cloud c =>
      cases cs with
      | nil => simp [writeBack, ih]
      | cons c1 cs1 => simp [writeBack, ih]


theorem labelled_cloud_after_call (E : Engine) (xs ys : List ccHObject)
    (pc0 pc2 : ccPointCloud) (o : ccOctree) (sfIdx : Int)
    (ol m mx : Int) (rc : Bool) (gen : Nat)
    (hperm : E.SortPermutes) (hbound : E.ExtractBounded)
    (hrun : noEarlyExit E ol m mx rc (collectClouds xs) ⟨0, 0, [], gen⟩ = true)
    (hli : labelingInput E pc0 = .inr (pc2, o, sfIdx)) :
    ∃ r, ExtractConnectedComponents_py E (xs ++ .cloud (.pointCloud pc0) :: ys) ol m mx rc gen
        = some r ∧
      r.entities[xs.length]? = some (.cloud (.pointCloud ((pc2.writeLabels
        (E.labelConnectedComponents pc2 (toUnsignedChar ol) o).2).deleteScalarField sfIdx))) := by
  obtain ⟨xs1, st1, _, hlen, _, h2⟩ :=
    cloudsLoop_append E ol m mx rc (.pointCloud pc0 :: collectClouds ys) (collectClouds xs)
      ⟨0, 0, [], gen⟩ hrun
  obtain ⟨t, ht, _⟩ := labelAndExtract_flow E ol m mx rc pc2 o sfIdx st1 hperm hbound
  have hcl := labelAndExtract_cloud _ _ _ _ _ _ _ _ _ _ ht
  obtain ⟨fl, c1, s1⟩ := t
  simp only at hcl
  subst hcl
  have hstep : processCloud E ol m mx rc (.pointCloud pc0) st1 = some (fl,
      .pointCloud ((pc2.writeLabels
        (E.labelConnectedComponents pc2 (toUnsignedChar ol) o).2).deleteScalarField sfIdx),
      s1) := by
    simp only [processCloud, hli]
    exact ht
  have hidx : ∀ (l2 : List ccGenericPointCloud) (c1 : ccGenericPointCloud),
      (writeBack (xs ++ .cloud (.pointCloud pc0) :: ys) (xs1 ++ c1 :: l2))[xs.length]?
        = some (.cloud c1) := by
    intro l2 c1
    rw [writeBack_append _ _ xs xs1 hlen]
    rw [List.getElem?_append_right (by rw [writeBack_length])]
    simp [writeBack_length, writeBack]
  have hloop : ∃ l2 s2, cloudsLoop E ol m mx rc (.pointCloud pc0 :: collectClouds ys) st1 =
      some (.pointCloud ((pc2.writeLabels
        (E.labelConnectedComponents pc2 (toUnsignedChar ol) o).2).deleteScalarField sfIdx)
        :: l2, s2) := by
    rw [cloudsLoop, hstep]
    cases fl with
    | brk => exact ⟨_, _, rfl⟩
    | ret => exact ⟨_, _, rfl⟩
    | next =>
      obtain ⟨p, hp⟩ := cloudsLoop_total E ol m mx rc hperm hbound (collectClouds ys) s1
      simp only [hp]
      exact ⟨_, _, rfl⟩
  obtain ⟨l2, s2, hl⟩ := hloop
  refine ⟨⟨s2.nbCloudDone, s2.resultComponents,
    writeBack (xs ++ .cloud (.pointCloud pc0) :: ys) (xs1 ++ _ :: l2), s2.gen⟩, ?_, hidx _ _⟩
  rw [ExtractConnectedComponents_py_eq, collectClouds_append]
  simp only [collectClouds]
  rw [h2, hl]
  rfl

/-- C23 (a pre-existing label field is destroyed): for a cloud with pairwise distinct
scalar-field names that already has a field with the reserved label name and that reaches the
labelling step, the call reuses that field (no field is added before labelling) and deletes
it: after the call the cloud has one scalar field fewer, none bears the reserved name, and
its fields are the fields it had before, the label field left out. -/
theorem C23_existing_label_field_destroyed (E : Engine) (xs ys : List ccHObject)
    (pc0 pc2 : ccPointCloud) (o : ccOctree) (sfIdx : Int)
    (octreeLevel minComponentSize maxNumberComponents : Int) (randomColors : Bool) (gen : Nat)
    (hperm : E.SortPermutes) (hbound : E.ExtractBounded)
    (hrun : noEarlyExit E octreeLevel minComponentSize maxNumberComponents randomColors
      (collectClouds xs) ⟨0, 0, [], gen⟩ = true)
    (hnodup : (pc0.scalarFields.map (fun sf => sf.name)).Nodup)
    (hhas : ∃ sf ∈ pc0.scalarFields, sf.name = E.labelName)
    (hli : labelingInput E pc0 = .inr (pc2, o, sfIdx)) :
    ∃ r after,
      ExtractConnectedComponents_py E (xs ++ .cloud (.pointCloud pc0) :: ys) octreeLevel
        minComponentSize maxNumberComponents randomColors gen = some r ∧
      r.entities[xs.length]? = some (.cloud (.pointCloud after)) ∧
      pc2.scalarFields = pc0.scalarFields ∧
      (∃ sf, pc0.scalarFields[sfIdx.toNat]? = some sf ∧ sf.name = E.labelName) ∧
      after.scalarFields.length + 1 = pc0.scalarFields.length ∧
      (∀ sf ∈ after.scalarFields, sf.name ≠ E.labelName) ∧
      after.scalarFields.Perm (pc0.scalarFields.eraseIdx sfIdx.toNat) := by
  obtain ⟨r, hr, hpos⟩ := labelled_cloud_after_call E xs ys pc0 pc2 o sfIdx octreeLevel
    minComponentSize maxNumberComponents randomColors gen hperm hbound hrun hli
  obtain ⟨h0, hlt, hsf, _, hout, hreuse, _⟩ := labelingInput_inr E pc0 pc2 o sfIdx hli
  have hfields := hreuse hhas
  rw [hfields] at hsf hlt
  have hwl : ∀ labels : List Scalar,
      (pc2.writeLabels labels).scalarFields.eraseIdx sfIdx.toNat
        = pc0.scalarFields.eraseIdx sfIdx.toNat := by
    intro labels
    unfold ccPointCloud.writeLabels
    rw [hout]
    simp only [not_lt.mpr h0, if_false, eraseIdx_modify, hfields]
  have hperm1 := deleteScalarField_perm
    (pc2.writeLabels (E.labelConnectedComponents pc2 (toUnsignedChar octreeLevel) o).2) sfIdx h0
    (by rw [writeLabels_length, hfields]; exact hlt)
  rw [hwl] at hperm1
  refine ⟨r, _, hr, hpos, hfields, hsf, ?_, ?_, hperm1⟩
  · have h := deleteScalarField_length
      (pc2.writeLabels (E.labelConnectedComponents pc2 (toUnsignedChar octreeLevel) o).2)
      sfIdx h0 (by rw [writeLabels_length, hfields]; exact hlt)
    rw [writeLabels_length, hfields] at h
    exact h
  · intro sf hsf1
    obtain ⟨sf0, hsf0, hname⟩ := hsf
    have := eraseIdx_name_ne pc0.scalarFields sfIdx.toNat sf0 hnodup hsf0 sf
      (hperm1.subset hsf1)
    rw [hname] at this
    exact this

theorem C23_existing_label_field_destroyed_witness :
    (sampleEngine.SortPermutes ∧ sampleEngine.ExtractBounded) ∧
    (relabelledCloud.scalarFields.map (fun sf => sf.name)).Nodup ∧
    (∃ sf ∈ relabelledCloud.scalarFields, sf.name = sampleEngine.labelName) ∧
    ∃ r after,
      ExtractConnectedComponents_py sampleEngine
        ([.cloud (.pointCloud sampleCloud)] ++ .cloud (.pointCloud relabelledCloud) ::
          [sampleMesh]) 8 2 100 false 0 = some r ∧
      r.entities[[ccHObject.cloud (.pointCloud sampleCloud)].length]?
        = some (.cloud (.pointCloud after)) ∧
      (({ relabelledCloud with octree := some ⟨1⟩ } : ccPointCloud).setCurrentScalarField
        1).scalarFields = relabelledCloud.scalarFields ∧
      (∃ sf, relabelledCloud.scalarFields[(1 : Int).toNat]? = some sf ∧
        sf.name = sampleEngine.labelName) ∧
      after.scalarFields.length + 1 = relabelledCloud.scalarFields.length ∧
      (∀ sf ∈ after.scalarFields, sf.name ≠ sampleEngine.labelName) ∧
      after.scalarFields.Perm (relabelledCloud.scalarFields.eraseIdx (1 : Int).toNat) :=
  ⟨⟨sampleEngine_sortPermutes, sampleEngine_extractBounded⟩, by decide,
    ⟨⟨"CC labels", [1, 1, 1, 1, 1, 1]⟩, by decide, rfl⟩,
    C23_existing_label_field_destroyed sampleEngine [.cloud (.pointCloud sampleCloud)]
      [sampleMesh] relabelledCloud
      (({ relabelledCloud with octree := some ⟨1⟩ } : ccPointCloud).setCurrentScalarField 1)
      ⟨1⟩ 1 8 2 100 false 0 sampleEngine_sortPermutes sampleEngine_extractBounded
      (by decide) (by decide) ⟨⟨"CC labels", [1, 1, 1, 1, 1, 1]⟩, by decide, rfl⟩ (by decide)⟩

theorem createComponentsClouds__builtFrom (E : Engine) (c : ccGenericPointCloud)
    (C : List ReferenceCloud) (m : Nat) (rc sb : Bool) (gen : Nat)
    (hperm : E.SortPermutes) (hlen : C.length < 4294967296) :
    ∃ r gs, createComponentsClouds_ E (some c) C m rc sb gen = some r ∧
      List.Forall₂ (BuiltFrom E (asPointCloud c) rc) gs r.resultClouds ∧
      (∀ g ∈ gs, g ∈ C ∧ g.size ≥ m) := by
  refine ⟨_, _, createComponentsClouds__eq E c C m rc sb gen hperm hlen,
    forall₂_decorateAll _ _ _ _ _ _, ?_⟩
  intro g hg
  have h1 := (List.mem_filter.mp hg).1
  have h2 := List.mem_filter.mp h1
  exact ⟨(processingOrder_perm E C sb hperm hlen).subset h2.1, of_decide_eq_true h2.2⟩

theorem createComponentsClouds__all_small (E : Engine) (c : ccGenericPointCloud)
    (C : List ReferenceCloud) (m : Nat) (rc sb : Bool) (gen : Nat)
    (hperm : E.SortPermutes) (hlen : C.length < 4294967296)
    (hsmall : ∀ g ∈ C, g.size < m) :
    createComponentsClouds_ E (some c) C m rc sb gen = some ⟨[], [], gen⟩ := by
  rw [createComponentsClouds__eq E c C m rc sb gen hperm hlen]
  have hnil : (processingOrder E C sb).filter (qualifies m) = [] := by
    apply List.filter_eq_nil_iff.mpr
    intro g hg
    have := hsmall g ((processingOrder_perm E C sb hperm hlen).subset hg)
    simp [qualifies]
    omega
  simp [hnil, decorateAll]

theorem finishCloud_all_small (E : Engine) (m : Int) (rc : Bool) (pc : ccPointCloud)
    (sfIdx : Int) (C : List ReferenceCloud) (st : ExtractState)
    (hperm : E.SortPermutes) (hlen : C.length < 4294967296)
    (hsmall : ∀ g ∈ C, g.size < toUnsigned m) :
    ∃ t, finishCloud E m rc pc sfIdx C st = some t ∧
      t.2.2.resultComponents = st.resultComponents := by
  unfold finishCloud
  cases C.isEmpty with
  | true => exact ⟨_, rfl, rfl⟩
  | false =>
    simp only [Bool.not_false, if_true]
    rw [createComponentsClouds__all_small E _ C _ rc true st.gen hperm hlen hsmall]
    exact ⟨_, rfl, by simp⟩

theorem cloudsLoop_all_small (E : Engine) (ol m mx : Int) (rc : Bool)
    (hperm : E.SortPermutes) (hbound : E.ExtractBounded)
    (hsmall : ∀ pc C, ∀ g ∈ (E.extractConnectedComponents pc C).2, g.size < toUnsigned m) :
    ∀ (cs : List ccGenericPointCloud) (st : ExtractState),
      ∃ p, cloudsLoop E ol m mx rc cs st = some p ∧
        p.2.resultComponents = st.resultComponents := by
  intro cs
  induction cs with
  | nil => intro st; exact ⟨_, rfl, rfl⟩
  | cons c rest ih =>
    intro st
    cases c with
    | generic n =>
      obtain ⟨p, hp, hc⟩ := ih st
      exact ⟨(.generic n :: p.1, p.2), by simp [cloudsLoop, processCloud, hp], hc⟩
    | pointCloud pc0 =>
      simp only [cloudsLoop, processCloud]
      cases hli : labelingInput E pc0 with
      | inl pcb => exact ⟨_, rfl, rfl⟩
      | inr u =>
        obtain ⟨pc2, o, sfIdx⟩ := u
        simp only []
        have hstep : ∃ t, labelAndExtract E ol m mx rc pc2 o sfIdx st = some t ∧
            t.2.2.resultComponents = st.resultComponents := by
          unfold labelAndExtract
          simp only [safetyTest, List.foldl_nil]
          split
          · split
            · exact ⟨_, rfl, rfl⟩
            · exact finishCloud_all_small E m rc _ sfIdx _ _ hperm (hbound _ _) (hsmall _ _)
          · exact finishCloud_all_small E m rc _ sfIdx [] st hperm (by simp) (by simp)
        obtain ⟨t, ht, hres⟩ := hstep
        obtain ⟨fl, c1, s1⟩ := t
        rw [ht]
        cases fl with
        | brk => exact ⟨_, rfl, hres⟩
        | ret => exact ⟨_, rfl, hres⟩
        | next =>
          obtain ⟨p, hp, hc⟩ := ih s1
          simp only [hp]
          exact ⟨_, rfl, hc.trans hres⟩

theorem toUnsigned_of_neg (m : Int) (hneg : m < 0) (hmin : -2147483648 ≤ m) :
    (toUnsigned m : Int) = 4294967296 + m := by
  unfold toUnsigned
  have h : (0 : Int) ≤ m % 4294967296 := Int.emod_nonneg _ (by decide)
  rw [Int.toNat_of_nonneg h]
  omega

/-- C24 (a negative minimum size wraps to unsigned): for a negative `int` `m`, the minimum used
in the comparisons with the group sizes is `2^32 + m`: every cloud returned by
`createComponentsClouds_` called with it comes from a group of at least `2^32 + m` points, and
when every group given by the extraction is smaller than that, `ExtractConnectedComponents_py`
returns no component. -/
theorem C24_negative_minimum_wraps (E : Engine) (m : Int)
    (hneg : m < 0) (hmin : -2147483648 ≤ m) :
    (toUnsigned m : Int) = 4294967296 + m ∧
    (∀ (cloud : ccGenericPointCloud) (components : List ReferenceCloud)
        (randomColors sortBysize : Bool) (gen : Nat),
      E.SortPermutes → components.length < 4294967296 →
      ∃ r gs, createComponentsClouds_ E (some cloud) components (toUnsigned m) randomColors
          sortBysize gen = some r ∧
        List.Forall₂ (BuiltFrom E (asPointCloud cloud) randomColors) gs r.resultClouds ∧
        ∀ g ∈ gs, g ∈ components ∧ (g.size : Int) ≥ 4294967296 + m) ∧
    (∀ (entities : List ccHObject) (octreeLevel maxNumberComponents : Int)
        (randomColors : Bool) (gen : Nat),
      E.SortPermutes → E.ExtractBounded →
      (∀ pc C, ∀ g ∈ (E.extractConnectedComponents pc C).2,
        (g.size : Int) < 4294967296 + m) →
      ∃ r, ExtractConnectedComponents_py E entities octreeLevel m maxNumberComponents
          randomColors gen = some r ∧ r.resultComponents = []) := by
  have hu := toUnsigned_of_neg m hneg hmin
  refine ⟨hu, ?_, ?_⟩
  · intro cloud components rc sb gen hperm hlen
    obtain ⟨r, gs, hr, hf, hg⟩ :=
      createComponentsClouds__builtFrom E cloud components (toUnsigned m) rc sb gen hperm hlen
    refine ⟨r, gs, hr, hf, fun g hgm => ⟨(hg g hgm).1, ?_⟩⟩
    have := (hg g hgm).2
    omega
  · intro entities ol mx rc gen hperm hbound hsmall
    have hsmall1 : ∀ pc C, ∀ g ∈ (E.extractConnectedComponents pc C).2,
        g.size < toUnsigned m := by
      intro pc C g hg
      have := hsmall pc C g hg
      omega
    obtain ⟨p, hp, hc⟩ := cloudsLoop_all_small E ol m mx rc hperm hbound hsmall1
      (collectClouds entities) ⟨0, 0, [], gen⟩
    refine ⟨⟨p.2.nbCloudDone, p.2.resultComponents, writeBack entities p.1, p.2.gen⟩, ?_, hc⟩
    rw [ExtractConnectedComponents_py_eq, hp]
    rfl

theorem C24_negative_minimum_wraps_witness :
    ((-1 : Int) < 0 ∧ (-2147483648 : Int) ≤ -1) ∧
    (toUnsigned (-1) : Int) = 4294967296 + (-1) ∧
    ∃ r, ExtractConnectedComponents_py sampleEngine
        [.cloud (.pointCloud sampleCloud), .cloud (.pointCloud bigCloud)] 8 (-1) 100 false 0
          = some r ∧ r.resultComponents = [] :=
  ⟨by decide,
    (C24_negative_minimum_wraps sampleEngine (-1) (by decide) (by decide)).1,
    (C24_negative_minimum_wraps sampleEngine (-1) (by decide) (by decide)).2.2
      [.cloud (.pointCloud sampleCloud), .cloud (.pointCloud bigCloud)] 8 100 false 0
      sampleEngine_sortPermutes sampleEngine_extractBounded
      (fun _ _ g hg => by
        have h : g ∈ sampleGroups := hg
        have hs : ∀ x ∈ sampleGroups, (x.size : Int) < 4294967296 + (-1) := by decide
        exact hs g h)⟩

theorem toUnsignedChar_emod (ol : Int) : toUnsignedChar (ol % 256) = toUnsignedChar ol := by
  unfold toUnsignedChar
  rw [Int.emod_emod_of_dvd _ (dvd_refl _)]

theorem cloudsLoop_congr_level (E : Engine) (ol ol1 m mx : Int) (rc : Bool)
    (h : toUnsignedChar ol = toUnsignedChar ol1) :
    ∀ (cs : List ccGenericPointCloud) (st : ExtractState),
      cloudsLoop E ol m mx rc cs st = cloudsLoop E ol1 m mx rc cs st := by
  intro cs
  induction cs with
  | nil => intro st; rfl
  | cons c rest ih =>
    intro st
    have hp : processCloud E ol m mx rc c st = processCloud E ol1 m mx rc c st := by
      cases c with
      | generic n => rfl
      | pointCloud pc0 => simp only [processCloud, labelAndExtract, h]
    simp only [cloudsLoop, hp, ih]

theorem componentsLoop_labellingAt (E : Engine) (l : Nat) (pc : Option ccPointCloud)
    (C : List ReferenceCloud) (s : Option (List ComponentIndexAndSize)) (m : Nat) (rc : Bool) :
    ∀ (is : List Nat) (st : LoopState),
      componentsLoop (E.labellingAt l) pc C s m rc is st = componentsLoop E pc C s m rc is st := by
  intro is
  induction is with
  | nil => intro st; rfl
  | cons i rest ih =>
    intro st
    simp only [componentsLoop]
    cases compIndexesAt C s i with
    | none => rfl
    | some g =>
      simp only []
      rw [ih]
      rfl

theorem createComponentsClouds__labellingAt (E : Engine) (l : Nat)
    (c : Option ccGenericPointCloud) (C : List ReferenceCloud)
    (m : Nat) (rc sb : Bool) (gen : Nat) :
    createComponentsClouds_ (E.labellingAt l) c C m rc sb gen
      = createComponentsClouds_ E c C m rc sb gen := by
  have hs : sortBlock (E.labellingAt l) C sb = sortBlock E C sb := rfl
  unfold createComponentsClouds_
  simp only [hs, componentsLoop_labellingAt]

theorem finishCloud_labellingAt (E : Engine) (l : Nat) (m : Int) (rc : Bool)
    (pc : ccPointCloud) (sfIdx : Int) (C : List ReferenceCloud) (st : ExtractState) :
    finishCloud (E.labellingAt l) m rc pc sfIdx C st = finishCloud E m rc pc sfIdx C st := by
  unfold finishCloud
  simp only [createComponentsClouds__labellingAt]

theorem cloudsLoop_labellingAt (E : Engine) (ol m mx : Int) (rc : Bool) :
    ∀ (cs : List ccGenericPointCloud) (st : ExtractState),
      cloudsLoop (E.labellingAt (toUnsignedChar ol)) ol m mx rc cs st
        = cloudsLoop E ol m mx rc cs st := by
  intro cs
  induction cs with
  | nil => intro st; rfl
  | cons c rest ih =>
    intro st
    have hp : processCloud (E.labellingAt (toUnsignedChar ol)) ol m mx rc c st
        = processCloud E ol m mx rc c st := by
      cases c with
      | generic n => rfl
      | pointCloud pc0 =>
        have hli : labelingInput (E.labellingAt (toUnsignedChar ol)) pc0 = labelingInput E pc0 :=
          rfl
        simp only [processCloud, hli, labelAndExtract, finishCloud_labellingAt]
        rfl
    simp only [cloudsLoop, hp, ih]

/-- C25 (the octree level is reduced modulo 256): the level handed to the labelling engine
is `octreeLevel mod 256`, a value below 256: the call gives what it gives with an engine that
answers every level as `E` answers the level `octreeLevel mod 256`, so no other answer of the
labelling is used; the call with `octreeLevel` is the call with `octreeLevel mod 256`, `264`
behaves as `8` and `-1` as `255`; with a labelling that succeeds at level 8 only, the level
264 gives the three components of the level 8 and the level 9 gives none, and with a
labelling that succeeds at level 255 only, the level -1 gives the three components. -/
theorem C25_octree_level_mod_256 (E : Engine) (entities : List ccHObject)
    (octreeLevel minComponentSize maxNumberComponents : Int) (randomColors : Bool) (gen : Nat) :
    (toUnsignedChar octreeLevel : Int) = octreeLevel % 256 ∧
    toUnsignedChar octreeLevel < 256 ∧
    ExtractConnectedComponents_py E entities octreeLevel minComponentSize maxNumberComponents
        randomColors gen =
      ExtractConnectedComponents_py (E.labellingAt (octreeLevel % 256).toNat) entities
        octreeLevel minComponentSize maxNumberComponents randomColors gen ∧
    (∀ (pc2 : ccPointCloud) (o : ccOctree) (sfIdx : Int) (st : ExtractState),
      labelAndExtract E octreeLevel minComponentSize maxNumberComponents randomColors
          pc2 o sfIdx st =
        labelAndExtract E (octreeLevel % 256) minComponentSize maxNumberComponents randomColors
          pc2 o sfIdx st) ∧
    ExtractConnectedComponents_py E entities octreeLevel minComponentSize maxNumberComponents
        randomColors gen =
      ExtractConnectedComponents_py E entities (octreeLevel % 256) minComponentSize
        maxNumberComponents randomColors gen ∧
    ExtractConnectedComponents_py E entities 264 minComponentSize maxNumberComponents
        randomColors gen =
      ExtractConnectedComponents_py E entities 8 minComponentSize maxNumberComponents
        randomColors gen ∧
    ExtractConnectedComponents_py E entities (-1) minComponentSize maxNumberComponents
        randomColors gen =
      ExtractConnectedComponents_py E entities 255 minComponentSize maxNumberComponents
        randomColors gen ∧
    (ExtractConnectedComponents_py (onlyLevelEngine 8) [.cloud (.pointCloud sampleCloud)]
        264 1 100 false 0).map (fun r => (r.nbCloudDone, r.resultComponents.length))
      = some (1, 3) ∧
    (ExtractConnectedComponents_py (onlyLevelEngine 8) [.cloud (.pointCloud sampleCloud)]
        9 1 100 false 0).map (fun r => (r.nbCloudDone, r.resultComponents.length))
      = some (1, 0) ∧
    (ExtractConnectedComponents_py (onlyLevelEngine 255) [.cloud (.pointCloud sampleCloud)]
        (-1) 1 100 false 0).map (fun r => (r.nbCloudDone, r.resultComponents.length))
      = some (1, 3) := by
  have hnn : (0 : Int) ≤ octreeLevel % 256 := Int.emod_nonneg _ (by decide)
  have hlt : octreeLevel % 256 < 256 := Int.emod_lt_of_pos _ (by decide)
  refine ⟨?_, ?_, ?_, ?_, ?_, ?_, ?_, by decide, by decide, by decide⟩
  · unfold toUnsignedChar
    exact Int.toNat_of_nonneg hnn
  · unfold toUnsignedChar
    omega
  · have hl : (octreeLevel % 256).toNat = toUnsignedChar octreeLevel := rfl
    rw [hl, ExtractConnectedComponents_py_eq, ExtractConnectedComponents_py_eq,
      cloudsLoop_labellingAt]
  · intro pc2 o sfIdx st
    simp only [labelAndExtract, toUnsignedChar_emod]
  · rw [ExtractConnectedComponents_py_eq, ExtractConnectedComponents_py_eq,
      cloudsLoop_congr_level E octreeLevel (octreeLevel % 256) _ _ _
        (toUnsignedChar_emod octreeLevel).symm]
  · rw [ExtractConnectedComponents_py_eq, ExtractConnectedComponents_py_eq,
      cloudsLoop_congr_level E 264 8 _ _ _ (by decide)]
  · rw [ExtractConnectedComponents_py_eq, ExtractConnectedComponents_py_eq,
      cloudsLoop_congr_level E (-1) 255 _ _ _ (by decide)]

/-! ## `GetFirstAvailableSFName` -/

theorem getScalarFieldIndexByName_of_mem (pc : ccPointCloud) (name : String)
    (h : ∃ sf ∈ pc.scalarFields, sf.name = name) :
    pc.getScalarFieldIndexByName name ≥ 0 := by
  by_contra hneg
  obtain ⟨sf, hsf, hname⟩ := h
  exact getScalarFieldIndexByName_neg pc name (by omega) sf hsf hname

theorem sfCandidate_succ (baseName : String) (k : Nat) :
    sfCandidate baseName (k + 1) = sfNameFormat baseName (k + 1) := by
  simp [sfCandidate]

theorem sfNameLoop_first_free (cloud : ccPointCloud) (baseName : String) (k : Nat)
    (hk : k ≤ 99)
    (hfree : cloud.getScalarFieldIndexByName (sfCandidate baseName k) < 0)
    (hused : ∀ j < k, cloud.getScalarFieldIndexByName (sfCandidate baseName j) ≥ 0) :
    ∀ (d tries fuel : Nat), tries + d = k → d < fuel →
      sfNameLoop cloud baseName fuel (sfCandidate baseName tries) tries
        = .returned (sfCandidate baseName k, k) := by
  intro d
  induction d with
  | zero =>
    intro tries fuel ht hf
    have htk : tries = k := by omega
    subst htk
    obtain ⟨n, rfl⟩ : ∃ n, fuel = n + 1 := ⟨fuel - 1, by omega⟩
    have hc : ¬ (cloud.getScalarFieldIndexByName (sfCandidate baseName tries) ≥ 0 ∨ tries > 99) := by
      omega
    simp only [sfNameLoop, hc, if_false]
  | succ d ih =>
    intro tries fuel ht hf
    obtain ⟨n, rfl⟩ : ∃ n, fuel = n + 1 := ⟨fuel - 1, by omega⟩
    have hu := hused tries (by omega)
    have hc : cloud.getScalarFieldIndexByName (sfCandidate baseName tries) ≥ 0 ∨ tries > 99 :=
      Or.inl hu
    have ho : ¬ tries + 1 > 2147483647 := by omega
    simp only [sfNameLoop, hc, if_true, ho, if_false]
    rw [← sfCandidate_succ]
    exact ih (tries + 1) n (by omega) (by omega)

theorem sfNameLoop_exit (cloud : ccPointCloud) (baseName : String) :
    ∀ (fuel : Nat) (name : String) (tries : Nat) (p : String × Nat),
      sfNameLoop cloud baseName fuel name tries = .returned p →
      p.2 ≤ 99 ∧ cloud.getScalarFieldIndexByName p.1 < 0 := by
  intro fuel
  induction fuel with
  | zero => intro name tries p h; simp [sfNameLoop] at h
  | succ n ih =>
    intro name tries p h
    simp only [sfNameLoop] at h
    split at h
    · split at h
      · exact absurd h (by simp)
      · exact ih _ _ _ h
    · rename_i hc
      simp only [Outcome.returned.injEq] at h
      subst h
      simp only
      omega

theorem sfNameLoop_all_used (cloud : ccPointCloud) (baseName : String)
    (hused : ∀ k ≤ 99, cloud.getScalarFieldIndexByName (sfCandidate baseName k) ≥ 0) :
    ∀ (fuel : Nat) (name : String) (tries : Nat),
      (tries ≤ 99 → name = sfCandidate baseName tries) →
      (∀ p, sfNameLoop cloud baseName fuel name tries ≠ .returned p) ∧
      (tries + fuel ≤ 2147483647 →
        sfNameLoop cloud baseName fuel name tries = .running) := by
  intro fuel
  induction fuel with
  | zero => intro name tries _; simp [sfNameLoop]
  | succ n ih =>
    intro name tries hname
    have hc : cloud.getScalarFieldIndexByName name ≥ 0 ∨ tries > 99 := by
      by_cases ht : tries ≤ 99
      · left
        rw [hname ht]
        exact hused tries ht
      · right
        omega
    simp only [sfNameLoop, hc, if_true]
    by_cases ho : tries + 1 > 2147483647
    · simp only [ho, if_true]
      exact ⟨fun p h => by simp at h, fun hle => by omega⟩
    · simp only [ho, if_false]
      have := ih (sfNameFormat baseName (tries + 1)) (tries + 1)
        (fun _ => (sfCandidate_succ baseName tries).symm)
      exact ⟨this.1, fun hle => this.2 (by omega)⟩

theorem GetFirstAvailableSFName_returns (cloud : ccPointCloud) (baseName : String) (k : Nat)
    (hk : k ≤ 99)
    (hfree : cloud.getScalarFieldIndexByName (sfCandidate baseName k) < 0)
    (hused : ∀ j < k, cloud.getScalarFieldIndexByName (sfCandidate baseName j) ≥ 0)
    (fuel : Nat) (hfuel : k < fuel) :
    GetFirstAvailableSFName cloud baseName fuel = .returned (sfCandidate baseName k) := by
  unfold GetFirstAvailableSFName
  have h := sfNameLoop_first_free cloud baseName k hk hfree hused k 0 fuel (by omega) hfuel
  have h0 : sfCandidate baseName 0 = baseName := by simp [sfCandidate]
  rw [h0] at h
  rw [h]
  have : ¬ k > 99 := by omega
  simp [Outcome.bind, this]

theorem GetFirstAvailableSFName_free (cloud : ccPointCloud) (baseName : String)
    (fuel : Nat) (name : String)
    (h : GetFirstAvailableSFName cloud baseName fuel = .returned name) :
    cloud.getScalarFieldIndexByName name < 0 := by
  unfold GetFirstAvailableSFName at h
  cases hl : sfNameLoop cloud baseName fuel baseName 0 with
  | returned p =>
    have hex := sfNameLoop_exit cloud baseName fuel baseName 0 p hl
    rw [hl] at h
    have hn : ¬ p.2 > 99 := by omega
    simp only [Outcome.bind, hn, if_false, Outcome.returned.injEq] at h
    rw [← h]
    exact hex.2
  | thrown => rw [hl] at h; simp [Outcome.bind] at h
  | running => rw [hl] at h; simp [Outcome.bind] at h
  | undefined => rw [hl] at h; simp [Outcome.bind] at h

theorem first_free_candidate (cloud : ccPointCloud) (baseName : String)
    (h : ∃ k ≤ 99, cloud.getScalarFieldIndexByName (sfCandidate baseName k) < 0) :
    ∃ k ≤ 99, cloud.getScalarFieldIndexByName (sfCandidate baseName k) < 0 ∧
      ∀ j < k, cloud.getScalarFieldIndexByName (sfCandidate baseName j) ≥ 0 := by
  classical
  have h1 : ∃ k, k ≤ 99 ∧ cloud.getScalarFieldIndexByName (sfCandidate baseName k) < 0 := by
    obtain ⟨k, hk, hf⟩ := h
    exact ⟨k, hk, hf⟩
  refine ⟨Nat.find h1, (Nat.find_spec h1).1, (Nat.find_spec h1).2, ?_⟩
  intro j hj
  have hmin := Nat.find_min h1 hj
  have hj99 : j ≤ 99 := by
    have := (Nat.find_spec h1).1
    omega
  by_contra hneg
  exact hmin ⟨hj99, by omega⟩

theorem sfNameFormat_ne_empty (baseName : String) (k : Nat) : sfNameFormat baseName k ≠ "" := by
  intro h
  have hl := congrArg String.length h
  simp only [sfNameFormat, String.length_append] at hl
  have h2 : " #".length = 2 := by decide
  have h0 : "".length = 0 := by decide
  omega

/-- C26 (counterexample): with the empty base name on a cloud without scalar field, the first
candidate is free and `GetFirstAvailableSFName` returns it: the empty string. -/
theorem C26_counterexample_empty_base_name :
    (∃ k ≤ 99, bareCloud.getScalarFieldIndexByName (sfCandidate "" k) < 0) ∧
    GetFirstAvailableSFName bareCloud "" 1 = .returned "" := by
  refine ⟨⟨0, by decide, by decide⟩, by decide⟩

/-- C26 (amended; the first free candidate is returned): when one of the hundred candidates
`baseName`, `baseName #1`, ..., `baseName #99` is not the name of a scalar field of the cloud,
`GetFirstAvailableSFName` returns, with enough fuel, the first such candidate; no scalar field
of the cloud has the returned name, and the returned name is not the empty string when the
base name is not empty. -/
theorem C26_first_free_candidate (cloud : ccPointCloud) (baseName : String)
    (hfree : ∃ k ≤ 99, cloud.getScalarFieldIndexByName (sfCandidate baseName k) < 0) :
    ∃ k ≤ 99,
      cloud.getScalarFieldIndexByName (sfCandidate baseName k) < 0 ∧
      (∀ j < k, cloud.getScalarFieldIndexByName (sfCandidate baseName j) ≥ 0) ∧
      (∀ fuel, k < fuel →
        GetFirstAvailableSFName cloud baseName fuel = .returned (sfCandidate baseName k)) ∧
      (∀ sf ∈ cloud.scalarFields, sf.name ≠ sfCandidate baseName k) ∧
      (baseName ≠ "" → sfCandidate baseName k ≠ "") := by
  obtain ⟨k, hk, hf, hu⟩ := first_free_candidate cloud baseName hfree
  refine ⟨k, hk, hf, hu, fun fuel hfuel =>
    GetFirstAvailableSFName_returns cloud baseName k hk hf hu fuel hfuel,
    getScalarFieldIndexByName_neg cloud _ hf, ?_⟩
  intro hb
  unfold sfCandidate
  split
  · exact hb
  · exact sfNameFormat_ne_empty baseName k

theorem C26_first_free_candidate_witness :
    (∃ k ≤ 99, colouredCloud.getScalarFieldIndexByName (sfCandidate "R" k) < 0) ∧
    ∃ k ≤ 99,
      colouredCloud.getScalarFieldIndexByName (sfCandidate "R" k) < 0 ∧
      (∀ j < k, colouredCloud.getScalarFieldIndexByName (sfCandidate "R" j) ≥ 0) ∧
      (∀ fuel, k < fuel →
        GetFirstAvailableSFName colouredCloud "R" fuel = .returned (sfCandidate "R" k)) ∧
      (∀ sf ∈ colouredCloud.scalarFields, sf.name ≠ sfCandidate "R" k) ∧
      ("R" ≠ "" → sfCandidate "R" k ≠ "") :=
  ⟨⟨1, by decide, by decide⟩,
    C26_first_free_candidate colouredCloud "R" ⟨1, by decide, by decide⟩⟩

theorem fullCloud_all_used :
    ∀ k ≤ 99, fullCloud.getScalarFieldIndexByName (sfCandidate "R" k) ≥ 0 := by
  intro k hk
  apply getScalarFieldIndexByName_of_mem
  refine ⟨⟨sfCandidate "R" k, []⟩, ?_, rfl⟩
  show (⟨sfCandidate "R" k, []⟩ : ScalarField)
    ∈ (List.range 100).map (fun k => (⟨sfCandidate "R" k, []⟩ : ScalarField))
  exact List.mem_map.mpr ⟨k, List.mem_range.mpr (by omega), rfl⟩

/-- C27 (no return when the hundred candidates are in use): when `baseName` and
`baseName #1` .. `baseName #99` are all names of scalar fields of the cloud,
`GetFirstAvailableSFName` returns for no amount of fuel, and it is still running after any
number of rounds that the counter can hold; and on every cloud the loop is left with
`tries ≤ 99` only, so that the return of the empty string after the loop is never taken. -/
theorem C27_no_return_when_all_in_use (cloud : ccPointCloud) (baseName : String)
    (hused : ∀ k ≤ 99, cloud.getScalarFieldIndexByName (sfCandidate baseName k) ≥ 0) :
    (∀ fuel name, GetFirstAvailableSFName cloud baseName fuel ≠ .returned name) ∧
    (∀ fuel ≤ 2147483647, GetFirstAvailableSFName cloud baseName fuel = .running) ∧
    (∀ (other : ccPointCloud) (fuel : Nat) (name : String) (tries : Nat),
      sfNameLoop other baseName fuel baseName 0 = .returned (name, tries) →
        ¬ tries > 99 ∧
        GetFirstAvailableSFName other baseName fuel = .returned name) := by
  have h0 : (0 : Nat) ≤ 99 → baseName = sfCandidate baseName 0 := fun _ => by
    simp [sfCandidate]
  refine ⟨?_, ?_, ?_⟩
  · intro fuel name h
    unfold GetFirstAvailableSFName at h
    have hl := (sfNameLoop_all_used cloud baseName hused fuel baseName 0 h0).1
    cases hr : sfNameLoop cloud baseName fuel baseName 0 with
    | returned p => exact hl p hr
    | thrown => rw [hr] at h; simp [Outcome.bind] at h
    | running => rw [hr] at h; simp [Outcome.bind] at h
    | undefined => rw [hr] at h; simp [Outcome.bind] at h
  · intro fuel hfuel
    unfold GetFirstAvailableSFName
    rw [(sfNameLoop_all_used cloud baseName hused fuel baseName 0 h0).2 (by omega)]
    rfl
  · intro other fuel name tries h
    have hex := sfNameLoop_exit other baseName fuel baseName 0 _ h
    have hn : ¬ tries > 99 := by
      have := hex.1
      simp only at this
      omega
    refine ⟨hn, ?_⟩
    unfold GetFirstAvailableSFName
    rw [h]
    simp [Outcome.bind, hn]

theorem C27_no_return_when_all_in_use_witness :
    (∀ k ≤ 99, fullCloud.getScalarFieldIndexByName (sfCandidate "R" k) ≥ 0) ∧
    (∀ fuel name, GetFirstAvailableSFName fullCloud "R" fuel ≠ .returned name) ∧
    GetFirstAvailableSFName fullCloud "R" 1000 = .running :=
  ⟨fullCloud_all_used,
    (C27_no_return_when_all_in_use fullCloud "R" fullCloud_all_used).1,
    (C27_no_return_when_all_in_use fullCloud "R" fullCloud_all_used).2.1 1000 (by decide)⟩

/-! ## `sfFromColor_py` -/

theorem Outcome.bind_eq_returned {α β : Type} (x : Outcome α) (f : α → Outcome β) (b : β) :
    x.bind f = .returned b ↔ ∃ a, x = .returned a ∧ f a = .returned b := by
  cases x <;> simp [Outcome.bind]

theorem deleteScalarField_nodup (pc : ccPointCloud) (index : Int)
    (h : (fieldNames pc).Nodup) : (fieldNames (pc.deleteScalarField index)).Nodup := by
  by_cases hin : 0 ≤ index ∧ index.toNat < pc.scalarFields.length
  · have hperm := deleteScalarField_perm pc index hin.1 hin.2
    have hsub : ((pc.scalarFields.eraseIdx index.toNat).map (fun sf => sf.name)).Sublist
        (pc.scalarFields.map (fun sf => sf.name)) :=
      (List.eraseIdx_sublist _ _).map _
    exact ((hperm.map (fun sf => sf.name)).nodup_iff).mpr (h.sublist hsub)
  · have hcond : index < 0 ∨ index ≥ (pc.scalarFields.length : Int) := by omega
    unfold ccPointCloud.deleteScalarField
    simp only [hcond, if_true]
    exact h

theorem addScalarField_sf_nodup (E : Engine) (pc : ccPointCloud) (sf : ScalarField)
    (h : (fieldNames pc).Nodup) : (fieldNames (pc.addScalarField_sf E sf).2).Nodup := by
  unfold ccPointCloud.addScalarField_sf
  split
  · exact h
  · rename_i hneg
    split
    · have hfree := getScalarFieldIndexByName_neg pc sf.name (by omega)
      simp only [fieldNames, List.map_append, List.map_cons, List.map_nil]
      refine List.Nodup.append h (List.nodup_singleton _) ?_
      intro n hn hn1
      simp only [List.mem_singleton] at hn1
      obtain ⟨g, hg, hgn⟩ := List.mem_map.mp hn
      exact hfree g hg (hgn.trans hn1)
    · exact h

theorem insertField_nodup (E : Engine) (pc : ccPointCloud) (sf : Option ScalarField)
    (h : (fieldNames pc).Nodup) : (fieldNames (insertField E pc sf)).Nodup := by
  cases sf with
  | none => exact h
  | some f =>
    simp only [insertField]
    apply addScalarField_sf_nodup
    split
    · exact deleteScalarField_nodup pc _ h
    · exact h

theorem foldl_insertField_nodup (E : Engine) :
    ∀ (fields : List (Option ScalarField)) (pc : ccPointCloud),
      (fieldNames pc).Nodup → (fieldNames (fields.foldl (insertField E) pc)).Nodup := by
  intro fields
  induction fields with
  | nil => intro pc h; exact h
  | cons f rest ih =>
    intro pc h
    exact ih _ (insertField_nodup E pc f h)

theorem readColors_total (self : ccPointCloud) :
    ∀ (js : List Nat), (∀ j ∈ js, (self.getPointColor j).isSome = true) →
      ∃ cols, readColors self js = some cols := by
  intro js
  induction js with
  | nil => intro _; exact ⟨[], rfl⟩
  | cons j rest ih =>
    intro h
    obtain ⟨cols, hc⟩ := ih (fun i hi => h i (List.mem_cons_of_mem _ hi))
    obtain ⟨col, hcol⟩ := Option.isSome_iff_exists.mp (h j (List.mem_cons_self _ _))
    exact ⟨col :: cols, by simp [readColors, hcol, hc]⟩

theorem newField_total (self : ccPointCloud) (fuel : Nat) (flag : Bool) (baseName : String)
    (hfree : ∃ k ≤ 99, self.getScalarFieldIndexByName (sfCandidate baseName k) < 0)
    (hfuel : 99 < fuel) :
    ∃ f, newField self fuel flag baseName = .returned f := by
  unfold newField
  cases flag with
  | false => exact ⟨none, rfl⟩
  | true =>
    obtain ⟨k, hk, hf, hu⟩ := first_free_candidate self baseName hfree
    rw [if_pos rfl, GetFirstAvailableSFName_returns self baseName k hk hf hu fuel (by omega)]
    exact ⟨_, rfl⟩

/-- C21 (`sfFromColor_py` keeps the scalar-field names distinct): on a cloud whose scalar-field
names are pairwise distinct, for every choice of the five flags, whenever `sfFromColor_py`
returns it returns `true` and the names of the scalar fields of the cloud are still pairwise
distinct; and it does return, with fuel above 99, when every point has a colour and each of
the five base names has a free candidate among its hundred. -/
theorem C21_sfFromColor_keeps_names_distinct (E : Engine) (reserveSafe : String → Nat → Bool)
    (third : Nat → Scalar) (fuel : Nat) (self : ccPointCloud)
    (exportR exportG exportB exportAlpha exportComposite : Bool)
    (hnodup : (fieldNames self).Nodup) :
    (∀ b after,
      sfFromColor_py E reserveSafe third fuel self exportR exportG exportB exportAlpha
          exportComposite = .returned (b, after) →
        b = true ∧ (fieldNames after).Nodup) ∧
    ((∀ j < self.size, (self.getPointColor j).isSome = true) →
      (∀ base ∈ ["R", "G", "B", "Alpha", "Composite"],
        ∃ k ≤ 99, self.getScalarFieldIndexByName (sfCandidate base k) < 0) →
      99 < fuel →
      ∃ after,
        sfFromColor_py E reserveSafe third fuel self exportR exportG exportB exportAlpha
          exportComposite = .returned (true, after) ∧
        (fieldNames after).Nodup) := by
  have hpart : ∀ b after,
      sfFromColor_py E reserveSafe third fuel self exportR exportG exportB exportAlpha
          exportComposite = .returned (b, after) →
        b = true ∧ (fieldNames after).Nodup := by
    intro b after h
    unfold sfFromColor_py at h
    obtain ⟨f0, _, h⟩ := (Outcome.bind_eq_returned _ _ _).mp h
    obtain ⟨f1, _, h⟩ := (Outcome.bind_eq_returned _ _ _).mp h
    obtain ⟨f2, _, h⟩ := (Outcome.bind_eq_returned _ _ _).mp h
    obtain ⟨f3, _, h⟩ := (Outcome.bind_eq_returned _ _ _).mp h
    obtain ⟨f4, _, h⟩ := (Outcome.bind_eq_returned _ _ _).mp h
    simp only at h
    cases hr : readColors self (List.range self.size) with
    | none => rw [hr] at h; simp at h
    | some cols =>
      rw [hr] at h
      simp only [Outcome.returned.injEq, Prod.mk.injEq] at h
      refine ⟨h.1.symm, ?_⟩
      rw [← h.2]
      exact foldl_insertField_nodup E _ self hnodup
  refine ⟨hpart, ?_⟩
  intro hcol hfree hfuel
  obtain ⟨f0, h0⟩ := newField_total self fuel exportR "R" (hfree _ (by simp)) hfuel
  obtain ⟨f1, h1⟩ := newField_total self fuel exportG "G" (hfree _ (by simp)) hfuel
  obtain ⟨f2, h2⟩ := newField_total self fuel exportB "B" (hfree _ (by simp)) hfuel
  obtain ⟨f3, h3⟩ := newField_total self fuel exportAlpha "Alpha" (hfree _ (by simp)) hfuel
  obtain ⟨f4, h4⟩ :=
    newField_total self fuel exportComposite "Composite" (hfree _ (by simp)) hfuel
  obtain ⟨cols, hc⟩ := readColors_total self (List.range self.size)
    (fun j hj => hcol j (List.mem_range.mp hj))
  have hret : ∃ after,
      sfFromColor_py E reserveSafe third fuel self exportR exportG exportB exportAlpha
          exportComposite = .returned (true, after) := by
    unfold sfFromColor_py
    rw [h0, h1, h2, h3, h4]
    simp only [Outcome.bind, hc]
    exact ⟨_, rfl⟩
  obtain ⟨after, ha⟩ := hret
  exact ⟨after, ha, (hpart true after ha).2⟩

theorem C21_sfFromColor_keeps_names_distinct_witness :
    (fieldNames colouredCloud).Nodup ∧
    ∃ after,
      sfFromColor_py sampleEngine (fun _ _ => true) sampleThird 100 colouredCloud
        true true false false true = .returned (true, after) ∧
      (fieldNames after).Nodup :=
  ⟨by decide,
    (C21_sfFromColor_keeps_names_distinct sampleEngine (fun _ _ => true) sampleThird
      100 colouredCloud true true false false true (by decide)).2
      (by decide)
      (fun base hb => by
        simp only [List.mem_cons, List.mem_singleton, List.not_mem_nil, or_false] at hb
        rcases hb with rfl | rfl | rfl | rfl | rfl
        · exact ⟨1, by decide, by decide⟩
        · exact ⟨0, by decide, by decide⟩
        · exact ⟨0, by decide, by decide⟩
        · exact ⟨0, by decide, by decide⟩
        · exact ⟨0, by decide, by decide⟩)
      (by decide)⟩

theorem sfFromColor_py_sample :
    (sfFromColor_py sampleEngine (fun _ _ => true) sampleThird 100 colouredCloud
        true true false false true).bind (fun p => .returned (p.1, p.2.scalarFields))
      = .returned (true, [⟨"R", [1, 1, 1, 1, 1, 1]⟩, ⟨"Intensity", [5, 5, 5, 5, 5, 5]⟩,
          ⟨"R #1", [10, 40, 70, 100, 130, 160]⟩, ⟨"G", [20, 50, 80, 110, 140, 170]⟩,
          ⟨"Composite", [20, 50, 80, 110, 140, 170]⟩]) := by
  decide

/-! ## `changeColorLevels_py` -/

theorem colorLoop_frame (f : Rgba → Rgba) (R : Rgba → Rgba → Prop)
    (hrefl : ∀ c, R c c) (htrans : ∀ a b c, R a b → R b c → R a c) (hf : ∀ c, R c (f c)) :
    ∀ (is : List Nat) (cols cols1 : List Rgba), colorLoop f is cols = some cols1 →
      cols1.length = cols.length ∧
      ∀ (j : Nat) (c1 : Rgba), cols1[j]? = some c1 → ∃ c : Rgba, cols[j]? = some c ∧ R c c1 := by
  intro is
  induction is with
  | nil =>
    intro cols cols1 h
    simp only [colorLoop, Option.some.injEq] at h
    subst h
    exact ⟨rfl, fun j c1 hj => ⟨c1, hj, hrefl c1⟩⟩
  | cons i rest ih =>
    intro cols cols1 h
    simp only [colorLoop] at h
    cases hi : cols[i]? with
    | none => rw [hi] at h; simp at h
    | some col =>
      rw [hi] at h
      simp only at h
      obtain ⟨hlen, hpt⟩ := ih _ _ h
      refine ⟨by rw [hlen, List.length_set], ?_⟩
      intro j c1 hj
      obtain ⟨c, hc, hR⟩ := hpt j c1 hj
      rw [List.getElem?_set] at hc
      by_cases hij : i = j
      · subst hij
        simp only [if_true] at hc
        split at hc
        · simp only [Option.some.injEq] at hc
          subst hc
          exact ⟨col, hi, htrans _ _ _ (hf col) hR⟩
        · exact absurd hc (by simp)
      · simp only [hij, if_false] at hc
        exact ⟨c, hc, hR⟩

theorem colorLoop_total (f : Rgba → Rgba) :
    ∀ (is : List Nat) (cols : List Rgba), (∀ i ∈ is, i < cols.length) →
      ∃ cols1, colorLoop f is cols = some cols1 := by
  intro is
  induction is with
  | nil => intro cols _; exact ⟨cols, rfl⟩
  | cons i rest ih =>
    intro cols h
    have hi : i < cols.length := h i (List.mem_cons_self _ _)
    simp only [colorLoop, List.getElem?_eq_getElem hi]
    apply ih
    intro k hk
    rw [List.length_set]
    exact h k (List.mem_cons_of_mem _ hk)

/-- C28 (guard and frame of `changeColorLevels_py`): on a cloud that has colours the call does
not throw; it returns `false` with the cloud as it was when `sin0 >= sin1` or
`sout0 >= sout1`, and it returns `false` in that case only; when it returns `true` the points
and the number of colours are those of before and each colour keeps its alpha component and
every channel whose flag is false; and it does return when every point has a colour. -/
theorem C28_color_levels_guard_and_frame (levelOf : Nat → Nat → Int → Nat → Int → Nat)
    (self : ccPointCloud) (cols : List Rgba) (sin0 sin1 sout0 sout1 : Nat)
    (onRed onGreen onBlue : Bool) (hcol : self.rgbaColors = some cols) :
    changeColorLevels_py levelOf self sin0 sin1 sout0 sout1 onRed onGreen onBlue ≠ .thrown ∧
    (sin0 ≥ sin1 ∨ sout0 ≥ sout1 →
      changeColorLevels_py levelOf self sin0 sin1 sout0 sout1 onRed onGreen onBlue
        = .returned (false, self)) ∧
    (∀ after,
      changeColorLevels_py levelOf self sin0 sin1 sout0 sout1 onRed onGreen onBlue
          = .returned (false, after) →
        (sin0 ≥ sin1 ∨ sout0 ≥ sout1) ∧ after = self) ∧
    (∀ after,
      changeColorLevels_py levelOf self sin0 sin1 sout0 sout1 onRed onGreen onBlue
          = .returned (true, after) →
        ¬ (sin0 ≥ sin1 ∨ sout0 ≥ sout1) ∧
        after.points = self.points ∧ after.size = self.size ∧
        ∃ cols1, after.rgbaColors = some cols1 ∧ cols1.length = cols.length ∧
          ∀ (j : Nat) (c1 : Rgba), cols1[j]? = some c1 → ∃ c : Rgba, cols[j]? = some c ∧
            c1.a = c.a ∧ (onRed = false → c1.r = c.r) ∧ (onGreen = false → c1.g = c.g) ∧
            (onBlue = false → c1.b = c.b)) ∧
    (¬ (sin0 ≥ sin1 ∨ sout0 ≥ sout1) → self.size ≤ cols.length →
      ∃ after,
        changeColorLevels_py levelOf self sin0 sin1 sout0 sout1 onRed onGreen onBlue
          = .returned (true, after)) := by
  unfold changeColorLevels_py
  rw [hcol]
  simp only
  by_cases hg : sin0 ≥ sin1 ∨ sout0 ≥ sout1
  · rw [if_pos hg]
    refine ⟨by simp, fun _ => rfl, ?_, ?_, fun hn => absurd hg hn⟩
    · intro after h
      simp only [Outcome.returned.injEq, Prod.mk.injEq, true_and] at h
      exact ⟨hg, h.symm⟩
    · intro after h
      simp at h
  · rw [if_neg hg]
    cases hl : colorLoop (newRgb levelOf onRed onGreen onBlue sin0 sout0
        ((sin1 : Int) - sin0) ((sout1 : Int) - sout0)) (List.range self.size) cols with
    | none =>
      refine ⟨by simp, fun h => absurd h hg, fun after h => by simp at h,
        fun after h => by simp at h, ?_⟩
      intro _ hsize
      obtain ⟨cols1, hc⟩ := colorLoop_total (newRgb levelOf onRed onGreen onBlue sin0 sout0
        ((sin1 : Int) - sin0) ((sout1 : Int) - sout0)) (List.range self.size) cols
        (fun i hi => by have := List.mem_range.mp hi; omega)
      rw [hl] at hc
      exact absurd hc (by simp)
    | some cols1 =>
      refine ⟨by simp, fun h => absurd h hg, fun after h => by simp at h, ?_,
        fun _ _ => ⟨_, rfl⟩⟩
      intro after h
      simp only [Outcome.returned.injEq, Prod.mk.injEq, true_and] at h
      subst h
      obtain ⟨hlen, hpt⟩ := colorLoop_frame
        (newRgb levelOf onRed onGreen onBlue sin0 sout0
          ((sin1 : Int) - sin0) ((sout1 : Int) - sout0))
        (fun c c1 => c1.a = c.a ∧ (onRed = false → c1.r = c.r) ∧
          (onGreen = false → c1.g = c.g) ∧ (onBlue = false → c1.b = c.b))
        (fun c => ⟨rfl, fun _ => rfl, fun _ => rfl, fun _ => rfl⟩)
        (fun a b c hab hbc => ⟨hbc.1.trans hab.1, fun h => (hbc.2.1 h).trans (hab.2.1 h),
          fun h => (hbc.2.2.1 h).trans (hab.2.2.1 h),
          fun h => (hbc.2.2.2 h).trans (hab.2.2.2 h)⟩)
        (fun c => ⟨rfl, fun h => by simp [newRgb, newChannel, h],
          fun h => by simp [newRgb, newChannel, h], fun h => by simp [newRgb, newChannel, h]⟩)
        _ _ _ hl
      exact ⟨hg, rfl, rfl, cols1, rfl, hlen, hpt⟩


theorem C28_color_levels_guard_and_frame_witness :
    colouredCloud.rgbaColors = some [⟨10, 20, 30, 255⟩, ⟨40, 50, 60, 255⟩, ⟨70, 80, 90, 128⟩,
      ⟨100, 110, 120, 255⟩, ⟨130, 140, 150, 0⟩, ⟨160, 170, 180, 255⟩] ∧
    changeColorLevels_py exactLevel colouredCloud 100 100 0 255 true false false
      = .returned (false, colouredCloud) ∧
    ∃ after, changeColorLevels_py exactLevel colouredCloud 0 100 0 255 true false false
      = .returned (true, after) :=
  ⟨rfl,
    (C28_color_levels_guard_and_frame exactLevel colouredCloud _ 100 100 0 255
      true false false rfl).2.1 (by decide),
    (C28_color_levels_guard_and_frame exactLevel colouredCloud _ 0 100 0 255
      true false false rfl).2.2.2.2 (by decide) (by decide)⟩

theorem changeColorLevels_py_sample :
    (changeColorLevels_py exactLevel colouredCloud 0 100 0 255 true false false).bind
        (fun p => .returned (p.1, p.2.rgbaColors))
      = .returned (true, some [⟨25, 20, 30, 255⟩, ⟨102, 50, 60, 255⟩, ⟨178, 80, 90, 128⟩,
          ⟨255, 110, 120, 255⟩, ⟨255, 140, 150, 0⟩, ⟨255, 170, 180, 255⟩]) := by
  decide

theorem changeColorLevels_py_no_colors (levelOf : Nat → Nat → Int → Nat → Int → Nat)
    (self : ccPointCloud) (sin0 sin1 sout0 sout1 : Nat) (onRed onGreen onBlue : Bool)
    (hcol : self.rgbaColors = none) :
    changeColorLevels_py levelOf self sin0 sin1 sout0 sout1 onRed onGreen onBlue = .thrown := by
  unfold changeColorLevels_py
  rw [hcol]

theorem newChannel_under_guard (levelOf : Nat → Nat → Int → Nat → Int → Nat)
    (c sin0 sin1 sout0 : Nat) (pOut : Int) (h : sin0 < sin1) :
    (0 : Int) < (sin1 : Int) - sin0 ∧
    newChannel levelOf true c sin0 sout0 ((sin1 : Int) - sin0) pOut
      = levelOf c sin0 ((sin1 : Int) - sin0) sout0 pOut := by
  have hq : (0 : Int) < (sin1 : Int) - sin0 := by omega
  have hne : ((sin1 : Int) - sin0) ≠ 0 := by omega
  exact ⟨hq, by simp [newChannel, hne]⟩


end CloudComPy
